import Mathlib

/-!
Verification development for the upgrade orchestrator of the skupper
repository, `src/client/router_update.go` (`RouterUpdateVersionInNamespace`
and its helpers).  The Go code is shallowly embedded as a state-passing
computation over an explicit world of Kubernetes objects (association lists
per object kind).  External API calls consult a call-indexed fault oracle so
that arbitrary store errors (not-found, already-exists, outages) can be
injected; successful mutations are recorded in an event trace.  Collaborator
packages that are not under `src/` (`pkg/utils` version comparison,
`pkg/kube` copy helpers, `api/types` name constants) are modelled from the
spec, marked as such in their doc comments.
-/

namespace SkupperUpdate

/-! ## Version tokens and the version comparator

The comparator `utils.{LessRecentThanVersion,MoreRecentThanVersion,
EquivalentVersion}` is not under `src/`.  Modelled from the spec (§4.1):
a version token has a numeric part and a build/pre-release qualifier;
less/more compare the numeric parts; equivalence is numeric equality
(distinct from textual equality of the whole token). -/

/-- A version token, e.g. `0.6.0-rc1` is `⟨[0,6,0], "rc1"⟩`. -/
structure Ver where
  nums : List Nat
  qual : String
deriving DecidableEq, Repr

/-- Lexicographic order on the numeric parts of two version tokens. -/
def numsLess : List Nat → List Nat → Bool
  | [], [] => false
  | [], _ :: _ => true
  | _ :: _, [] => false
  | a :: as, b :: bs => if a < b then true else if b < a then false else numsLess as bs

/-- Modelled from the spec: `utils.LessRecentThanVersion a b` — the numeric
part of `a` precedes that of `b`. -/
def lessRecentThanVersion (a b : Ver) : Bool := numsLess a.nums b.nums

/-- Modelled from the spec: `utils.MoreRecentThanVersion a b`. -/
def moreRecentThanVersion (a b : Ver) : Bool := numsLess b.nums a.nums

/-- Modelled from the spec: `utils.EquivalentVersion a b` — same numeric
version, qualifiers ignored. -/
def equivalentVersion (a b : Ver) : Bool := a.nums == b.nums

/-- The fixed naming-scheme threshold `"0.5.0"` (router_update.go lines 86, 89). -/
def v050 : Ver := ⟨[0, 5, 0], ""⟩

/-! ## Object names

Object names are Go string constants (literals in router_update.go plus the
`api/types` constants, which are not under `src/` and are modelled from the
spec and the repository's naming conventions).  To keep evaluation cheap they
are embedded as an enumeration with one constructor per distinct name string;
`nmStr` gives each name's spelling.  Only distinctness of the names within an
object kind matters for the claims. -/

/-- The distinct object name strings appearing in the orchestrator. -/
inductive Nm where
  | updateState               -- "skupper-update-state"
  | internal                  -- "skupper-internal"
  | routerLocal               -- "skupper-router-local"
  | router                    -- "skupper-router"
  | skupper                   -- "skupper"
  | routerConsole             -- "skupper-router-console"
  | consoleCerts              -- "skupper-console-certs"
  | routerConsoleCerts        -- "skupper-router-console-certs"
  | localCa                   -- "skupper-local-ca"
  | siteCa                    -- "skupper-site-ca"
  | localServer               -- "skupper-local-server"
  | localClient               -- "skupper-local-client"
  | siteServer                -- "skupper-site-server"
  | serviceController         -- "skupper-service-controller"
  | edge                      -- "skupper-edge"
  | interRouter               -- "skupper-inter-router"
  | messaging                 -- "skupper-messaging"
  | controller                -- "skupper-controller"
  | ca                        -- "skupper-ca"
  | internalCa                -- "skupper-internal-ca"
  | amqps                     -- "skupper-amqps"
  | proxyCerts                -- "skupper-proxy-certs"
  | controllerCerts           -- "skupper-controller-certs"
  | proxyController           -- "skupper-proxy-controller"
  | proxyControllerSkupperEdit -- "skupper-proxy-controller-skupper-edit"
  | skupperSkupperView        -- "skupper-skupper-view"
  | edit                      -- "skupper-edit"
  | view                      -- "skupper-view"
deriving DecidableEq, Repr

/-- The Go spelling of each object name. -/
def nmStr : Nm → String
  | .updateState => "skupper-update-state"
  | .internal => "skupper-internal"
  | .routerLocal => "skupper-router-local"
  | .router => "skupper-router"
  | .skupper => "skupper"
  | .routerConsole => "skupper-router-console"
  | .consoleCerts => "skupper-console-certs"
  | .routerConsoleCerts => "skupper-router-console-certs"
  | .localCa => "skupper-local-ca"
  | .siteCa => "skupper-site-ca"
  | .localServer => "skupper-local-server"
  | .localClient => "skupper-local-client"
  | .siteServer => "skupper-site-server"
  | .serviceController => "skupper-service-controller"
  | .edge => "skupper-edge"
  | .interRouter => "skupper-inter-router"
  | .messaging => "skupper-messaging"
  | .controller => "skupper-controller"
  | .ca => "skupper-ca"
  | .internalCa => "skupper-internal-ca"
  | .amqps => "skupper-amqps"
  | .proxyCerts => "skupper-proxy-certs"
  | .controllerCerts => "skupper-controller-certs"
  | .proxyController => "skupper-proxy-controller"
  | .proxyControllerSkupperEdit => "skupper-proxy-controller-skupper-edit"
  | .skupperSkupperView => "skupper-skupper-view"
  | .edit => "skupper-edit"
  | .view => "skupper-view"

def markerName : Nm := Nm.updateState
def TransportConfigMapName : Nm := Nm.internal
def LocalTransportServiceName : Nm := Nm.routerLocal
def TransportServiceName : Nm := Nm.router
def ControllerServiceName : Nm := Nm.skupper
def RouterConsoleServiceName : Nm := Nm.routerConsole
def OauthConsoleSecret : Nm := Nm.consoleCerts
def OauthRouterConsoleSecret : Nm := Nm.routerConsoleCerts
def LocalCaSecret : Nm := Nm.localCa
def SiteCaSecret : Nm := Nm.siteCa
def LocalServerSecret : Nm := Nm.localServer
def LocalClientSecret : Nm := Nm.localClient
def SiteServerSecret : Nm := Nm.siteServer
def TransportServiceAccountName : Nm := Nm.router
def ControllerServiceAccountName : Nm := Nm.serviceController
def ControllerRoleName : Nm := Nm.serviceController
def TransportRoleName : Nm := Nm.router
def ControllerRoleBindingName : Nm := Nm.serviceController
def TransportRoleBindingName : Nm := Nm.router
def ConsoleRouteName : Nm := Nm.skupper
def EdgeRouteName : Nm := Nm.edge
def InterRouterRouteName : Nm := Nm.interRouter
def TransportDeploymentName : Nm := Nm.router
def ControllerDeploymentName : Nm := Nm.serviceController
def updatedAnnotKey : String := "skupper.io/updated"
def servingCertAnnotKey : String := "service.alpha.openshift.io/serving-cert-secret-name"
def oauthRedirectAnnotKey : String := "serviceaccounts.openshift.io/oauth-redirectreference.primary"

/-- `qualifiedServiceName` (router_update.go line 686). -/
def qualifiedServiceName (name namespace' : String) : String :=
  name ++ "." ++ namespace' ++ ".svc.cluster.local"

/-- Model of `net.ParseIP h != nil`: the string is a dotted numeric literal. -/
def isIPLiteral (s : String) : Bool :=
  s ≠ "" && s.toList.all (fun c => c.isDigit || c = '.')

/-! ## Errors, object kinds, events -/

/-- Kubernetes API error classes distinguished by the code
(`errors.IsNotFound`, `errors.IsAlreadyExists`). -/
inductive ApiErr where
  | notFound
  | alreadyExists
  | other (msg : String)
deriving DecidableEq, Repr

/-- All error values flowing through the embedded code: API errors plus
non-API fatal errors (`fmt.Errorf`, config parse failures). -/
inductive Err where
  | api (e : ApiErr)
  | fatal (msg : String)
deriving DecidableEq, Repr

def isNotFound : Err → Bool
  | .api .notFound => true
  | _ => false

def isAlreadyExists : Err → Bool
  | .api .alreadyExists => true
  | _ => false

def errMsg : Err → String
  | .api .notFound => "not found"
  | .api .alreadyExists => "already exists"
  | .api (.other m) => m
  | .fatal m => m

/-- Object kinds touched by the orchestrator. -/
inductive Kind where
  | configmap
  | service
  | secret
  | serviceAccount
  | role
  | roleBinding
  | route
  | deployment
deriving DecidableEq, Repr

/-- Observable events of a run: API lookups (read attempts), successful
mutations, sleeps of the bounded polling loops, and printed messages. -/
inductive Ev where
  | lookup (k : Kind) (name : Nm)
  | create (k : Kind) (name : Nm)
  | update (k : Kind) (name : Nm)
  | delete (k : Kind) (name : Nm)
  | sleep
  | println (msg : String)
deriving DecidableEq, Repr

/-- Create/update/delete events are the mutations of the object store. -/
def Ev.isMutation : Ev → Bool
  | .create _ _ => true
  | .update _ _ => true
  | .delete _ _ => true
  | _ => false

/-! ## Objects and the world -/

/-- `SiteMetadata` (`config.GetSiteMetadata`): version and identity stored in
the transport configmap. -/
structure SiteMeta where
  version : Ver
  identity : String
deriving DecidableEq, Repr

/-- Content of a configmap as far as the orchestrator inspects it: the
transport configmap carries a parseable router config with site metadata,
the upgrade marker carries the original version (`Data["from"]`), anything
else is opaque. -/
inductive CMContent where
  | router (site : SiteMeta)
  | marker (fromV : Ver)
  | plain
deriving DecidableEq, Repr

structure ConfigMap where
  content : CMContent
  ownerRefs : List String
deriving DecidableEq, Repr

/-- Stored data of a Service object: its type and its annotations. -/
structure SvcData where
  isLoadBalancer : Bool
  annots : List (String × String)
deriving DecidableEq, Repr

/-- A fetched Service: stored data plus the load-balancer ingress host/IP
observed at fetch time (`kube.GetLoadBalancerHostOrIP`), `""` if none. -/
structure Service where
  data : SvcData
  lbHost : String
deriving DecidableEq, Repr

structure Container where
  name : String
  image : String
  args : List String
deriving DecidableEq, Repr

/-- A Deployment's pod template as far as the orchestrator patches it. -/
structure Dep where
  serviceAccountName : Nm
  containers : List Container
  secretMounts : List Nm
  podAnnots : List (String × String)
deriving DecidableEq, Repr

structure Route where
  targetService : Nm
deriving DecidableEq, Repr

/-- Service account: only its annotations are manipulated. -/
structure SA where
  annots : List (String × String)
deriving DecidableEq, Repr

/-! ### Association lists keyed by object name -/

def alook {κ α : Type} [DecidableEq κ] (n : κ) : List (κ × α) → Option α
  | [] => none
  | (k, v) :: rest => if k = n then some v else alook n rest

def aset {κ α : Type} [DecidableEq κ] (n : κ) (v : α) : List (κ × α) → List (κ × α)
  | [] => []
  | (k, w) :: rest => if k = n then (k, v) :: rest else (k, w) :: aset n v rest

def adel {κ α : Type} [DecidableEq κ] (n : κ) : List (κ × α) → List (κ × α)
  | [] => []
  | (k, w) :: rest => if k = n then adel n rest else (k, w) :: adel n rest

/-- Insert-or-replace in an annotation map (Go map assignment). -/
def upsert (k v : String) (l : List (String × String)) : List (String × String) :=
  match alook k l with
  | some _ => aset k v l
  | none => (k, v) :: l

/-- The namespace's object store. -/
structure World where
  configmaps : List (Nm × ConfigMap)
  services : List (Nm × SvcData)
  secrets : List (Nm × String)
  serviceAccounts : List (Nm × SA)
  roles : List (Nm × Unit)
  roleBindings : List (Nm × Unit)
  routes : List (Nm × Route)
  deployments : List (Nm × Dep)
deriving DecidableEq, Repr

/-! ## The computation model

Each external API call consumes one index of the fault oracle; a fault makes
the call return the injected error without touching the world.  Otherwise the
call behaves according to the world: gets return the stored object (not-found
if absent), creates fail with already-exists on present names, updates fail
with not-found on absent names, deletes fail with not-found on absent names.
Successful mutations append an event; every get appends a `lookup` event (an
attempt), also when it fails. -/

/-- Static run environment: the fault oracle, the external load-balancer
controller's host assignment (per service name and clock tick), whether an
OpenShift route client is configured, the image names and library version of
the client (`GetRouterImageName`, `GetServiceControllerImageName`,
`client.Version` are package-level collaborators outside `src/`). -/
structure Env where
  faults : Nat → Option ApiErr
  extLb : Nm → Nat → String
  hasRouteClient : Bool
  routerImage : String
  controllerImage : String
  libVersion : Ver

/-- Mutable run state: the world, the event trace, the count of API calls
made so far (indexing the fault oracle), and a clock advanced by sleeps. -/
structure St where
  w : World
  tr : List Ev
  calls : Nat
  clock : Nat

/-- No fault is ever injected: the object store behaves nominally. -/
def NoFaults (env : Env) : Prop := ∀ n, env.faults n = none

/-- Already-exists errors can arise only from creates hitting an existing
object, never as a spurious store failure. -/
def NoAEFaults (env : Env) : Prop := ∀ n, env.faults n ≠ some ApiErr.alreadyExists

def M (α : Type) : Type := Env → St → Except Err α × St

def M.pure {α : Type} (a : α) : M α := fun _ s => (.ok a, s)

def M.bind {α β : Type} (x : M α) (f : α → M β) : M β := fun env s =>
  match x env s with
  | (.ok a, s') => f a env s'
  | (.error e, s') => (.error e, s')

instance : Monad M where
  pure := M.pure
  bind := M.bind

theorem bind_eq {α β : Type} (x : M α) (f : α → M β) : x >>= f = M.bind x f := rfl

theorem pure_eq {α : Type} (a : α) : (pure a : M α) = M.pure a := rfl

/-- Raise an error (a Go `return false, err`). -/
def mthrow {α : Type} (e : Err) : M α := fun _ s => (.error e, s)

/-- Observe the environment. -/
def askEnv : M Env := fun env s => (.ok env, s)

/-- Read the clock (used for the forced-restart timestamp). -/
def nowM : M Nat := fun _ s => (.ok s.clock, s)

/-- `time.Sleep(time.Second)`. -/
def sleepM : M Unit := fun _ s =>
  match s with
  | ⟨w, tr, calls, clock⟩ => (.ok (), ⟨w, tr ++ [Ev.sleep], calls, clock + 1⟩)

/-- `fmt.Println`. -/
def printlnM (msg : String) : M Unit := fun _ s =>
  match s with
  | ⟨w, tr, calls, clock⟩ => (.ok (), ⟨w, tr ++ [Ev.println msg], calls, clock⟩)

/-- Run a computation and reify its outcome instead of short-circuiting
(the Go idiom of binding `err` and inspecting it). -/
def tryM {α : Type} (x : M α) : M (Except Err α) := fun env s =>
  match x env s with
  | (.ok a, s') => (.ok (.ok a), s')
  | (.error e, s') => (.ok (.error e), s')

/-- The Go pattern `if err != nil && !errors.IsAlreadyExists(err) { return }`:
already-exists is swallowed (the kind is treated as already migrated), any
other error aborts. -/
def swallowExists {α : Type} (x : M α) : M (Option α) := fun env s =>
  match x env s with
  | (.ok a, s') => (.ok (some a), s')
  | (.error e, s') =>
    if isAlreadyExists e then (.ok none, s') else (.error e, s')

/-- The Go pattern `err = op(...); if err != nil && !errors.IsNotFound(err)
{ return }`: not-found is tolerated. -/
def swallowNotFound {α : Type} (x : M α) : M (Option α) := fun env s =>
  match x env s with
  | (.ok a, s') => (.ok (some a), s')
  | (.error e, s') =>
    if isNotFound e then (.ok none, s') else (.error e, s')

/-- Discard a call's result and error entirely (the unchecked
`kube.NewSecret(cred, owner, namespace, cli.KubeClient)` call,
router_update.go line 216). -/
def ignoreErr {α : Type} (x : M α) : M Unit := fun env s =>
  match x env s with
  | (_, s') => (.ok (), s')

/-- Sequence a monadic action over a list (Go `for _, x := range xs`). -/
def forList {α : Type} : List α → (α → M Unit) → M Unit
  | [], _ => M.pure ()
  | x :: xs, f => M.bind (f x) (fun _ => forList xs f)

/-! ### API primitives

Each primitive destructures the state and rebuilds it from components (this
keeps evaluation of concrete runs linear-sized). -/

def getCM (n : Nm) : M ConfigMap := fun env s =>
  match s with
  | ⟨w, tr, calls, clock⟩ =>
    let tr1 := tr ++ [Ev.lookup Kind.configmap n]
    match env.faults calls with
    | some e => (.error (.api e), ⟨w, tr1, calls + 1, clock⟩)
    | none =>
      match alook n w.configmaps with
      | some cm => (.ok cm, ⟨w, tr1, calls + 1, clock⟩)
      | none => (.error (.api .notFound), ⟨w, tr1, calls + 1, clock⟩)

def createCM (n : Nm) (cm : ConfigMap) : M Unit := fun env s =>
  match s with
  | ⟨⟨cms, svcs, secs, sas, rls, rbs, rts, deps⟩, tr, calls, clock⟩ =>
    match env.faults calls with
    | some e => (.error (.api e), ⟨⟨cms, svcs, secs, sas, rls, rbs, rts, deps⟩, tr, calls + 1, clock⟩)
    | none =>
      match alook n cms with
      | some _ => (.error (.api .alreadyExists), ⟨⟨cms, svcs, secs, sas, rls, rbs, rts, deps⟩, tr, calls + 1, clock⟩)
      | none =>
        (.ok (), ⟨⟨(n, cm) :: cms, svcs, secs, sas, rls, rbs, rts, deps⟩,
                  tr ++ [Ev.create Kind.configmap n], calls + 1, clock⟩)

def updateCM (n : Nm) (cm : ConfigMap) : M Unit := fun env s =>
  match s with
  | ⟨⟨cms, svcs, secs, sas, rls, rbs, rts, deps⟩, tr, calls, clock⟩ =>
    match env.faults calls with
    | some e => (.error (.api e), ⟨⟨cms, svcs, secs, sas, rls, rbs, rts, deps⟩, tr, calls + 1, clock⟩)
    | none =>
      match alook n cms with
      | none => (.error (.api .notFound), ⟨⟨cms, svcs, secs, sas, rls, rbs, rts, deps⟩, tr, calls + 1, clock⟩)
      | some _ =>
        (.ok (), ⟨⟨aset n cm cms, svcs, secs, sas, rls, rbs, rts, deps⟩,
                  tr ++ [Ev.update Kind.configmap n], calls + 1, clock⟩)

def deleteCM (n : Nm) : M Unit := fun env s =>
  match s with
  | ⟨⟨cms, svcs, secs, sas, rls, rbs, rts, deps⟩, tr, calls, clock⟩ =>
    match env.faults calls with
    | some e => (.error (.api e), ⟨⟨cms, svcs, secs, sas, rls, rbs, rts, deps⟩, tr, calls + 1, clock⟩)
    | none =>
      match alook n cms with
      | none => (.error (.api .notFound), ⟨⟨cms, svcs, secs, sas, rls, rbs, rts, deps⟩, tr, calls + 1, clock⟩)
      | some _ =>
        (.ok (), ⟨⟨adel n cms, svcs, secs, sas, rls, rbs, rts, deps⟩,
                  tr ++ [Ev.delete Kind.configmap n], calls + 1, clock⟩)

/-- `kube.GetService` plus `kube.GetLoadBalancerHostOrIP`: the fetched object
snapshots the external load-balancer assignment at the current clock. -/
def getService (n : Nm) : M Service := fun env s =>
  match s with
  | ⟨w, tr, calls, clock⟩ =>
    let tr1 := tr ++ [Ev.lookup Kind.service n]
    match env.faults calls with
    | some e => (.error (.api e), ⟨w, tr1, calls + 1, clock⟩)
    | none =>
      match alook n w.services with
      | some d => (.ok ⟨d, if d.isLoadBalancer then env.extLb n clock else ""⟩, ⟨w, tr1, calls + 1, clock⟩)
      | none => (.error (.api .notFound), ⟨w, tr1, calls + 1, clock⟩)

def createService (n : Nm) (d : SvcData) : M Unit := fun env s =>
  match s with
  | ⟨⟨cms, svcs, secs, sas, rls, rbs, rts, deps⟩, tr, calls, clock⟩ =>
    match env.faults calls with
    | some e => (.error (.api e), ⟨⟨cms, svcs, secs, sas, rls, rbs, rts, deps⟩, tr, calls + 1, clock⟩)
    | none =>
      match alook n svcs with
      | some _ => (.error (.api .alreadyExists), ⟨⟨cms, svcs, secs, sas, rls, rbs, rts, deps⟩, tr, calls + 1, clock⟩)
      | none =>
        (.ok (), ⟨⟨cms, (n, d) :: svcs, secs, sas, rls, rbs, rts, deps⟩,
                  tr ++ [Ev.create Kind.service n], calls + 1, clock⟩)

def updateService (n : Nm) (d : SvcData) : M Unit := fun env s =>
  match s with
  | ⟨⟨cms, svcs, secs, sas, rls, rbs, rts, deps⟩, tr, calls, clock⟩ =>
    match env.faults calls with
    | some e => (.error (.api e), ⟨⟨cms, svcs, secs, sas, rls, rbs, rts, deps⟩, tr, calls + 1, clock⟩)
    | none =>
      match alook n svcs with
      | none => (.error (.api .notFound), ⟨⟨cms, svcs, secs, sas, rls, rbs, rts, deps⟩, tr, calls + 1, clock⟩)
      | some _ =>
        (.ok (), ⟨⟨cms, aset n d svcs, secs, sas, rls, rbs, rts, deps⟩,
                  tr ++ [Ev.update Kind.service n], calls + 1, clock⟩)

def deleteService (n : Nm) : M Unit := fun env s =>
  match s with
  | ⟨⟨cms, svcs, secs, sas, rls, rbs, rts, deps⟩, tr, calls, clock⟩ =>
    match env.faults calls with
    | some e => (.error (.api e), ⟨⟨cms, svcs, secs, sas, rls, rbs, rts, deps⟩, tr, calls + 1, clock⟩)
    | none =>
      match alook n svcs with
      | none => (.error (.api .notFound), ⟨⟨cms, svcs, secs, sas, rls, rbs, rts, deps⟩, tr, calls + 1, clock⟩)
      | some _ =>
        (.ok (), ⟨⟨cms, adel n svcs, secs, sas, rls, rbs, rts, deps⟩,
                  tr ++ [Ev.delete Kind.service n], calls + 1, clock⟩)

def getSecret (n : Nm) : M String := fun env s =>
  match s with
  | ⟨w, tr, calls, clock⟩ =>
    let tr1 := tr ++ [Ev.lookup Kind.secret n]
    match env.faults calls with
    | some e => (.error (.api e), ⟨w, tr1, calls + 1, clock⟩)
    | none =>
      match alook n w.secrets with
      | some v => (.ok v, ⟨w, tr1, calls + 1, clock⟩)
      | none => (.error (.api .notFound), ⟨w, tr1, calls + 1, clock⟩)

def createSecret (n : Nm) (v : String) : M Unit := fun env s =>
  match s with
  | ⟨⟨cms, svcs, secs, sas, rls, rbs, rts, deps⟩, tr, calls, clock⟩ =>
    match env.faults calls with
    | some e => (.error (.api e), ⟨⟨cms, svcs, secs, sas, rls, rbs, rts, deps⟩, tr, calls + 1, clock⟩)
    | none =>
      match alook n secs with
      | some _ => (.error (.api .alreadyExists), ⟨⟨cms, svcs, secs, sas, rls, rbs, rts, deps⟩, tr, calls + 1, clock⟩)
      | none =>
        (.ok (), ⟨⟨cms, svcs, (n, v) :: secs, sas, rls, rbs, rts, deps⟩,
                  tr ++ [Ev.create Kind.secret n], calls + 1, clock⟩)

def deleteSecret (n : Nm) : M Unit := fun env s =>
  match s with
  | ⟨⟨cms, svcs, secs, sas, rls, rbs, rts, deps⟩, tr, calls, clock⟩ =>
    match env.faults calls with
    | some e => (.error (.api e), ⟨⟨cms, svcs, secs, sas, rls, rbs, rts, deps⟩, tr, calls + 1, clock⟩)
    | none =>
      match alook n secs with
      | none => (.error (.api .notFound), ⟨⟨cms, svcs, secs, sas, rls, rbs, rts, deps⟩, tr, calls + 1, clock⟩)
      | some _ =>
        (.ok (), ⟨⟨cms, svcs, adel n secs, sas, rls, rbs, rts, deps⟩,
                  tr ++ [Ev.delete Kind.secret n], calls + 1, clock⟩)

def getSA (n : Nm) : M SA := fun env s =>
  match s with
  | ⟨w, tr, calls, clock⟩ =>
    let tr1 := tr ++ [Ev.lookup Kind.serviceAccount n]
    match env.faults calls with
    | some e => (.error (.api e), ⟨w, tr1, calls + 1, clock⟩)
    | none =>
      match alook n w.serviceAccounts with
      | some v => (.ok v, ⟨w, tr1, calls + 1, clock⟩)
      | none => (.error (.api .notFound), ⟨w, tr1, calls + 1, clock⟩)

def createSA (n : Nm) (v : SA) : M Unit := fun env s =>
  match s with
  | ⟨⟨cms, svcs, secs, sas, rls, rbs, rts, deps⟩, tr, calls, clock⟩ =>
    match env.faults calls with
    | some e => (.error (.api e), ⟨⟨cms, svcs, secs, sas, rls, rbs, rts, deps⟩, tr, calls + 1, clock⟩)
    | none =>
      match alook n sas with
      | some _ => (.error (.api .alreadyExists), ⟨⟨cms, svcs, secs, sas, rls, rbs, rts, deps⟩, tr, calls + 1, clock⟩)
      | none =>
        (.ok (), ⟨⟨cms, svcs, secs, (n, v) :: sas, rls, rbs, rts, deps⟩,
                  tr ++ [Ev.create Kind.serviceAccount n], calls + 1, clock⟩)

def deleteSA (n : Nm) : M Unit := fun env s =>
  match s with
  | ⟨⟨cms, svcs, secs, sas, rls, rbs, rts, deps⟩, tr, calls, clock⟩ =>
    match env.faults calls with
    | some e => (.error (.api e), ⟨⟨cms, svcs, secs, sas, rls, rbs, rts, deps⟩, tr, calls + 1, clock⟩)
    | none =>
      match alook n sas with
      | none => (.error (.api .notFound), ⟨⟨cms, svcs, secs, sas, rls, rbs, rts, deps⟩, tr, calls + 1, clock⟩)
      | some _ =>
        (.ok (), ⟨⟨cms, svcs, secs, adel n sas, rls, rbs, rts, deps⟩,
                  tr ++ [Ev.delete Kind.serviceAccount n], calls + 1, clock⟩)

def getRole (n : Nm) : M Unit := fun env s =>
  match s with
  | ⟨w, tr, calls, clock⟩ =>
    let tr1 := tr ++ [Ev.lookup Kind.role n]
    match env.faults calls with
    | some e => (.error (.api e), ⟨w, tr1, calls + 1, clock⟩)
    | none =>
      match alook n w.roles with
      | some _ => (.ok (), ⟨w, tr1, calls + 1, clock⟩)
      | none => (.error (.api .notFound), ⟨w, tr1, calls + 1, clock⟩)

def createRole (n : Nm) : M Unit := fun env s =>
  match s with
  | ⟨⟨cms, svcs, secs, sas, rls, rbs, rts, deps⟩, tr, calls, clock⟩ =>
    match env.faults calls with
    | some e => (.error (.api e), ⟨⟨cms, svcs, secs, sas, rls, rbs, rts, deps⟩, tr, calls + 1, clock⟩)
    | none =>
      match alook n rls with
      | some _ => (.error (.api .alreadyExists), ⟨⟨cms, svcs, secs, sas, rls, rbs, rts, deps⟩, tr, calls + 1, clock⟩)
      | none =>
        (.ok (), ⟨⟨cms, svcs, secs, sas, (n, ()) :: rls, rbs, rts, deps⟩,
                  tr ++ [Ev.create Kind.role n], calls + 1, clock⟩)

def deleteRole (n : Nm) : M Unit := fun env s =>
  match s with
  | ⟨⟨cms, svcs, secs, sas, rls, rbs, rts, deps⟩, tr, calls, clock⟩ =>
    match env.faults calls with
    | some e => (.error (.api e), ⟨⟨cms, svcs, secs, sas, rls, rbs, rts, deps⟩, tr, calls + 1, clock⟩)
    | none =>
      match alook n rls with
      | none => (.error (.api .notFound), ⟨⟨cms, svcs, secs, sas, rls, rbs, rts, deps⟩, tr, calls + 1, clock⟩)
      | some _ =>
        (.ok (), ⟨⟨cms, svcs, secs, sas, adel n rls, rbs, rts, deps⟩,
                  tr ++ [Ev.delete Kind.role n], calls + 1, clock⟩)

def createRoleBinding (n : Nm) : M Unit := fun env s =>
  match s with
  | ⟨⟨cms, svcs, secs, sas, rls, rbs, rts, deps⟩, tr, calls, clock⟩ =>
    match env.faults calls with
    | some e => (.error (.api e), ⟨⟨cms, svcs, secs, sas, rls, rbs, rts, deps⟩, tr, calls + 1, clock⟩)
    | none =>
      match alook n rbs with
      | some _ => (.error (.api .alreadyExists), ⟨⟨cms, svcs, secs, sas, rls, rbs, rts, deps⟩, tr, calls + 1, clock⟩)
      | none =>
        (.ok (), ⟨⟨cms, svcs, secs, sas, rls, (n, ()) :: rbs, rts, deps⟩,
                  tr ++ [Ev.create Kind.roleBinding n], calls + 1, clock⟩)

def deleteRoleBinding (n : Nm) : M Unit := fun env s =>
  match s with
  | ⟨⟨cms, svcs, secs, sas, rls, rbs, rts, deps⟩, tr, calls, clock⟩ =>
    match env.faults calls with
    | some e => (.error (.api e), ⟨⟨cms, svcs, secs, sas, rls, rbs, rts, deps⟩, tr, calls + 1, clock⟩)
    | none =>
      match alook n rbs with
      | none => (.error (.api .notFound), ⟨⟨cms, svcs, secs, sas, rls, rbs, rts, deps⟩, tr, calls + 1, clock⟩)
      | some _ =>
        (.ok (), ⟨⟨cms, svcs, secs, sas, rls, adel n rbs, rts, deps⟩,
                  tr ++ [Ev.delete Kind.roleBinding n], calls + 1, clock⟩)

def getRoute (n : Nm) : M Route := fun env s =>
  match s with
  | ⟨w, tr, calls, clock⟩ =>
    let tr1 := tr ++ [Ev.lookup Kind.route n]
    match env.faults calls with
    | some e => (.error (.api e), ⟨w, tr1, calls + 1, clock⟩)
    | none =>
      match alook n w.routes with
      | some r => (.ok r, ⟨w, tr1, calls + 1, clock⟩)
      | none => (.error (.api .notFound), ⟨w, tr1, calls + 1, clock⟩)

def createRoute (n : Nm) (r : Route) : M Unit := fun env s =>
  match s with
  | ⟨⟨cms, svcs, secs, sas, rls, rbs, rts, deps⟩, tr, calls, clock⟩ =>
    match env.faults calls with
    | some e => (.error (.api e), ⟨⟨cms, svcs, secs, sas, rls, rbs, rts, deps⟩, tr, calls + 1, clock⟩)
    | none =>
      match alook n rts with
      | some _ => (.error (.api .alreadyExists), ⟨⟨cms, svcs, secs, sas, rls, rbs, rts, deps⟩, tr, calls + 1, clock⟩)
      | none =>
        (.ok (), ⟨⟨cms, svcs, secs, sas, rls, rbs, (n, r) :: rts, deps⟩,
                  tr ++ [Ev.create Kind.route n], calls + 1, clock⟩)

def updateRoute (n : Nm) (r : Route) : M Unit := fun env s =>
  match s with
  | ⟨⟨cms, svcs, secs, sas, rls, rbs, rts, deps⟩, tr, calls, clock⟩ =>
    match env.faults calls with
    | some e => (.error (.api e), ⟨⟨cms, svcs, secs, sas, rls, rbs, rts, deps⟩, tr, calls + 1, clock⟩)
    | none =>
      match alook n rts with
      | none => (.error (.api .notFound), ⟨⟨cms, svcs, secs, sas, rls, rbs, rts, deps⟩, tr, calls + 1, clock⟩)
      | some _ =>
        (.ok (), ⟨⟨cms, svcs, secs, sas, rls, rbs, aset n r rts, deps⟩,
                  tr ++ [Ev.update Kind.route n], calls + 1, clock⟩)

def deleteRoute (n : Nm) : M Unit := fun env s =>
  match s with
  | ⟨⟨cms, svcs, secs, sas, rls, rbs, rts, deps⟩, tr, calls, clock⟩ =>
    match env.faults calls with
    | some e => (.error (.api e), ⟨⟨cms, svcs, secs, sas, rls, rbs, rts, deps⟩, tr, calls + 1, clock⟩)
    | none =>
      match alook n rts with
      | none => (.error (.api .notFound), ⟨⟨cms, svcs, secs, sas, rls, rbs, rts, deps⟩, tr, calls + 1, clock⟩)
      | some _ =>
        (.ok (), ⟨⟨cms, svcs, secs, sas, rls, rbs, adel n rts, deps⟩,
                  tr ++ [Ev.delete Kind.route n], calls + 1, clock⟩)

def getDep (n : Nm) : M Dep := fun env s =>
  match s with
  | ⟨w, tr, calls, clock⟩ =>
    let tr1 := tr ++ [Ev.lookup Kind.deployment n]
    match env.faults calls with
    | some e => (.error (.api e), ⟨w, tr1, calls + 1, clock⟩)
    | none =>
      match alook n w.deployments with
      | some d => (.ok d, ⟨w, tr1, calls + 1, clock⟩)
      | none => (.error (.api .notFound), ⟨w, tr1, calls + 1, clock⟩)

def updateDep (n : Nm) (d : Dep) : M Unit := fun env s =>
  match s with
  | ⟨⟨cms, svcs, secs, sas, rls, rbs, rts, deps⟩, tr, calls, clock⟩ =>
    match env.faults calls with
    | some e => (.error (.api e), ⟨⟨cms, svcs, secs, sas, rls, rbs, rts, deps⟩, tr, calls + 1, clock⟩)
    | none =>
      match alook n deps with
      | none => (.error (.api .notFound), ⟨⟨cms, svcs, secs, sas, rls, rbs, rts, deps⟩, tr, calls + 1, clock⟩)
      | some _ =>
        (.ok (), ⟨⟨cms, svcs, secs, sas, rls, rbs, rts, aset n d deps⟩,
                  tr ++ [Ev.update Kind.deployment n], calls + 1, clock⟩)

/-! ## Composite operations (the `kube` helpers and VanClient methods) -/

/-- `types.Credential` — a request to mint a credential bound to a CA;
`connectJson` marks an opaque client-connection bundle (`isOpaqueBundle`). -/
structure Credential where
  ca : Nm
  name : Nm
  subject : String
  hosts : List String
  connectJson : Bool
deriving DecidableEq, Repr

/-- The subject selection of router_update.go lines 196-202: start from the
stable internal name, take the first host under the 64-byte certificate
subject limit. -/
def pickSubject (hosts : List String) : String :=
  match hosts.find? (fun h => decide (h.length < 64)) with
  | some h => h
  | none => nmStr TransportServiceName

/-- The externally-facing server credential minted in the non-routed branch
(router_update.go lines 203-209). -/
def siteServerCredential (hosts : List String) : Credential :=
  { ca := SiteCaSecret, name := SiteServerSecret, subject := pickSubject hosts,
    hosts := hosts, connectJson := false }

/-- `kube.NewSecret` — modelled from the spec (§4.4): mint the credential as
a secret object named `cred.name`. -/
def newSecret (cred : Credential) : M Unit :=
  createSecret cred.name cred.subject

/-- `kube.CopyService` — modelled from the spec (§4.3): copy the legacy
object's contents under the current name, merging the given annotations. -/
def copyService (oldN newN : Nm) (annots : List (String × String)) : M SvcData := do
  let src ← getService oldN
  let d : SvcData := { isLoadBalancer := src.data.isLoadBalancer,
                       annots := src.data.annots ++ annots }
  createService newN d
  M.pure d

/-- `kube.CopySecret` — modelled from the spec (§4.3). -/
def copySecret (oldN newN : Nm) : M Unit := do
  let v ← getSecret oldN
  createSecret newN v

/-- `kube.CopyServiceAccount` — modelled from the spec (§4.3): copy under the
current name with annotation substitutions. -/
def copyServiceAccount (oldN newN : Nm) (annots : List (String × String)) : M Unit := do
  let sa ← getSA oldN
  createSA newN ⟨sa.annots ++ annots⟩

/-- `kube.CopyRole` — modelled from the spec (§4.3). -/
def copyRole (oldN newN : Nm) : M Unit := do
  getRole oldN
  createRole newN

/-- `kube.UpdateTargetServiceForRoute` — modelled from the spec: repoint the
named route at the given service. -/
def updateTargetServiceForRoute (routeName svcName : Nm) : M Unit := do
  let _ ← getRoute routeName
  updateRoute routeName ⟨svcName⟩

/-- `cli.usingRoutes` (router_update.go lines 638-651). -/
def usingRoutesM : M Bool := do
  let env ← askEnv
  if env.hasRouteClient then do
    let r ← tryM (getRoute InterRouterRouteName)
    match r with
    | .ok _ => M.pure true
    | .error e => if isNotFound e then M.pure false else mthrow e
  else M.pure false

/-- `qdr.GetRouterConfigFromConfigMap` + `config.GetSiteMetadata`: parse the
transport configmap's router config. -/
def getRouterConfig (cm : ConfigMap) : M SiteMeta := fun _ s =>
  match cm.content with
  | .router site => (.ok site, s)
  | _ => (.error (.fatal "invalid router config"), s)

/-- `cli.isUpdating` (router_update.go lines 54-62): absent marker is not an
error; an existing marker yields `Data["from"]`. -/
def isUpdatingM : M (Bool × Ver) := fun env s =>
  match getCM markerName env s with
  | (.error e, s') => if isNotFound e then (.ok (false, ⟨[], ""⟩), s') else (.error e, s')
  | (.ok cm, s') =>
    match cm.content with
    | .marker v => (.ok (true, v), s')
    | _ => (.ok (true, ⟨[], ""⟩), s')

/-- `cli.updateStarted` (router_update.go lines 29-48): create the upgrade
marker recording the original version, owner-referenced to the transport
configmap. -/
def updateStarted (fromV : Ver) (owners : List String) : M Unit :=
  createCM markerName { content := CMContent.marker fromV, ownerRefs := owners }

/-- `cli.updateCompleted` (router_update.go lines 50-52). -/
def updateCompleted : M Unit := deleteCM markerName

/-! ## Deployment patch helpers -/

def getImage (d : Dep) : String :=
  match d.containers with
  | [] => ""
  | c :: _ => c.image

def setImage (d : Dep) (img : String) : Dep :=
  { d with containers :=
      match d.containers with
      | [] => []
      | c :: rest => { c with image := img } :: rest }

/-- `kube.UpdateSecretVolume` — modelled from the spec: repoint a mounted
secret volume from the legacy to the current secret name. -/
def updateSecretMounts (l : List Nm) (oldN newN : Nm) : List Nm :=
  l.map (fun x => if x = oldN then newN else x)

/-- `updateOauthProxyServiceAccount` (router_update.go lines 628-636). -/
def updateOauthArgs (cs : List Container) (name : String) : List Container :=
  match cs with
  | c0 :: c1 :: rest =>
    if c1.name = "oauth-proxy" then
      c0 :: { c1 with args := c1.args.map (fun a =>
        if a.startsWith "--openshift-service-account" then
          "--openshift-service-account=" ++ name
        else a) } :: rest
    else c0 :: c1 :: rest
  | l => l

/-- `touch` (router_update.go lines 620-626): write the current timestamp
into a pod-template annotation to force a new revision. -/
def touchDep (d : Dep) (clock : Nat) : Dep :=
  { d with podAnnots := upsert updatedAnnotKey (toString clock) d.podAnnots }

/-! ## The bounded polling loops -/

/-- The load-balancer polling loop of `getTransportHosts` (router_update.go
lines 660-674), with the remaining attempts as fuel (started at 120) and a
flag telling whether a previous attempt happened (sleep before each attempt
but the first).  A lookup error aborts (`return nil, err`). -/
def transportLoop : Nat → Bool → M (Option String)
  | 0, _ => M.pure none
  | Nat.succ fuel, slept => do
    (if slept then sleepM else M.pure ())
    let svc ← getService TransportServiceName
    if svc.lbHost != "" then M.pure (some svc.lbHost)
    else transportLoop fuel true

/-- `cli.getTransportHosts` (router_update.go lines 653-684). -/
def getTransportHosts (ns : String) : M (List String) := do
  let oldService ← getService Nm.internal
  let hosts ←
    if oldService.data.isLoadBalancer then do
      let found ← transportLoop 120 false
      let hosts0 := match found with | some h => [h] | none => []
      let oldHost := oldService.lbHost
      M.pure (hosts0 ++ (if oldHost != "" then [oldHost] else []))
    else M.pure []
  M.pure (hosts ++ [nmStr TransportServiceName,
                    qualifiedServiceName (nmStr TransportServiceName) ns,
                    qualifiedServiceName (nmStr Nm.internal) ns])

/-- The console-address polling loop (router_update.go lines 412-423): a
lookup error prints a message and breaks; exhaustion leaves the host empty. -/
def consoleLoop : Nat → Bool → M String
  | 0, _ => M.pure ""
  | Nat.succ fuel, slept => do
    (if slept then sleepM else M.pure ())
    let r ← tryM (getService ControllerServiceName)
    match r with
    | .error e => do
        printlnM ("Could not determine new console url: " ++ errMsg e)
        M.pure ""
    | .ok svc =>
        if svc.lbHost != "" then M.pure svc.lbHost
        else consoleLoop fuel true

/-- Lines 411-427: after redeploying the controller behind a load balancer,
poll for the console address and announce it; failures are non-fatal. -/
def consolePoll : M Unit := do
  let host ← consoleLoop 120 false
  if host != "" then printlnM ("Console is now at http://" ++ host ++ ":8080")
  else M.pure ()

/-! ## The phases of RouterUpdateVersionInNamespace -/

/-- Lines 64-112: load the site configuration, refuse to downgrade, read the
marker, decide `rename`, bump the stored metadata.  Returns
`(configmap, updateSite, rename, inprogress)`. -/
def versionPhase : M (ConfigMap × Bool × Bool × Bool) := do
  let env ← askEnv
  let configmap ← getCM TransportConfigMapName
  let site ← getRouterConfig configmap
  if lessRecentThanVersion env.libVersion site.version then
    mthrow (Err.fatal "site is newer than library; cannot update")
  else do
    let (inprogress, originalVersion) ← isUpdatingM
    let rename := inprogress && lessRecentThanVersion originalVersion v050
    if moreRecentThanVersion env.libVersion site.version ||
       (equivalentVersion env.libVersion site.version && env.libVersion != site.version) then do
      let (rename, inprogress) ←
        if !inprogress && lessRecentThanVersion site.version v050 then do
          updateStarted site.version configmap.ownerRefs
          M.pure (true, true)
        else M.pure (rename, inprogress)
      let site' : SiteMeta := { site with version := env.libVersion }
      updateCM TransportConfigMapName { configmap with content := CMContent.router site' }
      M.pure (configmap, true, rename, inprogress)
    else
      M.pure (configmap, false, rename, inprogress)

/-- Lines 116-340: the rename migration engine.  Returns
`(usingRoutes, consoleUsesLoadbalancer, routerExposedAsIp)`. -/
def renamePhase (ns : String) (_configmap : ConfigMap) : M (Bool × Bool × Bool) := do
  let env ← askEnv
  let _ ← swallowExists (copyService Nm.messaging LocalTransportServiceName [])
  let _ ← swallowExists (copyService Nm.internal TransportServiceName [])
  let controllerSvc ← swallowExists (copyService Nm.controller ControllerServiceName
      [(servingCertAnnotKey, nmStr OauthConsoleSecret)])
  let consoleUsesLoadbalancer := match controllerSvc with
    | some svc => svc.isLoadBalancer
    | none => false
  let rc ← tryM (getService RouterConsoleServiceName)
  (match rc with
   | .ok svc =>
      updateService RouterConsoleServiceName
        { svc.data with annots := upsert servingCertAnnotKey (nmStr OauthRouterConsoleSecret) svc.data.annots }
   | .error _ => M.pure ())
  let _ ← swallowExists (copySecret Nm.ca LocalCaSecret)
  let _ ← swallowExists (copySecret Nm.internalCa SiteCaSecret)
  let creds0 : List Credential :=
    [ { ca := LocalCaSecret, name := LocalServerSecret, subject := nmStr LocalTransportServiceName,
        hosts := [nmStr LocalTransportServiceName,
                  qualifiedServiceName (nmStr LocalTransportServiceName) ns],
        connectJson := false },
      { ca := LocalCaSecret, name := LocalClientSecret, subject := nmStr LocalTransportServiceName,
        hosts := [], connectJson := true } ]
  let ur ← tryM usingRoutesM
  let usingRoutes := match ur with | .ok b => b | .error _ => false
  let (creds, routerExposedAsIp) ←
    if usingRoutes then do
      let _ ← swallowExists (copySecret Nm.internal SiteServerSecret)
      M.pure (creds0, false)
    else do
      let hosts ← getTransportHosts ns
      let exposedAsIp := match hosts.head? with
        | some h => isIPLiteral h
        | none => false
      M.pure (creds0 ++ [siteServerCredential hosts], exposedAsIp)
  forList creds (fun cred => ignoreErr (newSecret cred))
  let _ ← swallowExists (copyServiceAccount Nm.skupper TransportServiceAccountName [])
  let _ ← swallowExists (copyServiceAccount Nm.proxyController ControllerServiceAccountName
      [(oauthRedirectAnnotKey, "OAuthRedirectReference Route " ++ nmStr ConsoleRouteName)])
  let _ ← swallowExists (createRole ControllerRoleName)
  let _ ← swallowExists (copyRole Nm.view TransportRoleName)
  let _ ← swallowExists (createRoleBinding ControllerRoleBindingName)
  let _ ← swallowExists (createRoleBinding TransportRoleBindingName)
  (if env.hasRouteClient then do
    let orig ← tryM (getRoute Nm.controller)
    (match orig with
     | .ok _ => do
        let _ ← swallowExists (createRoute ConsoleRouteName ⟨ControllerServiceName⟩)
        M.pure ()
     | .error e => if isNotFound e then M.pure () else mthrow e)
    updateTargetServiceForRoute EdgeRouteName TransportServiceName
    updateTargetServiceForRoute InterRouterRouteName TransportServiceName
   else M.pure ())
  M.pure (usingRoutes, consoleUsesLoadbalancer, routerExposedAsIp)

/-- Lines 342-378: patch and conditionally redeploy the transport workload.
Returns the final `updateRouter`. -/
def routerPhase (rename updateSite hup routerExposedAsIp : Bool) : M Bool := do
  let env ← askEnv
  let router ← getDep TransportDeploymentName
  let (router, updateRouter) :=
    if rename then
      ({ router with
           serviceAccountName := TransportServiceAccountName,
           secretMounts := updateSecretMounts (updateSecretMounts (updateSecretMounts
             router.secretMounts Nm.amqps LocalServerSecret)
             Nm.internal SiteServerSecret)
             Nm.proxyCerts OauthRouterConsoleSecret,
           containers := updateOauthArgs router.containers (nmStr TransportServiceAccountName) }, true)
    else (router, false)
  let (router, updateRouter) :=
    if getImage router != env.routerImage then (setImage router env.routerImage, true)
    else (router, updateRouter)
  if updateRouter || updateSite || hup then do
    let clock ← nowM
    let router := if !updateRouter then touchDep router clock else router
    updateDep TransportDeploymentName router
    (if routerExposedAsIp then
      printlnM "Sites previously linked to this one will require new tokens"
     else M.pure ())
    M.pure true
  else
    M.pure updateRouter

/-- Lines 380-428: patch and conditionally redeploy the controller workload.
Returns the final `updateController`. -/
def controllerPhase (rename hup consoleUsesLoadbalancer : Bool) : M Bool := do
  let env ← askEnv
  let controller ← getDep ControllerDeploymentName
  let (controller, updateController) :=
    if rename then
      ({ controller with
           serviceAccountName := ControllerServiceAccountName,
           secretMounts := updateSecretMounts (updateSecretMounts
             controller.secretMounts Nm.skupper LocalClientSecret)
             Nm.controllerCerts OauthConsoleSecret,
           containers := updateOauthArgs controller.containers (nmStr ControllerServiceAccountName) }, true)
    else (controller, false)
  let (controller, updateController) :=
    if getImage controller != env.controllerImage then (setImage controller env.controllerImage, true)
    else (controller, updateController)
  if updateController || hup then do
    let clock ← nowM
    let controller := if !updateController then touchDep controller clock else controller
    updateDep ControllerDeploymentName controller
    (if consoleUsesLoadbalancer then consolePoll else M.pure ())
    M.pure true
  else
    M.pure false

/-- Lines 429-499: delete legacy-named objects, tolerating not-found;
`skupper-internal` is deleted only when routed objects are in use. -/
def cleanupPhase (usingRoutes : Bool) : M Unit := do
  let env ← askEnv
  (if env.hasRouteClient then do
      let _ ← swallowNotFound (deleteRoute Nm.controller)
      M.pure ()
   else M.pure ())
  let services := [Nm.messaging, Nm.controller] ++
    (if usingRoutes then [Nm.internal] else [])
  forList services (fun svc => do
    let _ ← swallowNotFound (deleteService svc)
    M.pure ())
  forList [Nm.skupper, Nm.amqps, Nm.ca, Nm.internal, Nm.internalCa]
    (fun sec => do
      let _ ← swallowNotFound (deleteSecret sec)
      M.pure ())
  forList [Nm.proxyControllerSkupperEdit, Nm.skupperSkupperView]
    (fun rb => do
      let _ ← swallowNotFound (deleteRoleBinding rb)
      M.pure ())
  forList [Nm.skupper, Nm.proxyController]
    (fun sa => do
      let _ ← swallowNotFound (deleteSA sa)
      M.pure ())
  forList [Nm.edit, Nm.view]
    (fun role => do
      let _ ← swallowNotFound (deleteRole role)
      M.pure ())

/-- The boolean decisions of one invocation (Go local variables). -/
structure RunFlags where
  updateRouter : Bool
  updateController : Bool
  updateSite : Bool
  inprogress : Bool
  rename : Bool
deriving DecidableEq, Repr

/-- Lines 64-499 of `RouterUpdateVersionInNamespace`: everything before the
final marker deletion. -/
def mainBody (hup : Bool) (ns : String) : M RunFlags := do
  let (configmap, updateSite, rename, inprogress) ← versionPhase
  let (usingRoutes, consoleUsesLoadbalancer, routerExposedAsIp) ←
    if rename then renamePhase ns configmap else M.pure (false, false, false)
  let updateRouter ← routerPhase rename updateSite hup routerExposedAsIp
  let updateController ← controllerPhase rename hup consoleUsesLoadbalancer
  (if rename then cleanupPhase usingRoutes else M.pure ())
  M.pure ⟨updateRouter, updateController, updateSite, inprogress, rename⟩

/-- `RouterUpdateVersionInNamespace` (router_update.go lines 64-507), with
the Go-style result pair `(updated?, error)`: a failure of the final marker
deletion is reported as `(true, err)` (lines 500-504); every earlier failure
as `(false, err)`. -/
def runUpdate (hup : Bool) (ns : String) : Env → St → (Bool × Option Err) × St :=
  fun env s =>
    match mainBody hup ns env s with
    | (.error e, s') => ((false, some e), s')
    | (.ok flags, s') =>
      if flags.inprogress then
        match updateCompleted env s' with
        | (.error e, s'') => ((true, some e), s'')
        | (.ok _, s'') =>
          ((flags.updateRouter || flags.updateController || flags.updateSite, none), s'')
      else ((flags.updateRouter || flags.updateController || flags.updateSite, none), s')

/-! ## Observables of a run -/

def markerCreateEv : Ev := Ev.create Kind.configmap markerName
def markerDeleteEv : Ev := Ev.delete Kind.configmap markerName
def cmUpdateEv : Ev := Ev.update Kind.configmap TransportConfigMapName
def routerUpdEv : Ev := Ev.update Kind.deployment TransportDeploymentName
def ctrlUpdEv : Ev := Ev.update Kind.deployment ControllerDeploymentName

/-- The upgrade marker is present in the store. -/
def markerIn (w : World) : Bool := (alook markerName w.configmaps).isSome

/-- The mutations of a trace. -/
def mutations (tr : List Ev) : List Ev := tr.filter Ev.isMutation

/-- Every mutation of the trace is among the allowed ones. -/
def mutsIn (allowed : List Ev) (tr : List Ev) : Bool :=
  tr.all (fun e => !e.isMutation || allowed.contains e)

/-- The first mutation of the trace, if any, is the creation of the upgrade
marker. -/
def markerFirst : List Ev → Bool
  | [] => true
  | e :: rest =>
    if e = markerCreateEv then true
    else if e.isMutation then false else markerFirst rest

/-- No configmap is deleted in the trace. -/
def cmDeleteFree (tr : List Ev) : Bool :=
  tr.all (fun e => match e with | Ev.delete Kind.configmap _ => false | _ => true)

def countEv (p : Ev → Bool) (tr : List Ev) : Nat := (tr.filter p).length

def isSleepEv (e : Ev) : Bool := e = Ev.sleep

def isPrintlnEv : Ev → Bool
  | Ev.println _ => true
  | _ => false

/-- Lookup attempts against the named service. -/
def isSvcLookup (n : Nm) (e : Ev) : Bool := e = Ev.lookup Kind.service n

/-- The spec's words for the subject selection (spec §3: "enforced by
selecting the shortest usable host as subject"): the minimum-length host
under the 64-character certificate subject limit.  Stated only for
comparison against `pickSubject`, which embeds the code. -/
def specShortestUsableHost (hosts : List String) : Option String :=
  (hosts.filter (fun h => decide (h.length < 64))).foldl
    (fun acc h =>
      match acc with
      | none => some h
      | some b => if h.length < b.length then some h else some b) none

/-! ## Concrete test fixtures -/

def lib060 : Ver := ⟨[0, 6, 0], ""⟩

def st0 (w : World) : St := ⟨w, [], 0, 0⟩

/-- Fault-free environment, no load balancer assignments, no route client. -/
def baseEnv : Env :=
  { faults := fun _ => none, extLb := fun _ _ => "", hasRouteClient := false,
    routerImage := "quay.io/skupper/qdrouterd:0.6.0",
    controllerImage := "quay.io/skupper/service-controller:0.6.0",
    libVersion := lib060 }

/-- Inject one API error at the given call index. -/
def faultAt (k : Nat) (e : ApiErr) (env : Env) : Env :=
  { env with faults := fun n => if n = k then some e else none }

/-- A pre-0.5.0 site with all legacy-named objects present and no routes. -/
def renameWorld : World :=
  { configmaps := [(TransportConfigMapName,
      ⟨CMContent.router ⟨⟨[0, 4, 2], ""⟩, "site1"⟩, ["site-cm"]⟩)],
    services := [(Nm.messaging, ⟨false, []⟩), (Nm.internal, ⟨false, []⟩),
                 (Nm.controller, ⟨false, []⟩)],
    secrets := [(Nm.ca, "ca-data"), (Nm.internalCa, "internal-ca-data"),
                (Nm.skupper, "client-data"), (Nm.amqps, "amqps-data"),
                (Nm.internal, "internal-data")],
    serviceAccounts := [(Nm.skupper, ⟨[]⟩), (Nm.proxyController, ⟨[]⟩)],
    roles := [(Nm.view, ()), (Nm.edit, ())],
    roleBindings := [(Nm.proxyControllerSkupperEdit, ()), (Nm.skupperSkupperView, ())],
    routes := [],
    deployments := [(TransportDeploymentName,
                      ⟨Nm.skupper, [⟨"router", "old-router-image", []⟩],
                       [Nm.amqps, Nm.internal, Nm.proxyCerts], []⟩),
                    (ControllerDeploymentName,
                      ⟨Nm.proxyController, [⟨"sc", "old-controller-image", []⟩],
                       [Nm.skupper, Nm.controllerCerts], []⟩)] }

/-- Same site, exposed through OpenShift routes. -/
def routesWorld : World :=
  { renameWorld with
    routes := [(InterRouterRouteName, ⟨Nm.internal⟩),
               (EdgeRouteName, ⟨Nm.internal⟩),
               (Nm.controller, ⟨Nm.controller⟩)] }

def routesEnv : Env := { baseEnv with hasRouteClient := true }

/-- A site at `0.6.0-rc1` with workloads already on the desired images. -/
def equivWorld : World :=
  { renameWorld with
    configmaps := [(TransportConfigMapName,
      ⟨CMContent.router ⟨⟨[0, 6, 0], "rc1"⟩, "site1"⟩, ["site-cm"]⟩)],
    deployments := [(TransportDeploymentName,
                      ⟨Nm.skupper, [⟨"router", baseEnv.routerImage, []⟩],
                       [Nm.amqps, Nm.internal, Nm.proxyCerts], []⟩),
                    (ControllerDeploymentName,
                      ⟨Nm.proxyController, [⟨"sc", baseEnv.controllerImage, []⟩],
                       [Nm.skupper, Nm.controllerCerts], []⟩)] }

/-- A fully updated site on which a crashed post-0.5.0 migration left the
marker behind: nothing to update, only the marker to clear. -/
def markerOnlyWorld : World :=
  { equivWorld with
    configmaps := [(TransportConfigMapName,
                     ⟨CMContent.router ⟨lib060, "site1"⟩, ["site-cm"]⟩),
                   (markerName, ⟨CMContent.marker ⟨[0, 5, 1], ""⟩, ["site-cm"]⟩)] }

/-- Fault injected at call index 4, the final marker deletion of a run on
`markerOnlyWorld` (calls 0-3 are the four reads). -/
def markerFaultEnv : Env := faultAt 4 (ApiErr.other "boom") baseEnv

/-- Fault injected at call index 16 of a run on `renameWorld`: the
`kube.NewSecret` call minting `skupper-local-server` (calls 0-15 are the
version phase and the preceding copies). -/
def secretFaultEnv : Env := faultAt 16 (ApiErr.other "disk full") baseEnv

/-- Load-balancer exposure: the legacy transport service is a load balancer
whose ingress resolved to a DNS name, the new transport service resolves
immediately to a longer DNS name. -/
def lbEnv : Env :=
  { baseEnv with extLb := fun n _ =>
      if n = TransportServiceName then "my-loadbalancer.example.com"
      else if n = Nm.internal then "lb.old.example" else "" }

def lbWorld : World :=
  { renameWorld with
    services := [(Nm.messaging, ⟨false, []⟩), (Nm.internal, ⟨true, []⟩),
                 (Nm.controller, ⟨false, []⟩), (TransportServiceName, ⟨true, []⟩)] }

/-- A world whose controller service is a load balancer that never gets a
host assigned (under `baseEnv`): console polling exhausts its bound. -/
def consoleWorld : World :=
  { renameWorld with services := [(ControllerServiceName, ⟨true, []⟩)] }

/-- The transport host list resolved under `lbEnv`/`lbWorld`. -/
def lbHosts : List String :=
  ["my-loadbalancer.example.com", "lb.old.example", "skupper-router",
   "skupper-router.ns.svc.cluster.local", "skupper-internal.ns.svc.cluster.local"]

/-- The state after `mainBody` on `markerOnlyWorld` under `markerFaultEnv`:
four reads, nothing mutated. -/
def markerOnlyMid : St :=
  ⟨markerOnlyWorld,
   [Ev.lookup Kind.configmap TransportConfigMapName,
    Ev.lookup Kind.configmap markerName,
    Ev.lookup Kind.deployment TransportDeploymentName,
    Ev.lookup Kind.deployment ControllerDeploymentName], 4, 0⟩

/-- The final state of that invocation: the marker deletion consumed call 4
and failed, mutating nothing. -/
def markerOnlyFinal : St := ⟨markerOnlyWorld, markerOnlyMid.tr, 5, 0⟩

/-- The run flags of that invocation: nothing updated, marker present. -/
def markerOnlyFlags : RunFlags := ⟨false, false, false, true, false⟩

/-- A site recorded at `0.7.0`, newer than the library's `0.6.0`. -/
def newerWorld : World :=
  { renameWorld with
    configmaps := [(TransportConfigMapName,
      ⟨CMContent.router ⟨⟨[0, 7, 0], ""⟩, "site1"⟩, ["site-cm"]⟩)] }

/-- The configmap stored in `newerWorld`. -/
def newerCM : ConfigMap := ⟨CMContent.router ⟨⟨[0, 7, 0], ""⟩, "site1"⟩, ["site-cm"]⟩

/-- The legacy transport service is a load balancer but no host is ever
assigned under `baseEnv`: the transport polling loop exhausts its bound. -/
def exhaustWorld : World :=
  { renameWorld with
    services := [(Nm.internal, ⟨true, []⟩), (TransportServiceName, ⟨true, []⟩)] }

/-- The state after fetching the legacy transport service of `exhaustWorld`. -/
def exhaustMid : St := ⟨exhaustWorld, [Ev.lookup Kind.service Nm.internal], 1, 0⟩

/-- The trace after the transport polling loop exhausts its 120 attempts:
one lookup, then 119 sleep-lookup pairs. -/
def exhaustLoopTrace : List Ev :=
  Ev.lookup Kind.service Nm.internal ::
  Ev.lookup Kind.service TransportServiceName ::
  (List.replicate 119 [Ev.sleep, Ev.lookup Kind.service TransportServiceName]).flatten

/-- The state after the exhausted loop: 121 calls, 119 seconds slept. -/
def exhaustEnd : St := ⟨exhaustWorld, exhaustLoopTrace, 121, 119⟩

/-- Configmap mutations (the marker and the transport configmap live here). -/
def Ev.isCMMut : Ev → Bool
  | .create .configmap _ => true
  | .update .configmap _ => true
  | .delete .configmap _ => true
  | _ => false

/-- Deployment mutations. -/
def Ev.isDepMut : Ev → Bool
  | .create .deployment _ => true
  | .update .deployment _ => true
  | .delete .deployment _ => true
  | _ => false

/-- A computation is tame when it never touches configmaps or deployments
(neither in the store nor in the trace) and, when already-exists cannot be
spuriously injected, never surfaces an already-exists error.  The rename
migration engine and the cleanup phase are tame: every create they perform
is wrapped in the already-exists-swallowing pattern (or has its error
discarded), and they only mutate services, secrets, accounts, roles,
bindings and routes. -/
def Tame {α : Type} (x : M α) : Prop :=
  ∀ env s r s', x env s = (r, s') →
    s'.w.configmaps = s.w.configmaps ∧
    s'.w.deployments = s.w.deployments ∧
    (∃ d, s'.tr = s.tr ++ d ∧ ∀ e ∈ d, Ev.isCMMut e = false ∧ Ev.isDepMut e = false) ∧
    (∀ e, r = Except.error e → NoAEFaults env → isAlreadyExists e = false)

/-- Like `Tame` but without the error condition: creates satisfy it (they
may fail with a genuine already-exists, which their wrapper swallows). -/
def TameFrames {α : Type} (x : M α) : Prop :=
  ∀ env s r s', x env s = (r, s') →
    s'.w.configmaps = s.w.configmaps ∧
    s'.w.deployments = s.w.deployments ∧
    (∃ d, s'.tr = s.tr ++ d ∧ ∀ e ∈ d, Ev.isCMMut e = false ∧ Ev.isDepMut e = false)


/-- Specification of a fault-free deletion pass: the computation succeeds,
transforms each tracked store component (services, secrets, service
accounts, roles, role bindings, routes) by the given function, leaves
configmaps and deployments alone, and appends only events from `allowed`. -/
def DelSpec (x : M Unit)
    (fsvc : List (Nm × SvcData) → List (Nm × SvcData))
    (fsec : List (Nm × String) → List (Nm × String))
    (fsa : List (Nm × SA) → List (Nm × SA))
    (frl : List (Nm × Unit) → List (Nm × Unit))
    (frb : List (Nm × Unit) → List (Nm × Unit))
    (frt : List (Nm × Route) → List (Nm × Route))
    (allowed : List Ev) : Prop :=
  ∀ env s r s', NoFaults env → x env s = (r, s') →
    r = Except.ok () ∧
    s'.w.configmaps = s.w.configmaps ∧
    s'.w.deployments = s.w.deployments ∧
    s'.w.services = fsvc s.w.services ∧
    s'.w.secrets = fsec s.w.secrets ∧
    s'.w.serviceAccounts = fsa s.w.serviceAccounts ∧
    s'.w.roles = frl s.w.roles ∧
    s'.w.roleBindings = frb s.w.roleBindings ∧
    s'.w.routes = frt s.w.routes ∧
    ∃ d, s'.tr = s.tr ++ d ∧ ∀ e ∈ d, e ∈ allowed


/-- Trace classification: every mutation event the computation appends is
drawn from `allowed`. -/
def MutSafe {α : Type} (x : M α) (allowed : List Ev) : Prop :=
  ∀ env s r s', x env s = (r, s') →
    ∃ d, s'.tr = s.tr ++ d ∧ ∀ e ∈ d, Ev.isMutation e = true → e ∈ allowed

/-! # Theorems -/

set_option maxHeartbeats 1000000
set_option maxRecDepth 8000

/-! ## Generic lemmas about the computation model -/

theorem bind_ok {α β : Type} {x : M α} {f : α → M β} {env : Env} {s : St} {a : α} {s₁ : St}
    (h : x env s = (.ok a, s₁)) : (x >>= f) env s = f a env s₁ := by
  show M.bind x f env s = f a env s₁
  unfold M.bind
  rw [h]

theorem bind_error {α β : Type} {x : M α} {f : α → M β} {env : Env} {s : St} {e : Err} {s₁ : St}
    (h : x env s = (.error e, s₁)) : (x >>= f) env s = (.error e, s₁) := by
  show M.bind x f env s = (.error e, s₁)
  unfold M.bind
  rw [h]

theorem alook_aset_ne {κ α : Type} [DecidableEq κ] {m n : κ} (h : ¬m = n) (v : α) :
    ∀ l : List (κ × α), alook m (aset n v l) = alook m l := by
  intro l
  induction l with
  | nil => rfl
  | cons p rest ih =>
    rcases p with ⟨k, w⟩
    simp only [aset]
    by_cases hk : k = n
    · rw [if_pos hk]
      simp only [alook]
      have hkm : ¬k = m := fun hh => h (hh ▸ hk)
      rw [if_neg hkm, if_neg hkm]
    · rw [if_neg hk]
      simp only [alook]
      by_cases hkm : k = m
      · rw [if_pos hkm, if_pos hkm]
      · rw [if_neg hkm, if_neg hkm]
        exact ih

theorem alook_aset_self {κ α : Type} [DecidableEq κ] {n : κ} (v : α) :
    ∀ l : List (κ × α), alook n l ≠ none → alook n (aset n v l) = some v := by
  intro l
  induction l with
  | nil => intro h; exact absurd rfl h
  | cons p rest ih =>
    rcases p with ⟨k, w⟩
    by_cases hk : k = n
    · intro _
      simp only [aset, if_pos hk, alook, if_pos hk]
    · simp only [aset, if_neg hk, alook, if_neg hk]
      exact ih

theorem alook_adel_self {κ α : Type} [DecidableEq κ] (n : κ) :
    ∀ l : List (κ × α), alook n (adel n l) = none := by
  intro l
  induction l with
  | nil => rfl
  | cons p rest ih =>
    rcases p with ⟨k, w⟩
    by_cases hk : k = n
    · simp only [adel, if_pos hk]
      exact ih
    · simp only [adel, if_neg hk, alook, if_neg hk]
      exact ih

theorem alook_adel_ne {κ α : Type} [DecidableEq κ] {m n : κ} (h : ¬m = n) :
    ∀ l : List (κ × α), alook m (adel n l) = alook m l := by
  intro l
  induction l with
  | nil => rfl
  | cons p rest ih =>
    rcases p with ⟨k, w⟩
    simp only [adel]
    by_cases hk : k = n
    · rw [if_pos hk]
      simp only [alook]
      have hkm : ¬k = m := fun hh => h (hh ▸ hk)
      rw [if_neg hkm]
      exact ih
    · rw [if_neg hk]
      simp only [alook]
      by_cases hkm : k = m
      · rw [if_pos hkm, if_pos hkm]
      · rw [if_neg hkm, if_neg hkm]
        exact ih

theorem adel_of_alook_none {κ α : Type} [DecidableEq κ] {n : κ} :
    ∀ {l : List (κ × α)}, alook n l = none → adel n l = l := by
  intro l
  induction l with
  | nil => intro _; rfl
  | cons p rest ih =>
    rcases p with ⟨k, w⟩
    intro h
    by_cases hk : k = n
    · rw [alook, if_pos hk] at h
      exact absurd h (by simp)
    · rw [alook, if_neg hk] at h
      rw [adel, if_neg hk, ih h]

theorem countEv_append (p : Ev → Bool) (a b : List Ev) :
    countEv p (a ++ b) = countEv p a + countEv p b := by
  unfold countEv
  rw [List.filter_append, List.length_append]

/-- Version comparison is irreflexive on the numeric part. -/
theorem numsLess_irrefl : ∀ ns : List Nat, numsLess ns ns = false := by
  intro ns
  induction ns with
  | nil => rfl
  | cons a rest ih =>
    unfold numsLess
    rw [if_neg (lt_irrefl a), if_neg (lt_irrefl a)]
    exact ih

/-- Numeric trichotomy: incomparable numeric parts are equal. -/
theorem numsLess_trichotomy : ∀ ns ms : List Nat,
    numsLess ns ms = false → numsLess ms ns = false → ns = ms := by
  intro ns
  induction ns with
  | nil =>
    intro ms h1 _
    cases ms with
    | nil => rfl
    | cons b bs => exact absurd h1 (by unfold numsLess; simp)
  | cons a as ih =>
    intro ms h1 h2
    cases ms with
    | nil => exact absurd h2 (by unfold numsLess; simp)
    | cons b bs =>
      unfold numsLess at h1 h2
      by_cases hab : a < b
      · rw [if_pos hab] at h1
        exact absurd h1 (by simp)
      · rw [if_neg hab] at h1
        by_cases hba : b < a
        · rw [if_pos hba] at h2
          exact absurd h2 (by simp)
        · rw [if_neg hba, if_neg hab] at h2
          rw [if_neg hba] at h1
          have hab' : a = b := le_antisymm (not_lt.mp hba) (not_lt.mp hab)
          rw [hab', ih bs h1 h2]


theorem evs_singleton {e : Ev} (h1 : Ev.isCMMut e = false) (h2 : Ev.isDepMut e = false) :
    ∀ x ∈ [e], Ev.isCMMut x = false ∧ Ev.isDepMut x = false := by
  intro x hx
  rcases List.mem_singleton.mp hx with rfl
  exact ⟨h1, h2⟩

theorem injected_not_ae {env : Env} {calls : Nat} {e : ApiErr}
    (hf : env.faults calls = some e) (hna : NoAEFaults env) :
    isAlreadyExists (Err.api e) = false := by
  cases e
  · rfl
  · exact absurd hf (hna calls)
  · rfl

theorem tame_pure {α : Type} (a : α) : Tame (M.pure a) := by
  intro env s r s' h
  cases h
  exact ⟨rfl, rfl, ⟨[], by simp, by simp⟩, fun e he _ => by cases he⟩

theorem tame_askEnv : Tame askEnv := by
  intro env s r s' h
  cases h
  exact ⟨rfl, rfl, ⟨[], by simp, by simp⟩, fun e he _ => by cases he⟩

theorem tame_nowM : Tame nowM := by
  intro env s r s' h
  cases h
  exact ⟨rfl, rfl, ⟨[], by simp, by simp⟩, fun e he _ => by cases he⟩

theorem tame_sleepM : Tame sleepM := by
  intro env s r s' h
  rcases s with ⟨w, tr, calls, clock⟩
  cases h
  exact ⟨rfl, rfl, ⟨[Ev.sleep], rfl, evs_singleton rfl rfl⟩, fun e he _ => by cases he⟩

theorem tame_printlnM (m : String) : Tame (printlnM m) := by
  intro env s r s' h
  rcases s with ⟨w, tr, calls, clock⟩
  cases h
  exact ⟨rfl, rfl, ⟨[Ev.println m], rfl, evs_singleton rfl rfl⟩, fun e he _ => by cases he⟩

theorem tameFrames_of_tame {α : Type} {x : M α} (h : Tame x) : TameFrames x :=
  fun env s r s' he =>
    ⟨(h env s r s' he).1, (h env s r s' he).2.1, (h env s r s' he).2.2.1⟩

theorem tame_bind {α β : Type} {x : M α} {f : α → M β}
    (hx : Tame x) (hf : ∀ a, Tame (f a)) : Tame (x >>= f) := by
  intro env s r s' h
  have h' : M.bind x f env s = (r, s') := h
  unfold M.bind at h'
  rcases hx1 : x env s with ⟨rx, s₁⟩
  rw [hx1] at h'
  rcases rx with e | a
  · cases h'
    obtain ⟨f1, f2, hd, herr⟩ := hx env s _ _ hx1
    refine ⟨f1, f2, hd, fun e' he' hna => ?_⟩
    injection he' with h₂
    subst h₂
    exact herr e rfl hna
  · obtain ⟨f1, f2, ⟨d1, hd1, hok1⟩, _⟩ := hx env s _ _ hx1
    obtain ⟨g1, g2, ⟨d2, hd2, hok2⟩, gerr⟩ := hf a env s₁ r s' h'
    refine ⟨g1.trans f1, g2.trans f2, ⟨d1 ++ d2, ?_, ?_⟩, gerr⟩
    · rw [hd2, hd1, List.append_assoc]
    · intro e he
      rcases List.mem_append.mp he with hm | hm
      exacts [hok1 e hm, hok2 e hm]

theorem tameFrames_bind {α β : Type} {x : M α} {f : α → M β}
    (hx : TameFrames x) (hf : ∀ a, TameFrames (f a)) : TameFrames (x >>= f) := by
  intro env s r s' h
  have h' : M.bind x f env s = (r, s') := h
  unfold M.bind at h'
  rcases hx1 : x env s with ⟨rx, s₁⟩
  rw [hx1] at h'
  rcases rx with e | a
  · cases h'
    exact hx env s _ _ hx1
  · obtain ⟨f1, f2, ⟨d1, hd1, hok1⟩⟩ := hx env s _ _ hx1
    obtain ⟨g1, g2, ⟨d2, hd2, hok2⟩⟩ := hf a env s₁ r s' h'
    refine ⟨g1.trans f1, g2.trans f2, ⟨d1 ++ d2, ?_, ?_⟩⟩
    · rw [hd2, hd1, List.append_assoc]
    · intro e he
      rcases List.mem_append.mp he with hm | hm
      exacts [hok1 e hm, hok2 e hm]

theorem tame_ite {α : Type} {c : Prop} [Decidable c] {x y : M α}
    (hx : Tame x) (hy : Tame y) : Tame (if c then x else y) := by
  intro env s r s' h
  by_cases hc : c
  · rw [if_pos hc] at h
    exact hx env s r s' h
  · rw [if_neg hc] at h
    exact hy env s r s' h

theorem tameFrames_ite {α : Type} {c : Prop} [Decidable c] {x y : M α}
    (hx : TameFrames x) (hy : TameFrames y) : TameFrames (if c then x else y) := by
  intro env s r s' h
  by_cases hc : c
  · rw [if_pos hc] at h
    exact hx env s r s' h
  · rw [if_neg hc] at h
    exact hy env s r s' h

theorem tame_swallowExists {α : Type} {x : M α} (hx : TameFrames x) :
    Tame (swallowExists x) := by
  intro env s r s' h
  unfold swallowExists at h
  rcases hx1 : x env s with ⟨rx, s₁⟩
  rw [hx1] at h
  try dsimp only at h
  rcases rx with e | a
  · have h2 : (if isAlreadyExists e = true then ((Except.ok none : Except Err (Option α)), s₁)
        else ((Except.error e : Except Err (Option α)), s₁)) = (r, s') := h
    by_cases hae : isAlreadyExists e = true
    · rw [if_pos hae] at h2
      cases h2
      exact ⟨(hx env s _ _ hx1).1, (hx env s _ _ hx1).2.1, (hx env s _ _ hx1).2.2,
        fun e' he' _ => by cases he'⟩
    · rw [if_neg hae] at h2
      cases h2
      refine ⟨(hx env s _ _ hx1).1, (hx env s _ _ hx1).2.1, (hx env s _ _ hx1).2.2,
        fun e' he' _ => ?_⟩
      injection he' with h₂
      subst h₂
      simpa using hae
  · cases h
    exact ⟨(hx env s _ _ hx1).1, (hx env s _ _ hx1).2.1, (hx env s _ _ hx1).2.2,
      fun e' he' _ => by cases he'⟩

theorem tame_swallowNotFound {α : Type} {x : M α} (hx : Tame x) :
    Tame (swallowNotFound x) := by
  intro env s r s' h
  unfold swallowNotFound at h
  rcases hx1 : x env s with ⟨rx, s₁⟩
  rw [hx1] at h
  try dsimp only at h
  rcases rx with e | a
  · have h2 : (if isNotFound e = true then ((Except.ok none : Except Err (Option α)), s₁)
        else ((Except.error e : Except Err (Option α)), s₁)) = (r, s') := h
    by_cases hnfo : isNotFound e = true
    · rw [if_pos hnfo] at h2
      cases h2
      exact ⟨(hx env s _ _ hx1).1, (hx env s _ _ hx1).2.1, (hx env s _ _ hx1).2.2.1,
        fun e' he' _ => by cases he'⟩
    · rw [if_neg hnfo] at h2
      cases h2
      refine ⟨(hx env s _ _ hx1).1, (hx env s _ _ hx1).2.1, (hx env s _ _ hx1).2.2.1,
        fun e' he' hna => ?_⟩
      injection he' with h₂
      subst h₂
      exact (hx env s _ _ hx1).2.2.2 e rfl hna
  · cases h
    exact ⟨(hx env s _ _ hx1).1, (hx env s _ _ hx1).2.1, (hx env s _ _ hx1).2.2.1,
      fun e' he' _ => by cases he'⟩

theorem tame_tryM {α : Type} {x : M α} (hx : TameFrames x) : Tame (tryM x) := by
  intro env s r s' h
  unfold tryM at h
  rcases hx1 : x env s with ⟨rx, s₁⟩
  rw [hx1] at h
  try dsimp only at h
  rcases rx with e | a <;> cases h <;>
    exact ⟨(hx env s _ _ hx1).1, (hx env s _ _ hx1).2.1, (hx env s _ _ hx1).2.2,
      fun e' he' _ => by cases he'⟩

theorem tame_ignoreErr {α : Type} {x : M α} (hx : TameFrames x) : Tame (ignoreErr x) := by
  intro env s r s' h
  unfold ignoreErr at h
  rcases hx1 : x env s with ⟨rx, s₁⟩
  rw [hx1] at h
  try dsimp only at h
  cases h
  exact ⟨(hx env s _ _ hx1).1, (hx env s _ _ hx1).2.1, (hx env s _ _ hx1).2.2,
    fun e' he' _ => by cases he'⟩

theorem tame_forList {α : Type} {f : α → M Unit} (hf : ∀ a, Tame (f a)) :
    ∀ l : List α, Tame (forList l f) := by
  intro l
  induction l with
  | nil => exact tame_pure ()
  | cons x xs ih =>
    intro env s r s' h
    exact tame_bind (hf x) (fun _ => ih) env s r s' h

theorem tame_getCM (n : Nm) : Tame (getCM n) := by
  intro env s r s' h
  rcases s with ⟨w, tr, calls, clock⟩
  unfold getCM at h
  try dsimp only at h
  rcases hf : env.faults calls with _ | e <;> rw [hf] at h
  · rcases hl : alook n w.configmaps with _ | d0 <;> rw [hl] at h <;> cases h
    · exact ⟨rfl, rfl, ⟨_, rfl, evs_singleton rfl rfl⟩,
        fun e' he' _ => by injection he' with h₂; rw [← h₂]; rfl⟩
    · exact ⟨rfl, rfl, ⟨_, rfl, evs_singleton rfl rfl⟩, fun e' he' _ => by cases he'⟩
  · cases h
    exact ⟨rfl, rfl, ⟨_, rfl, evs_singleton rfl rfl⟩,
      fun e' he' hna => by injection he' with h₂; rw [← h₂]; exact injected_not_ae hf hna⟩

theorem tame_getSecret (n : Nm) : Tame (getSecret n) := by
  intro env s r s' h
  rcases s with ⟨w, tr, calls, clock⟩
  unfold getSecret at h
  try dsimp only at h
  rcases hf : env.faults calls with _ | e <;> rw [hf] at h
  · rcases hl : alook n w.secrets with _ | d0 <;> rw [hl] at h <;> cases h
    · exact ⟨rfl, rfl, ⟨_, rfl, evs_singleton rfl rfl⟩,
        fun e' he' _ => by injection he' with h₂; rw [← h₂]; rfl⟩
    · exact ⟨rfl, rfl, ⟨_, rfl, evs_singleton rfl rfl⟩, fun e' he' _ => by cases he'⟩
  · cases h
    exact ⟨rfl, rfl, ⟨_, rfl, evs_singleton rfl rfl⟩,
      fun e' he' hna => by injection he' with h₂; rw [← h₂]; exact injected_not_ae hf hna⟩

theorem tame_getSA (n : Nm) : Tame (getSA n) := by
  intro env s r s' h
  rcases s with ⟨w, tr, calls, clock⟩
  unfold getSA at h
  try dsimp only at h
  rcases hf : env.faults calls with _ | e <;> rw [hf] at h
  · rcases hl : alook n w.serviceAccounts with _ | d0 <;> rw [hl] at h <;> cases h
    · exact ⟨rfl, rfl, ⟨_, rfl, evs_singleton rfl rfl⟩,
        fun e' he' _ => by injection he' with h₂; rw [← h₂]; rfl⟩
    · exact ⟨rfl, rfl, ⟨_, rfl, evs_singleton rfl rfl⟩, fun e' he' _ => by cases he'⟩
  · cases h
    exact ⟨rfl, rfl, ⟨_, rfl, evs_singleton rfl rfl⟩,
      fun e' he' hna => by injection he' with h₂; rw [← h₂]; exact injected_not_ae hf hna⟩

theorem tame_getRole (n : Nm) : Tame (getRole n) := by
  intro env s r s' h
  rcases s with ⟨w, tr, calls, clock⟩
  unfold getRole at h
  try dsimp only at h
  rcases hf : env.faults calls with _ | e <;> rw [hf] at h
  · rcases hl : alook n w.roles with _ | d0 <;> rw [hl] at h <;> cases h
    · exact ⟨rfl, rfl, ⟨_, rfl, evs_singleton rfl rfl⟩,
        fun e' he' _ => by injection he' with h₂; rw [← h₂]; rfl⟩
    · exact ⟨rfl, rfl, ⟨_, rfl, evs_singleton rfl rfl⟩, fun e' he' _ => by cases he'⟩
  · cases h
    exact ⟨rfl, rfl, ⟨_, rfl, evs_singleton rfl rfl⟩,
      fun e' he' hna => by injection he' with h₂; rw [← h₂]; exact injected_not_ae hf hna⟩

theorem tame_getRoute (n : Nm) : Tame (getRoute n) := by
  intro env s r s' h
  rcases s with ⟨w, tr, calls, clock⟩
  unfold getRoute at h
  try dsimp only at h
  rcases hf : env.faults calls with _ | e <;> rw [hf] at h
  · rcases hl : alook n w.routes with _ | d0 <;> rw [hl] at h <;> cases h
    · exact ⟨rfl, rfl, ⟨_, rfl, evs_singleton rfl rfl⟩,
        fun e' he' _ => by injection he' with h₂; rw [← h₂]; rfl⟩
    · exact ⟨rfl, rfl, ⟨_, rfl, evs_singleton rfl rfl⟩, fun e' he' _ => by cases he'⟩
  · cases h
    exact ⟨rfl, rfl, ⟨_, rfl, evs_singleton rfl rfl⟩,
      fun e' he' hna => by injection he' with h₂; rw [← h₂]; exact injected_not_ae hf hna⟩

theorem tame_getDep (n : Nm) : Tame (getDep n) := by
  intro env s r s' h
  rcases s with ⟨w, tr, calls, clock⟩
  unfold getDep at h
  try dsimp only at h
  rcases hf : env.faults calls with _ | e <;> rw [hf] at h
  · rcases hl : alook n w.deployments with _ | d0 <;> rw [hl] at h <;> cases h
    · exact ⟨rfl, rfl, ⟨_, rfl, evs_singleton rfl rfl⟩,
        fun e' he' _ => by injection he' with h₂; rw [← h₂]; rfl⟩
    · exact ⟨rfl, rfl, ⟨_, rfl, evs_singleton rfl rfl⟩, fun e' he' _ => by cases he'⟩
  · cases h
    exact ⟨rfl, rfl, ⟨_, rfl, evs_singleton rfl rfl⟩,
      fun e' he' hna => by injection he' with h₂; rw [← h₂]; exact injected_not_ae hf hna⟩

theorem tame_updateService (n : Nm) (v : SvcData) : Tame (updateService n v) := by
  intro env s r s' h
  rcases s with ⟨⟨cms, svcs, secs, sas, rls, rbs, rts, deps⟩, tr, calls, clock⟩
  unfold updateService at h
  try dsimp only at h
  rcases hf : env.faults calls with _ | e <;> rw [hf] at h
  · rcases hl : alook n svcs with _ | d0 <;> rw [hl] at h <;> cases h
    · exact ⟨rfl, rfl, ⟨[], by simp, by simp⟩,
        fun e' he' _ => by injection he' with h₂; rw [← h₂]; rfl⟩
    · exact ⟨rfl, rfl, ⟨_, rfl, evs_singleton rfl rfl⟩, fun e' he' _ => by cases he'⟩
  · cases h
    exact ⟨rfl, rfl, ⟨[], by simp, by simp⟩,
      fun e' he' hna => by injection he' with h₂; rw [← h₂]; exact injected_not_ae hf hna⟩

theorem tame_updateRoute (n : Nm) (v : Route) : Tame (updateRoute n v) := by
  intro env s r s' h
  rcases s with ⟨⟨cms, svcs, secs, sas, rls, rbs, rts, deps⟩, tr, calls, clock⟩
  unfold updateRoute at h
  try dsimp only at h
  rcases hf : env.faults calls with _ | e <;> rw [hf] at h
  · rcases hl : alook n rts with _ | d0 <;> rw [hl] at h <;> cases h
    · exact ⟨rfl, rfl, ⟨[], by simp, by simp⟩,
        fun e' he' _ => by injection he' with h₂; rw [← h₂]; rfl⟩
    · exact ⟨rfl, rfl, ⟨_, rfl, evs_singleton rfl rfl⟩, fun e' he' _ => by cases he'⟩
  · cases h
    exact ⟨rfl, rfl, ⟨[], by simp, by simp⟩,
      fun e' he' hna => by injection he' with h₂; rw [← h₂]; exact injected_not_ae hf hna⟩

theorem tame_deleteService (n : Nm) : Tame (deleteService n) := by
  intro env s r s' h
  rcases s with ⟨⟨cms, svcs, secs, sas, rls, rbs, rts, deps⟩, tr, calls, clock⟩
  unfold deleteService at h
  try dsimp only at h
  rcases hf : env.faults calls with _ | e <;> rw [hf] at h
  · rcases hl : alook n svcs with _ | d0 <;> rw [hl] at h <;> cases h
    · exact ⟨rfl, rfl, ⟨[], by simp, by simp⟩,
        fun e' he' _ => by injection he' with h₂; rw [← h₂]; rfl⟩
    · exact ⟨rfl, rfl, ⟨_, rfl, evs_singleton rfl rfl⟩, fun e' he' _ => by cases he'⟩
  · cases h
    exact ⟨rfl, rfl, ⟨[], by simp, by simp⟩,
      fun e' he' hna => by injection he' with h₂; rw [← h₂]; exact injected_not_ae hf hna⟩

theorem tame_deleteSecret (n : Nm) : Tame (deleteSecret n) := by
  intro env s r s' h
  rcases s with ⟨⟨cms, svcs, secs, sas, rls, rbs, rts, deps⟩, tr, calls, clock⟩
  unfold deleteSecret at h
  try dsimp only at h
  rcases hf : env.faults calls with _ | e <;> rw [hf] at h
  · rcases hl : alook n secs with _ | d0 <;> rw [hl] at h <;> cases h
    · exact ⟨rfl, rfl, ⟨[], by simp, by simp⟩,
        fun e' he' _ => by injection he' with h₂; rw [← h₂]; rfl⟩
    · exact ⟨rfl, rfl, ⟨_, rfl, evs_singleton rfl rfl⟩, fun e' he' _ => by cases he'⟩
  · cases h
    exact ⟨rfl, rfl, ⟨[], by simp, by simp⟩,
      fun e' he' hna => by injection he' with h₂; rw [← h₂]; exact injected_not_ae hf hna⟩

theorem tame_deleteSA (n : Nm) : Tame (deleteSA n) := by
  intro env s r s' h
  rcases s with ⟨⟨cms, svcs, secs, sas, rls, rbs, rts, deps⟩, tr, calls, clock⟩
  unfold deleteSA at h
  try dsimp only at h
  rcases hf : env.faults calls with _ | e <;> rw [hf] at h
  · rcases hl : alook n sas with _ | d0 <;> rw [hl] at h <;> cases h
    · exact ⟨rfl, rfl, ⟨[], by simp, by simp⟩,
        fun e' he' _ => by injection he' with h₂; rw [← h₂]; rfl⟩
    · exact ⟨rfl, rfl, ⟨_, rfl, evs_singleton rfl rfl⟩, fun e' he' _ => by cases he'⟩
  · cases h
    exact ⟨rfl, rfl, ⟨[], by simp, by simp⟩,
      fun e' he' hna => by injection he' with h₂; rw [← h₂]; exact injected_not_ae hf hna⟩

theorem tame_deleteRole (n : Nm) : Tame (deleteRole n) := by
  intro env s r s' h
  rcases s with ⟨⟨cms, svcs, secs, sas, rls, rbs, rts, deps⟩, tr, calls, clock⟩
  unfold deleteRole at h
  try dsimp only at h
  rcases hf : env.faults calls with _ | e <;> rw [hf] at h
  · rcases hl : alook n rls with _ | d0 <;> rw [hl] at h <;> cases h
    · exact ⟨rfl, rfl, ⟨[], by simp, by simp⟩,
        fun e' he' _ => by injection he' with h₂; rw [← h₂]; rfl⟩
    · exact ⟨rfl, rfl, ⟨_, rfl, evs_singleton rfl rfl⟩, fun e' he' _ => by cases he'⟩
  · cases h
    exact ⟨rfl, rfl, ⟨[], by simp, by simp⟩,
      fun e' he' hna => by injection he' with h₂; rw [← h₂]; exact injected_not_ae hf hna⟩

theorem tame_deleteRoleBinding (n : Nm) : Tame (deleteRoleBinding n) := by
  intro env s r s' h
  rcases s with ⟨⟨cms, svcs, secs, sas, rls, rbs, rts, deps⟩, tr, calls, clock⟩
  unfold deleteRoleBinding at h
  try dsimp only at h
  rcases hf : env.faults calls with _ | e <;> rw [hf] at h
  · rcases hl : alook n rbs with _ | d0 <;> rw [hl] at h <;> cases h
    · exact ⟨rfl, rfl, ⟨[], by simp, by simp⟩,
        fun e' he' _ => by injection he' with h₂; rw [← h₂]; rfl⟩
    · exact ⟨rfl, rfl, ⟨_, rfl, evs_singleton rfl rfl⟩, fun e' he' _ => by cases he'⟩
  · cases h
    exact ⟨rfl, rfl, ⟨[], by simp, by simp⟩,
      fun e' he' hna => by injection he' with h₂; rw [← h₂]; exact injected_not_ae hf hna⟩

theorem tame_deleteRoute (n : Nm) : Tame (deleteRoute n) := by
  intro env s r s' h
  rcases s with ⟨⟨cms, svcs, secs, sas, rls, rbs, rts, deps⟩, tr, calls, clock⟩
  unfold deleteRoute at h
  try dsimp only at h
  rcases hf : env.faults calls with _ | e <;> rw [hf] at h
  · rcases hl : alook n rts with _ | d0 <;> rw [hl] at h <;> cases h
    · exact ⟨rfl, rfl, ⟨[], by simp, by simp⟩,
        fun e' he' _ => by injection he' with h₂; rw [← h₂]; rfl⟩
    · exact ⟨rfl, rfl, ⟨_, rfl, evs_singleton rfl rfl⟩, fun e' he' _ => by cases he'⟩
  · cases h
    exact ⟨rfl, rfl, ⟨[], by simp, by simp⟩,
      fun e' he' hna => by injection he' with h₂; rw [← h₂]; exact injected_not_ae hf hna⟩

theorem tameFrames_createService (n : Nm) (v : SvcData) : TameFrames (createService n v) := by
  intro env s r s' h
  rcases s with ⟨⟨cms, svcs, secs, sas, rls, rbs, rts, deps⟩, tr, calls, clock⟩
  unfold createService at h
  try dsimp only at h
  rcases hf : env.faults calls with _ | e <;> rw [hf] at h
  · rcases hl : alook n svcs with _ | d0 <;> rw [hl] at h <;> cases h
    · exact ⟨rfl, rfl, ⟨_, rfl, evs_singleton rfl rfl⟩⟩
    · exact ⟨rfl, rfl, ⟨[], by simp, by simp⟩⟩
  · cases h
    exact ⟨rfl, rfl, ⟨[], by simp, by simp⟩⟩

theorem tameFrames_createSecret (n : Nm) (v : String) : TameFrames (createSecret n v) := by
  intro env s r s' h
  rcases s with ⟨⟨cms, svcs, secs, sas, rls, rbs, rts, deps⟩, tr, calls, clock⟩
  unfold createSecret at h
  try dsimp only at h
  rcases hf : env.faults calls with _ | e <;> rw [hf] at h
  · rcases hl : alook n secs with _ | d0 <;> rw [hl] at h <;> cases h
    · exact ⟨rfl, rfl, ⟨_, rfl, evs_singleton rfl rfl⟩⟩
    · exact ⟨rfl, rfl, ⟨[], by simp, by simp⟩⟩
  · cases h
    exact ⟨rfl, rfl, ⟨[], by simp, by simp⟩⟩

theorem tameFrames_createSA (n : Nm) (v : SA) : TameFrames (createSA n v) := by
  intro env s r s' h
  rcases s with ⟨⟨cms, svcs, secs, sas, rls, rbs, rts, deps⟩, tr, calls, clock⟩
  unfold createSA at h
  try dsimp only at h
  rcases hf : env.faults calls with _ | e <;> rw [hf] at h
  · rcases hl : alook n sas with _ | d0 <;> rw [hl] at h <;> cases h
    · exact ⟨rfl, rfl, ⟨_, rfl, evs_singleton rfl rfl⟩⟩
    · exact ⟨rfl, rfl, ⟨[], by simp, by simp⟩⟩
  · cases h
    exact ⟨rfl, rfl, ⟨[], by simp, by simp⟩⟩

theorem tameFrames_createRole (n : Nm) : TameFrames (createRole n) := by
  intro env s r s' h
  rcases s with ⟨⟨cms, svcs, secs, sas, rls, rbs, rts, deps⟩, tr, calls, clock⟩
  unfold createRole at h
  try dsimp only at h
  rcases hf : env.faults calls with _ | e <;> rw [hf] at h
  · rcases hl : alook n rls with _ | d0 <;> rw [hl] at h <;> cases h
    · exact ⟨rfl, rfl, ⟨_, rfl, evs_singleton rfl rfl⟩⟩
    · exact ⟨rfl, rfl, ⟨[], by simp, by simp⟩⟩
  · cases h
    exact ⟨rfl, rfl, ⟨[], by simp, by simp⟩⟩

theorem tameFrames_createRoleBinding (n : Nm) : TameFrames (createRoleBinding n) := by
  intro env s r s' h
  rcases s with ⟨⟨cms, svcs, secs, sas, rls, rbs, rts, deps⟩, tr, calls, clock⟩
  unfold createRoleBinding at h
  try dsimp only at h
  rcases hf : env.faults calls with _ | e <;> rw [hf] at h
  · rcases hl : alook n rbs with _ | d0 <;> rw [hl] at h <;> cases h
    · exact ⟨rfl, rfl, ⟨_, rfl, evs_singleton rfl rfl⟩⟩
    · exact ⟨rfl, rfl, ⟨[], by simp, by simp⟩⟩
  · cases h
    exact ⟨rfl, rfl, ⟨[], by simp, by simp⟩⟩

theorem tameFrames_createRoute (n : Nm) (v : Route) : TameFrames (createRoute n v) := by
  intro env s r s' h
  rcases s with ⟨⟨cms, svcs, secs, sas, rls, rbs, rts, deps⟩, tr, calls, clock⟩
  unfold createRoute at h
  try dsimp only at h
  rcases hf : env.faults calls with _ | e <;> rw [hf] at h
  · rcases hl : alook n rts with _ | d0 <;> rw [hl] at h <;> cases h
    · exact ⟨rfl, rfl, ⟨_, rfl, evs_singleton rfl rfl⟩⟩
    · exact ⟨rfl, rfl, ⟨[], by simp, by simp⟩⟩
  · cases h
    exact ⟨rfl, rfl, ⟨[], by simp, by simp⟩⟩

theorem tame_getService (n : Nm) : Tame (getService n) := by
  intro env s r s' h
  rcases s with ⟨w, tr, calls, clock⟩
  unfold getService at h
  try dsimp only at h
  rcases hf : env.faults calls with _ | e <;> rw [hf] at h
  · rcases hl : alook n w.services with _ | d0 <;> rw [hl] at h <;> cases h
    · exact ⟨rfl, rfl, ⟨_, rfl, evs_singleton rfl rfl⟩,
        fun e' he' _ => by injection he' with h₂; rw [← h₂]; rfl⟩
    · exact ⟨rfl, rfl, ⟨_, rfl, evs_singleton rfl rfl⟩, fun e' he' _ => by cases he'⟩
  · cases h
    exact ⟨rfl, rfl, ⟨_, rfl, evs_singleton rfl rfl⟩,
      fun e' he' hna => by injection he' with h₂; rw [← h₂]; exact injected_not_ae hf hna⟩

theorem tame_mixed_append {d1 d2 : List Ev}
    (h1 : ∀ e ∈ d1, Ev.isCMMut e = false ∧ Ev.isDepMut e = false)
    (h2 : ∀ e ∈ d2, Ev.isCMMut e = false ∧ Ev.isDepMut e = false) :
    ∀ e ∈ d1 ++ d2, Ev.isCMMut e = false ∧ Ev.isDepMut e = false := by
  intro e he
  rcases List.mem_append.mp he with hm | hm
  exacts [h1 e hm, h2 e hm]

theorem tame_matchTry {α β : Type} {x : M α} {f : Except Err α → M β}
    (hx : Tame x)
    (hok : ∀ a, Tame (f (Except.ok a)))
    (hnf : ∀ e, isNotFound e = true → Tame (f (Except.error e)))
    (hth : ∀ e, isNotFound e = false → f (Except.error e) = mthrow e) :
    Tame (tryM x >>= f) := by
  intro env s r s' h
  rcases hx1 : x env s with ⟨rx, s₁⟩
  have htry : tryM x env s = (Except.ok rx, s₁) := by
    unfold tryM
    rw [hx1]
    rcases rx with e | a <;> rfl
  rw [bind_ok htry] at h
  obtain ⟨f1, f2, ⟨d1, hd1, hm1⟩, herr⟩ := hx env s rx s₁ hx1
  rcases rx with e | a
  · rcases hnfe : isNotFound e with _ | _
    · rw [hth e hnfe] at h
      unfold mthrow at h
      cases h
      exact ⟨f1, f2, ⟨d1, hd1, hm1⟩, fun e' he' hna => by
        injection he' with h₂
        subst h₂
        exact herr e rfl hna⟩
    · obtain ⟨g1, g2, ⟨d2, hd2, hm2⟩, gerr⟩ := hnf e hnfe env s₁ r s' h
      exact ⟨g1.trans f1, g2.trans f2,
        ⟨d1 ++ d2, by rw [hd2, hd1, List.append_assoc], tame_mixed_append hm1 hm2⟩, gerr⟩
  · obtain ⟨g1, g2, ⟨d2, hd2, hm2⟩, gerr⟩ := hok a env s₁ r s' h
    exact ⟨g1.trans f1, g2.trans f2,
      ⟨d1 ++ d2, by rw [hd2, hd1, List.append_assoc], tame_mixed_append hm1 hm2⟩, gerr⟩

theorem tameFrames_copyService (a b : Nm) (an : List (String × String)) :
    TameFrames (copyService a b an) := by
  unfold copyService
  apply tameFrames_bind (tameFrames_of_tame (tame_getService a))
  intro src
  apply tameFrames_bind (tameFrames_createService b _)
  intro _
  exact tameFrames_of_tame (tame_pure _)

theorem tameFrames_copySecret (a b : Nm) : TameFrames (copySecret a b) := by
  unfold copySecret
  apply tameFrames_bind (tameFrames_of_tame (tame_getSecret a))
  intro v
  exact tameFrames_createSecret b v

theorem tameFrames_copyServiceAccount (a b : Nm) (an : List (String × String)) :
    TameFrames (copyServiceAccount a b an) := by
  unfold copyServiceAccount
  apply tameFrames_bind (tameFrames_of_tame (tame_getSA a))
  intro sa
  exact tameFrames_createSA b _

theorem tameFrames_copyRole (a b : Nm) : TameFrames (copyRole a b) := by
  unfold copyRole
  apply tameFrames_bind (tameFrames_of_tame (tame_getRole a))
  intro _
  exact tameFrames_createRole b

theorem tameFrames_newSecret (c : Credential) : TameFrames (newSecret c) :=
  tameFrames_createSecret c.name c.subject

theorem tame_updateTargetServiceForRoute (a b : Nm) :
    Tame (updateTargetServiceForRoute a b) := by
  unfold updateTargetServiceForRoute
  apply tame_bind (tame_getRoute a)
  intro _
  exact tame_updateRoute a ⟨b⟩

theorem tame_usingRoutesM : Tame usingRoutesM := by
  unfold usingRoutesM
  apply tame_bind tame_askEnv
  intro env
  apply tame_ite
  · apply tame_matchTry (tame_getRoute InterRouterRouteName)
    · intro a
      exact tame_pure true
    · intro e he
      show Tame (if isNotFound e = true then M.pure false else mthrow e)
      rw [if_pos he]
      exact tame_pure false
    · intro e he
      show (if isNotFound e = true then M.pure false else mthrow e) = mthrow e
      rw [he]
      exact if_neg (fun hc => Bool.noConfusion hc)
  · exact tame_pure false

theorem tame_transportLoop : ∀ (fuel : Nat) (slept : Bool), Tame (transportLoop fuel slept) := by
  intro fuel
  induction fuel with
  | zero =>
    intro slept
    exact tame_pure none
  | succ n ih =>
    intro slept
    unfold transportLoop
    apply tame_bind (tame_ite tame_sleepM (tame_pure ()))
    intro _
    apply tame_bind (tame_getService TransportServiceName)
    intro svc
    exact tame_ite (tame_pure _) (ih true)

theorem tame_getTransportHosts (ns : String) : Tame (getTransportHosts ns) := by
  unfold getTransportHosts
  apply tame_bind (tame_getService Nm.internal)
  intro oldService
  apply tame_ite
  · apply tame_bind (tame_transportLoop 120 false)
    intro found
    apply tame_bind (tame_pure _)
    intro y
    exact tame_pure _
  · apply tame_bind (tame_pure _)
    intro y
    exact tame_pure _

theorem tame_consoleLoop : ∀ (fuel : Nat) (slept : Bool), Tame (consoleLoop fuel slept) := by
  intro fuel
  induction fuel with
  | zero =>
    intro slept
    exact tame_pure ""
  | succ n ih =>
    intro slept
    unfold consoleLoop
    apply tame_bind (tame_ite tame_sleepM (tame_pure ()))
    intro _
    apply tame_bind (tame_tryM (tameFrames_of_tame (tame_getService ControllerServiceName)))
    intro r
    rcases r with e | svc
    · exact tame_bind (tame_printlnM _) (fun _ => tame_pure "")
    · exact tame_ite (tame_pure _) (ih true)

theorem tame_consolePoll : Tame consolePoll := by
  unfold consolePoll
  apply tame_bind (tame_consoleLoop 120 false)
  intro host
  exact tame_ite (tame_printlnM _) (tame_pure ())

theorem tame_renamePhase (ns : String) (cm : ConfigMap) : Tame (renamePhase ns cm) := by
  unfold renamePhase
  apply tame_bind tame_askEnv
  intro env
  apply tame_bind (tame_swallowExists (tameFrames_copyService _ _ _))
  intro _
  apply tame_bind (tame_swallowExists (tameFrames_copyService _ _ _))
  intro _
  apply tame_bind (tame_swallowExists (tameFrames_copyService _ _ _))
  intro controllerSvc
  apply tame_bind (tame_tryM (tameFrames_of_tame (tame_getService RouterConsoleServiceName)))
  intro rc
  apply tame_bind
  · rcases rc with e | svc
    · exact tame_pure ()
    · exact tame_updateService _ _
  · intro _
    apply tame_bind (tame_swallowExists (tameFrames_copySecret _ _))
    intro _
    apply tame_bind (tame_swallowExists (tameFrames_copySecret _ _))
    intro _
    apply tame_bind (tame_tryM (tameFrames_of_tame tame_usingRoutesM))
    intro ur
    apply tame_ite
    · apply tame_bind (tame_swallowExists (tameFrames_copySecret _ _))
      intro _
      apply tame_bind (tame_pure _)
      intro y
      obtain ⟨creds, rei⟩ := y
      try dsimp only
      apply tame_bind (tame_forList (fun cred => tame_ignoreErr (tameFrames_newSecret cred)) _)
      intro _
      apply tame_bind (tame_swallowExists (tameFrames_copyServiceAccount _ _ _))
      intro _
      apply tame_bind (tame_swallowExists (tameFrames_copyServiceAccount _ _ _))
      intro _
      apply tame_bind (tame_swallowExists (tameFrames_createRole _))
      intro _
      apply tame_bind (tame_swallowExists (tameFrames_copyRole _ _))
      intro _
      apply tame_bind (tame_swallowExists (tameFrames_createRoleBinding _))
      intro _
      apply tame_bind (tame_swallowExists (tameFrames_createRoleBinding _))
      intro _
      apply tame_bind
      · apply tame_ite
        · apply tame_matchTry (tame_getRoute Nm.controller)
          · intro a
            apply tame_bind
            · exact tame_bind (tame_swallowExists (tameFrames_createRoute _ _)) (fun _ => tame_pure ())
            · intro _
              exact tame_bind (tame_updateTargetServiceForRoute _ _)
                (fun _ => tame_updateTargetServiceForRoute _ _)
          · intro e he
            show Tame ((if isNotFound e = true then M.pure () else mthrow e) >>=
              fun _ => updateTargetServiceForRoute EdgeRouteName TransportServiceName >>=
                fun _ => updateTargetServiceForRoute InterRouterRouteName TransportServiceName)
            rw [if_pos he]
            exact tame_bind (tame_pure ()) (fun _ => tame_bind
              (tame_updateTargetServiceForRoute _ _) (fun _ => tame_updateTargetServiceForRoute _ _))
          · intro e he
            show ((if isNotFound e = true then M.pure () else mthrow e) >>=
              fun _ => updateTargetServiceForRoute EdgeRouteName TransportServiceName >>=
                fun _ => updateTargetServiceForRoute InterRouterRouteName TransportServiceName) = mthrow e
            rw [he, if_neg (fun hc => Bool.noConfusion hc)]
            funext env1 s1
            rfl
        · exact tame_pure ()
      · intro _
        exact tame_pure _
    · apply tame_bind (tame_getTransportHosts ns)
      intro hosts
      apply tame_bind (tame_pure _)
      intro y
      obtain ⟨creds, rei⟩ := y
      try dsimp only
      apply tame_bind (tame_forList (fun cred => tame_ignoreErr (tameFrames_newSecret cred)) _)
      intro _
      apply tame_bind (tame_swallowExists (tameFrames_copyServiceAccount _ _ _))
      intro _
      apply tame_bind (tame_swallowExists (tameFrames_copyServiceAccount _ _ _))
      intro _
      apply tame_bind (tame_swallowExists (tameFrames_createRole _))
      intro _
      apply tame_bind (tame_swallowExists (tameFrames_copyRole _ _))
      intro _
      apply tame_bind (tame_swallowExists (tameFrames_createRoleBinding _))
      intro _
      apply tame_bind (tame_swallowExists (tameFrames_createRoleBinding _))
      intro _
      apply tame_bind
      · apply tame_ite
        · apply tame_matchTry (tame_getRoute Nm.controller)
          · intro a
            apply tame_bind
            · exact tame_bind (tame_swallowExists (tameFrames_createRoute _ _)) (fun _ => tame_pure ())
            · intro _
              exact tame_bind (tame_updateTargetServiceForRoute _ _)
                (fun _ => tame_updateTargetServiceForRoute _ _)
          · intro e he
            show Tame ((if isNotFound e = true then M.pure () else mthrow e) >>=
              fun _ => updateTargetServiceForRoute EdgeRouteName TransportServiceName >>=
                fun _ => updateTargetServiceForRoute InterRouterRouteName TransportServiceName)
            rw [if_pos he]
            exact tame_bind (tame_pure ()) (fun _ => tame_bind
              (tame_updateTargetServiceForRoute _ _) (fun _ => tame_updateTargetServiceForRoute _ _))
          · intro e he
            show ((if isNotFound e = true then M.pure () else mthrow e) >>=
              fun _ => updateTargetServiceForRoute EdgeRouteName TransportServiceName >>=
                fun _ => updateTargetServiceForRoute InterRouterRouteName TransportServiceName) = mthrow e
            rw [he, if_neg (fun hc => Bool.noConfusion hc)]
            funext env1 s1
            rfl
        · exact tame_pure ()
      · intro _
        exact tame_pure _

theorem tame_cleanupPhase (ur : Bool) : Tame (cleanupPhase ur) := by
  unfold cleanupPhase
  apply tame_bind tame_askEnv
  intro env
  apply tame_bind (tame_ite (tame_bind (tame_swallowNotFound (tame_deleteRoute _))
    (fun _ => tame_pure ())) (tame_pure ()))
  intro _
  apply tame_bind (tame_forList (fun svc => tame_bind (tame_swallowNotFound (tame_deleteService svc))
    (fun _ => tame_pure ())) _)
  intro _
  apply tame_bind (tame_forList (fun sec => tame_bind (tame_swallowNotFound (tame_deleteSecret sec))
    (fun _ => tame_pure ())) _)
  intro _
  apply tame_bind (tame_forList (fun rb => tame_bind (tame_swallowNotFound (tame_deleteRoleBinding rb))
    (fun _ => tame_pure ())) _)
  intro _
  apply tame_bind (tame_forList (fun sa => tame_bind (tame_swallowNotFound (tame_deleteSA sa))
    (fun _ => tame_pure ())) _)
  intro _
  exact tame_forList (fun role => tame_bind (tame_swallowNotFound (tame_deleteRole role))
    (fun _ => tame_pure ())) _

/-- C3 (amended): within the rename migration every checked create/copy
swallows already-exists and any other failure aborts with the marker (a
configmap) untouched: whenever `renamePhase` returns an error under an
environment that never injects spurious already-exists faults, the error is
not an already-exists error and the configmap store is unchanged.  The
credential-secret creation step is the exception whose error is discarded
entirely: the concrete run with a non-already-exists fault injected exactly
at that step still completes successfully.  -/
theorem C3_error_policy :
    (∀ (ns : String) (cm : ConfigMap) (env : Env) (s : St) (e : Err) (s' : St),
        NoAEFaults env → renamePhase ns cm env s = (Except.error e, s') →
        isAlreadyExists e = false ∧ s'.w.configmaps = s.w.configmaps) ∧
    (runUpdate false "ns" secretFaultEnv (st0 renameWorld)).1 = (true, none) := by
  constructor
  · intro ns cm env s e s' hna h
    obtain ⟨f1, _, _, herr⟩ := tame_renamePhase ns cm env s _ s' h
    exact ⟨herr e rfl hna, f1⟩
  · rfl

/-- Witness for C3: the universal half applied to a concrete aborting run
(a "disk full" fault injected at the very first rename step). -/
theorem C3_error_policy_witness :
    isAlreadyExists (Err.api (ApiErr.other "boom")) = false ∧
    (⟨renameWorld, [Ev.lookup Kind.service Nm.messaging], 1, 0⟩ : St).w.configmaps =
      (st0 renameWorld).w.configmaps :=
  C3_error_policy.1 "ns" newerCM (faultAt 0 (ApiErr.other "boom") baseEnv) (st0 renameWorld)
    (Err.api (ApiErr.other "boom")) ⟨renameWorld, [Ev.lookup Kind.service Nm.messaging], 1, 0⟩
    (by intro n; by_cases h : n = 0 <;> simp [faultAt, baseEnv, h]) rfl

/-- C2: for every invocation in which the stored site version is strictly
more recent than the library's version, the invocation returns an error with
`updated = false`, the object store is unchanged, and the trace contains no
mutation (no configmap update, no marker creation, no create/copy/delete, no
deployment update). -/
theorem C2_newer_site_no_mutation
    (hup : Bool) (ns : String) (env : Env) (w : World) (calls clock : Nat)
    (cm : ConfigMap) (site : SiteMeta)
    (hcm : alook TransportConfigMapName w.configmaps = some cm)
    (hct : cm.content = CMContent.router site)
    (hlt : lessRecentThanVersion env.libVersion site.version = true) :
    (runUpdate hup ns env ⟨w, [], calls, clock⟩).1.1 = false ∧
    (runUpdate hup ns env ⟨w, [], calls, clock⟩).1.2.isSome = true ∧
    (runUpdate hup ns env ⟨w, [], calls, clock⟩).2.w = w ∧
    mutations (runUpdate hup ns env ⟨w, [], calls, clock⟩).2.tr = [] := by
  have hbody : ∃ e, mainBody hup ns env ⟨w, [], calls, clock⟩ =
      (Except.error e, ⟨w, [Ev.lookup Kind.configmap TransportConfigMapName], calls + 1, clock⟩) := by
    rcases hf : env.faults calls with _ | e
    · refine ⟨Err.fatal "site is newer than library; cannot update", ?_⟩
      unfold mainBody versionPhase
      simp only [bind_eq, M.bind, askEnv, getCM, hf, hcm, getRouterConfig, hct, List.nil_append]
      rw [if_pos hlt]
      simp only [mthrow]
    · refine ⟨Err.api e, ?_⟩
      unfold mainBody versionPhase
      simp only [bind_eq, M.bind, askEnv, getCM, hf, List.nil_append]
  obtain ⟨e, he⟩ := hbody
  have hrun : runUpdate hup ns env ⟨w, [], calls, clock⟩ =
      ((false, some e), ⟨w, [Ev.lookup Kind.configmap TransportConfigMapName], calls + 1, clock⟩) := by
    unfold runUpdate
    rw [he]
  rw [hrun]
  exact ⟨rfl, rfl, rfl, rfl⟩

/-- Witness for C2: a site recorded at `0.7.0` under the `0.6.0` library:
the invocation fails and mutates nothing. -/
theorem C2_newer_site_no_mutation_witness :
    (runUpdate false "ns" baseEnv ⟨newerWorld, [], 0, 0⟩).1.1 = false ∧
    (runUpdate false "ns" baseEnv ⟨newerWorld, [], 0, 0⟩).1.2.isSome = true ∧
    (runUpdate false "ns" baseEnv ⟨newerWorld, [], 0, 0⟩).2.w = newerWorld ∧
    mutations (runUpdate false "ns" baseEnv ⟨newerWorld, [], 0, 0⟩).2.tr = [] :=
  C2_newer_site_no_mutation false "ns" baseEnv newerWorld 0 0 newerCM
    ⟨⟨[0, 7, 0], ""⟩, "site1"⟩ rfl rfl rfl

/-- C1 counterexample: the claim's retention condition is inverted.
In a rename invocation on a site that IS using routed objects (the
inter-router route exists and is detected, first conjunct), the legacy
transport network-exposure service `skupper-internal` is deleted (its delete
event is in the trace and it is gone from the final store), not retained. -/
theorem C1_counterexample :
    (alook InterRouterRouteName routesWorld.routes).isSome = true ∧
    (runUpdate false "ns" routesEnv (st0 routesWorld)).1 = (true, none) ∧
    Ev.delete Kind.service Nm.internal ∈ (runUpdate false "ns" routesEnv (st0 routesWorld)).2.tr ∧
    alook Nm.internal (runUpdate false "ns" routesEnv (st0 routesWorld)).2.w.services = none := by
  refine ⟨rfl, rfl, by decide, rfl⟩

/-- C3 counterexample: a non-already-exists store failure at the
credential-secret creation step (call index 16 on this run, the
`kube.NewSecret` call minting `skupper-local-server`) does NOT abort the
invocation: the run completes successfully while the secret is silently left
missing — under the fault-free environment the same run does create it. -/
theorem C3_counterexample :
    secretFaultEnv.faults 16 = some (ApiErr.other "disk full") ∧
    (runUpdate false "ns" secretFaultEnv (st0 renameWorld)).1 = (true, none) ∧
    alook Nm.localServer (runUpdate false "ns" secretFaultEnv (st0 renameWorld)).2.w.secrets = none ∧
    (alook Nm.localServer (runUpdate false "ns" baseEnv (st0 renameWorld)).2.w.secrets).isSome = true := by
  refine ⟨rfl, rfl, rfl, rfl⟩

/-- C4 counterexample: an invocation that mutates the site (the metadata
bump from `0.6.0-rc1` and the forced transport redeploy) in which the
upgrade marker never exists: it is absent initially, never created, and
absent at the end. -/
theorem C4_counterexample :
    markerIn equivWorld = false ∧
    markerCreateEv ∉ (runUpdate false "ns" baseEnv (st0 equivWorld)).2.tr ∧
    markerIn (runUpdate false "ns" baseEnv (st0 equivWorld)).2.w = false ∧
    mutations (runUpdate false "ns" baseEnv (st0 equivWorld)).2.tr = [cmUpdateEv, routerUpdEv] := by
  refine ⟨rfl, by decide, rfl, rfl⟩

/-- C5 counterexample: with the stored site version `0.6.0-rc1` equivalent
to but textually distinct from the library version `0.6.0`, and both
workloads already on the desired images, the invocation still redeploys the
transport workload (its deployment-update event is in the trace), contrary
to "no workload is redeployed unless its image reference changed". -/
theorem C5_counterexample :
    equivalentVersion baseEnv.libVersion ⟨[0, 6, 0], "rc1"⟩ = true ∧
    baseEnv.libVersion ≠ (⟨[0, 6, 0], "rc1"⟩ : Ver) ∧
    (alook TransportDeploymentName equivWorld.deployments).map getImage = some baseEnv.routerImage ∧
    (alook ControllerDeploymentName equivWorld.deployments).map getImage = some baseEnv.controllerImage ∧
    routerUpdEv ∈ (runUpdate false "ns" baseEnv (st0 equivWorld)).2.tr := by
  refine ⟨rfl, by decide, rfl, rfl, by decide⟩

/-- C6 counterexample: in the same invocation the site metadata version was
bumped (the configmap update event is in the trace) and the force-restart
flag was unset, yet the controller workload was NOT redeployed: only the
transport workload is forced by a metadata bump. -/
theorem C6_counterexample :
    cmUpdateEv ∈ (runUpdate false "ns" baseEnv (st0 equivWorld)).2.tr ∧
    ctrlUpdEv ∉ (runUpdate false "ns" baseEnv (st0 equivWorld)).2.tr := by
  refine ⟨by decide, by decide⟩

/-- C7 counterexample: the subject of the minted external server credential
is the FIRST host under the 64-character limit, not the shortest usable
host: on this resolved host list the code picks the 27-character
load-balancer host while the shortest usable host has 14 characters. -/
theorem C7_counterexample :
    (getTransportHosts "ns" lbEnv (st0 lbWorld)).1 = Except.ok lbHosts ∧
    (siteServerCredential lbHosts).subject = "my-loadbalancer.example.com" ∧
    specShortestUsableHost lbHosts = some "lb.old.example" ∧
    ("my-loadbalancer.example.com" : String) ≠ "lb.old.example" := by
  refine ⟨rfl, rfl, rfl, by decide⟩

/-- C9 counterexample: when the console polling loop exhausts its 120
attempts without obtaining a host (and without a lookup error), execution
continues non-fatally but NO message is printed — the claim's "a message is
printed" holds only for the lookup-error path. -/
theorem C9_counterexample :
    (consolePoll baseEnv (st0 consoleWorld)).1 = Except.ok () ∧
    countEv (isSvcLookup ControllerServiceName) (consolePoll baseEnv (st0 consoleWorld)).2.tr = 120 ∧
    countEv isSleepEv (consolePoll baseEnv (st0 consoleWorld)).2.tr = 119 ∧
    countEv isPrintlnEv (consolePoll baseEnv (st0 consoleWorld)).2.tr = 0 := by
  refine ⟨rfl, rfl, rfl, rfl⟩

theorem cnt_lk_println (nn : Nm) (m : String) :
    countEv (isSvcLookup nn) [Ev.println m] = 0 := rfl

theorem cnt_sl_println (m : String) : countEv isSleepEv [Ev.println m] = 0 := rfl

theorem cnt_sl_lk (nn : Nm) : countEv isSleepEv [Ev.lookup Kind.service nn] = 0 := rfl

theorem consoleLoop_spec : ∀ (fuel : Nat) (b : Bool) (env : Env) (s : St),
    ∃ h s', consoleLoop fuel b env s = (Except.ok h, s') ∧
      ∃ d, s'.tr = s.tr ++ d ∧
        countEv (isSvcLookup ControllerServiceName) d ≤ fuel ∧
        countEv isSleepEv d = countEv (isSvcLookup ControllerServiceName) d - (cond b 0 1) := by
  intro fuel
  induction fuel with
  | zero =>
    intro b env s
    exact ⟨"", s, rfl, [], by simp, by simp [countEv], by cases b <;> simp [countEv]⟩
  | succ fuel ih =>
    intro b env s
    rcases s with ⟨w, tr, calls, clock⟩
    have hpre : ∃ clock₁, (if b then sleepM else M.pure ()) env ⟨w, tr, calls, clock⟩ =
        (Except.ok (), ⟨w, tr ++ (cond b [Ev.sleep] []), calls, clock₁⟩) := by
      cases b
      · exact ⟨clock, by simp [M.pure]⟩
      · exact ⟨clock + 1, by simp [sleepM]⟩
    obtain ⟨clock₁, hpre⟩ := hpre
    have hcnt1 : countEv isSleepEv (cond b [Ev.sleep] []) = cond b 1 0 := by
      cases b <;> simp [countEv, isSleepEv]
    have hcnt2 : countEv (isSvcLookup ControllerServiceName) (cond b [Ev.sleep] []) = 0 := by
      cases b <;> simp [countEv, isSvcLookup]
    have hlk1 : countEv (isSvcLookup ControllerServiceName)
        [Ev.lookup Kind.service ControllerServiceName] = 1 := by decide
    rcases hf : env.faults calls with _ | e
    · rcases hl : alook ControllerServiceName w.services with _ | dsvc
      · -- not found: error path, println, stop
        have hrun : consoleLoop (fuel + 1) b env ⟨w, tr, calls, clock⟩ =
            (Except.ok "", ⟨w, ((tr ++ cond b [Ev.sleep] []) ++
              [Ev.lookup Kind.service ControllerServiceName]) ++
              [Ev.println ("Could not determine new console url: " ++ errMsg (Err.api ApiErr.notFound))],
              calls + 1, clock₁⟩) := by
          unfold consoleLoop
          rw [bind_ok hpre]
          simp only [bind_eq, M.bind, tryM, getService, hf, hl, printlnM, M.pure]
        refine ⟨_, _, hrun, (cond b [Ev.sleep] []) ++
          [Ev.lookup Kind.service ControllerServiceName] ++
          [Ev.println ("Could not determine new console url: " ++ errMsg (Err.api ApiErr.notFound))],
          by simp, ?_, ?_⟩
        · simp only [countEv_append, hcnt2, hlk1, cnt_lk_println]
          omega
        · simp only [countEv_append, hcnt1, hcnt2, hlk1, cnt_sl_lk, cnt_sl_println, cnt_lk_println]
          cases b <;> simp
      · by_cases hlb : (if dsvc.isLoadBalancer then env.extLb ControllerServiceName clock₁ else "") ≠ ""
        · -- host obtained: stop
          have hrun : consoleLoop (fuel + 1) b env ⟨w, tr, calls, clock⟩ =
              (Except.ok (if dsvc.isLoadBalancer then env.extLb ControllerServiceName clock₁ else ""),
               ⟨w, (tr ++ cond b [Ev.sleep] []) ++ [Ev.lookup Kind.service ControllerServiceName],
                calls + 1, clock₁⟩) := by
            unfold consoleLoop
            rw [bind_ok hpre]
            simp only [bind_eq, M.bind, tryM, getService, hf, hl, M.pure]
            rw [if_pos (by simpa using hlb)]
            simp only [M.pure]
          refine ⟨_, _, hrun, (cond b [Ev.sleep] []) ++
            [Ev.lookup Kind.service ControllerServiceName], by simp, ?_, ?_⟩
          · simp only [countEv_append, hcnt2, hlk1]
            omega
          · simp only [countEv_append, hcnt1, hcnt2, hlk1, cnt_sl_lk]
            cases b <;> simp
        · -- empty host: recurse
          obtain ⟨h, s₃, hrec, d', hd', hlk', hsl'⟩ :=
            ih true env ⟨w, (tr ++ cond b [Ev.sleep] []) ++ [Ev.lookup Kind.service ControllerServiceName],
                         calls + 1, clock₁⟩
          have hrun : consoleLoop (fuel + 1) b env ⟨w, tr, calls, clock⟩ = (Except.ok h, s₃) := by
            unfold consoleLoop
            rw [bind_ok hpre]
            simp only [bind_eq, M.bind, tryM, getService, hf, hl, M.pure]
            rw [if_neg (by simpa using hlb)]
            exact hrec
          refine ⟨h, s₃, hrun, (cond b [Ev.sleep] []) ++
            [Ev.lookup Kind.service ControllerServiceName] ++ d', ?_, ?_, ?_⟩
          · rw [hd']
            simp
          · simp only [countEv_append, hcnt2, hlk1]
            omega
          · simp only [countEv_append, hcnt1, hcnt2, hlk1, cnt_sl_lk]
            rw [hsl']
            cases b <;> simp
    · -- injected fault: error path, println, stop
      have hrun : consoleLoop (fuel + 1) b env ⟨w, tr, calls, clock⟩ =
          (Except.ok "", ⟨w, ((tr ++ cond b [Ev.sleep] []) ++
            [Ev.lookup Kind.service ControllerServiceName]) ++
            [Ev.println ("Could not determine new console url: " ++ errMsg (Err.api e))],
            calls + 1, clock₁⟩) := by
        unfold consoleLoop
        rw [bind_ok hpre]
        simp only [bind_eq, M.bind, tryM, getService, hf, printlnM, M.pure]
      refine ⟨_, _, hrun, (cond b [Ev.sleep] []) ++
        [Ev.lookup Kind.service ControllerServiceName] ++
        [Ev.println ("Could not determine new console url: " ++ errMsg (Err.api e))],
        by simp, ?_, ?_⟩
      · simp only [countEv_append, hcnt2, hlk1, cnt_lk_println]
        omega
      · simp only [countEv_append, hcnt1, hcnt2, hlk1, cnt_sl_lk, cnt_sl_println, cnt_lk_println]
        cases b <;> simp

theorem transportLoop_spec : ∀ (fuel : Nat) (b : Bool) (env : Env) (s : St) (r : Except Err (Option String)) (s' : St),
    transportLoop fuel b env s = (r, s') →
    ∃ d, s'.tr = s.tr ++ d ∧
      countEv (isSvcLookup TransportServiceName) d ≤ fuel ∧
      countEv isSleepEv d = countEv (isSvcLookup TransportServiceName) d - (cond b 0 1) := by
  intro fuel
  induction fuel with
  | zero =>
    intro b env s r s' h
    have : (Except.ok (none : Option String), s) = (r, s') := h
    cases this
    exact ⟨[], by simp, by simp [countEv], by cases b <;> simp [countEv]⟩
  | succ fuel ih =>
    intro b env s r s' h
    rcases s with ⟨w, tr, calls, clock⟩
    have hpre : ∃ clock₁, (if b then sleepM else M.pure ()) env ⟨w, tr, calls, clock⟩ =
        (Except.ok (), ⟨w, tr ++ (cond b [Ev.sleep] []), calls, clock₁⟩) := by
      cases b
      · exact ⟨clock, by simp [M.pure]⟩
      · exact ⟨clock + 1, by simp [sleepM]⟩
    obtain ⟨clock₁, hpre⟩ := hpre
    have hcnt1 : countEv isSleepEv (cond b [Ev.sleep] []) = cond b 1 0 := by
      cases b <;> simp [countEv, isSleepEv]
    have hcnt2 : countEv (isSvcLookup TransportServiceName) (cond b [Ev.sleep] []) = 0 := by
      cases b <;> simp [countEv, isSvcLookup]
    have hlk1 : countEv (isSvcLookup TransportServiceName)
        [Ev.lookup Kind.service TransportServiceName] = 1 := by decide
    rcases hf : env.faults calls with _ | e
    · rcases hl : alook TransportServiceName w.services with _ | dsvc
      · -- not found: the error propagates out of the loop
        have hrun : transportLoop (fuel + 1) b env ⟨w, tr, calls, clock⟩ =
            (Except.error (Err.api ApiErr.notFound),
             ⟨w, (tr ++ cond b [Ev.sleep] []) ++ [Ev.lookup Kind.service TransportServiceName],
              calls + 1, clock₁⟩) := by
          unfold transportLoop
          rw [bind_ok hpre]
          simp only [bind_eq, M.bind, getService, hf, hl]
        rw [hrun] at h
        cases h
        refine ⟨(cond b [Ev.sleep] []) ++ [Ev.lookup Kind.service TransportServiceName], by simp, ?_, ?_⟩
        · simp only [countEv_append, hcnt2, hlk1]
          omega
        · simp only [countEv_append, hcnt1, hcnt2, hlk1, cnt_sl_lk]
          cases b <;> simp
      · by_cases hlb : (if dsvc.isLoadBalancer then env.extLb TransportServiceName clock₁ else "") ≠ ""
        · -- host obtained: stop
          have hrun : transportLoop (fuel + 1) b env ⟨w, tr, calls, clock⟩ =
              (Except.ok (some (if dsvc.isLoadBalancer then env.extLb TransportServiceName clock₁ else "")),
               ⟨w, (tr ++ cond b [Ev.sleep] []) ++ [Ev.lookup Kind.service TransportServiceName],
                calls + 1, clock₁⟩) := by
            unfold transportLoop
            rw [bind_ok hpre]
            simp only [bind_eq, M.bind, getService, hf, hl, M.pure]
            rw [if_pos (by simpa using hlb)]
            simp only [M.pure]
          rw [hrun] at h
          cases h
          refine ⟨(cond b [Ev.sleep] []) ++ [Ev.lookup Kind.service TransportServiceName], by simp, ?_, ?_⟩
          · simp only [countEv_append, hcnt2, hlk1]
            omega
          · simp only [countEv_append, hcnt1, hcnt2, hlk1, cnt_sl_lk]
            cases b <;> simp
        · -- empty host: recurse
          unfold transportLoop at h
          rw [bind_ok hpre] at h
          simp only [bind_eq, M.bind, getService, hf, hl, M.pure] at h
          rw [if_neg (by simpa using hlb)] at h
          obtain ⟨d', hd', hlk', hsl'⟩ := ih true env _ r s' h
          refine ⟨(cond b [Ev.sleep] []) ++ [Ev.lookup Kind.service TransportServiceName] ++ d', ?_, ?_, ?_⟩
          · rw [hd']
            simp
          · simp only [countEv_append, hcnt2, hlk1]
            omega
          · simp only [countEv_append, hcnt1, hcnt2, hlk1, cnt_sl_lk]
            rw [hsl']
            cases b <;> simp
    · -- injected fault: the error propagates out of the loop
      have hrun : transportLoop (fuel + 1) b env ⟨w, tr, calls, clock⟩ =
          (Except.error (Err.api e),
           ⟨w, (tr ++ cond b [Ev.sleep] []) ++ [Ev.lookup Kind.service TransportServiceName],
            calls + 1, clock₁⟩) := by
        unfold transportLoop
        rw [bind_ok hpre]
        simp only [bind_eq, M.bind, getService, hf]
      rw [hrun] at h
      cases h
      refine ⟨(cond b [Ev.sleep] []) ++ [Ev.lookup Kind.service TransportServiceName], by simp, ?_, ?_⟩
      · simp only [countEv_append, hcnt2, hlk1]
        omega
      · simp only [countEv_append, hcnt1, hcnt2, hlk1, cnt_sl_lk]
        cases b <;> simp

theorem getTransportHosts_after_loop :
    ∀ (env : Env) (s : St) (ns : String) (old : Service) (s₁ : St) (v : Option String) (s₂ : St),
    getService Nm.internal env s = (.ok old, s₁) →
    old.data.isLoadBalancer = true →
    transportLoop 120 false env s₁ = (.ok v, s₂) →
    ∃ hosts, getTransportHosts ns env s = (.ok hosts, s₂) ∧ hosts ≠ [] := by
  intro env s ns old s₁ v s₂ hg hlb hloop
  rcases v with _ | hhost
  · have key : getTransportHosts ns env s =
        (.ok (([] ++ (if old.lbHost != "" then [old.lbHost] else [])) ++
          [nmStr TransportServiceName, qualifiedServiceName (nmStr TransportServiceName) ns,
           qualifiedServiceName (nmStr Nm.internal) ns]), s₂) := by
      unfold getTransportHosts
      rw [bind_ok hg]
      simp only [bind_eq, M.bind, hlb, if_true, M.pure]
      rw [hloop]
    exact ⟨_, key, by simp⟩
  · have key : getTransportHosts ns env s =
        (.ok (([hhost] ++ (if old.lbHost != "" then [old.lbHost] else [])) ++
          [nmStr TransportServiceName, qualifiedServiceName (nmStr TransportServiceName) ns,
           qualifiedServiceName (nmStr Nm.internal) ns]), s₂) := by
      unfold getTransportHosts
      rw [bind_ok hg]
      simp only [bind_eq, M.bind, hlb, if_true, M.pure]
      rw [hloop]
    exact ⟨_, key, by simp⟩

theorem getTransportHosts_shape :
    ∀ (env : Env) (s : St) (ns : String) (hosts : List String) (s' : St),
    getTransportHosts ns env s = (.ok hosts, s') →
    ∃ X, hosts = X ++ [nmStr TransportServiceName,
      qualifiedServiceName (nmStr TransportServiceName) ns,
      qualifiedServiceName (nmStr Nm.internal) ns] := by
  intro env s ns hosts s' h
  unfold getTransportHosts at h
  rcases hg : getService Nm.internal env s with ⟨rg, s₁⟩
  rcases rg with e | old
  · rw [bind_error hg] at h
    simp at h
  · rw [bind_ok hg] at h
    simp only [bind_eq, M.bind, M.pure] at h
    rcases hlb : old.data.isLoadBalancer with _ | _
    · rw [hlb] at h
      rw [if_neg (by simp)] at h
      simp only [bind_eq, M.bind, M.pure] at h
      obtain ⟨h1, _⟩ := Prod.mk.injEq .. |>.mp h
      injection h1 with h2
      exact ⟨[], h2.symm⟩
    · rw [hlb] at h
      rw [if_pos rfl] at h
      simp only [bind_eq, M.bind, M.pure] at h
      rcases hloop : transportLoop 120 false env s₁ with ⟨rl, s₂⟩
      rw [hloop] at h
      rcases rl with e | v
      · simp at h
      · simp only [M.pure] at h
        obtain ⟨h1, _⟩ := Prod.mk.injEq .. |>.mp h
        injection h1 with h2
        exact ⟨_, h2.symm⟩

/-- C7 (amended): any successfully resolved transport host list is
non-empty, and the minted external server credential carries that host list
with a subject under the 64-character certificate limit — the subject being
the FIRST host under the limit, or the stable internal transport service
name if none qualifies. -/
theorem C7_site_credential :
    ∀ (env : Env) (s : St) (ns : String) (hosts : List String) (s' : St),
    getTransportHosts ns env s = (.ok hosts, s') →
    hosts ≠ [] ∧
    (siteServerCredential hosts).connectJson = false ∧
    (siteServerCredential hosts).hosts = hosts ∧
    (siteServerCredential hosts).subject.length < 64 ∧
    ((siteServerCredential hosts).subject ∈ hosts ∨
     (siteServerCredential hosts).subject = nmStr TransportServiceName) := by
  intro env s ns hosts s' h
  obtain ⟨X, hX⟩ := getTransportHosts_shape env s ns hosts s' h
  refine ⟨by rw [hX]; simp, rfl, rfl, ?_, ?_⟩
  · show (pickSubject hosts).length < 64
    unfold pickSubject
    rcases hf : hosts.find? (fun h => decide (h.length < 64)) with _ | hh
    · rw [hf]
      decide
    · rw [hf]
      show hh.length < 64
      have hp := List.find?_some hf
      exact of_decide_eq_true hp
  · show pickSubject hosts ∈ hosts ∨ pickSubject hosts = nmStr TransportServiceName
    unfold pickSubject
    rcases hf : hosts.find? (fun h => decide (h.length < 64)) with _ | hh
    · rw [hf]
      exact Or.inr rfl
    · rw [hf]
      show hh ∈ hosts ∨ hh = nmStr TransportServiceName
      exact Or.inl (List.mem_of_find?_eq_some hf)

/-- Witness for C7 on the load-balancer fixture: the resolved host list and
the resulting credential check out. -/
theorem C7_site_credential_witness :
    ∃ s', getTransportHosts "ns" lbEnv (st0 lbWorld) = (.ok lbHosts, s') ∧
      (lbHosts ≠ [] ∧
       (siteServerCredential lbHosts).connectJson = false ∧
       (siteServerCredential lbHosts).hosts = lbHosts ∧
       (siteServerCredential lbHosts).subject.length < 64 ∧
       ((siteServerCredential lbHosts).subject ∈ lbHosts ∨
        (siteServerCredential lbHosts).subject = nmStr TransportServiceName)) := by
  refine ⟨_, rfl, C7_site_credential lbEnv (st0 lbWorld) "ns" lbHosts _ rfl⟩

/-- C9 (amended): both bounded polling loops make at most 120 lookup
attempts with exactly one sleep between consecutive attempts and always
terminate; console polling never fails (exhaustion continues silently, a
message is printed only on a lookup error — see the counterexample); and
exhausting the transport loop without a host does not fail the invocation:
`getTransportHosts` still returns a non-empty host list. -/
theorem C9_bounded_polling :
    (∀ env s, ∃ s', consolePoll env s = (Except.ok (), s') ∧
       ∃ d, s'.tr = s.tr ++ d ∧
         countEv (isSvcLookup ControllerServiceName) d ≤ 120 ∧
         countEv isSleepEv d = countEv (isSvcLookup ControllerServiceName) d - 1) ∧
    (∀ env s r s', transportLoop 120 false env s = (r, s') →
       ∃ d, s'.tr = s.tr ++ d ∧
         countEv (isSvcLookup TransportServiceName) d ≤ 120 ∧
         countEv isSleepEv d = countEv (isSvcLookup TransportServiceName) d - 1) ∧
    (∀ env s ns old s₁ v s₂, getService Nm.internal env s = (.ok old, s₁) →
       old.data.isLoadBalancer = true → transportLoop 120 false env s₁ = (.ok v, s₂) →
       ∃ hosts, getTransportHosts ns env s = (.ok hosts, s₂) ∧ hosts ≠ []) := by
  refine ⟨?_, ?_, ?_⟩
  · intro env s
    obtain ⟨h, s₁, hrun, d, hd, hlk, hsl⟩ := consoleLoop_spec 120 false env s
    rcases s₁ with ⟨w₁, tr₁, calls₁, clock₁⟩
    by_cases hh : (h != "") = true
    · refine ⟨⟨w₁, tr₁ ++ [Ev.println ("Console is now at http://" ++ h ++ ":8080")], calls₁, clock₁⟩,
        ?_, d ++ [Ev.println ("Console is now at http://" ++ h ++ ":8080")], ?_, ?_, ?_⟩
      · unfold consolePoll
        rw [bind_ok hrun, if_pos hh]
        simp only [printlnM]
      · rw [show (⟨w₁, tr₁, calls₁, clock₁⟩ : St).tr = tr₁ from rfl] at hd
        rw [hd]
        simp
      · simp only [countEv_append, cnt_lk_println]
        omega
      · simp only [Bool.cond_false] at hsl
        simp only [countEv_append, cnt_lk_println, cnt_sl_println]
        omega
    · refine ⟨⟨w₁, tr₁, calls₁, clock₁⟩, ?_, d, hd, hlk, hsl⟩
      unfold consolePoll
      rw [bind_ok hrun, if_neg hh]
      rfl
  · intro env s r s' h
    exact transportLoop_spec 120 false env s r s' h
  · intro env s ns old s₁ v s₂ hg hlb hloop
    exact getTransportHosts_after_loop env s ns old s₁ v s₂ hg hlb hloop

/-- Witness for C9's transport-exhaustion clause: on `exhaustWorld` the loop
makes all 120 attempts, finds nothing, and the host resolution still
succeeds with a non-empty list. -/
theorem C9_bounded_polling_witness :
    ∃ old s₁ s₂ hosts,
      getService Nm.internal baseEnv (st0 exhaustWorld) = (Except.ok old, s₁) ∧
      old.data.isLoadBalancer = true ∧
      transportLoop 120 false baseEnv s₁ = (Except.ok none, s₂) ∧
      getTransportHosts "ns" baseEnv (st0 exhaustWorld) = (Except.ok hosts, s₂) ∧ hosts ≠ [] := by
  obtain ⟨hosts, hh, hne⟩ := C9_bounded_polling.2.2 baseEnv (st0 exhaustWorld) "ns"
    ⟨⟨true, []⟩, ""⟩ exhaustMid none exhaustEnd rfl rfl (by rfl)
  exact ⟨⟨⟨true, []⟩, ""⟩, exhaustMid, exhaustEnd, hosts, rfl, rfl, by rfl, hh, hne⟩

/-- C10: after `mainBody` (lines 64-499) succeeds with the marker present,
a failure of the final marker deletion is returned as `(true, err)` — and
this is the only error path returning `true`: every `mainBody` failure is
returned as `(false, err)`. -/
theorem C10_marker_delete_error (hup : Bool) (ns : String) (env : Env) (s : St) :
    (∀ e s₁, mainBody hup ns env s = (.error e, s₁) →
      runUpdate hup ns env s = ((false, some e), s₁)) ∧
    (∀ flags s₁ e s₂, mainBody hup ns env s = (.ok flags, s₁) →
      flags.inprogress = true → updateCompleted env s₁ = (.error e, s₂) →
      runUpdate hup ns env s = ((true, some e), s₂)) ∧
    (∀ b e s₂, runUpdate hup ns env s = ((b, some e), s₂) → b = true →
      ∃ flags s₁, mainBody hup ns env s = (.ok flags, s₁) ∧ flags.inprogress = true ∧
        updateCompleted env s₁ = (.error e, s₂)) := by
  refine ⟨?_, ?_, ?_⟩
  · intro e s₁ h
    unfold runUpdate
    rw [h]
  · intro flags s₁ e s₂ h hin hdel
    unfold runUpdate
    rw [h]
    dsimp only
    rw [if_pos hin, hdel]
  · intro b e s₂ h hb
    subst hb
    unfold runUpdate at h
    split at h
    · simp only [Prod.mk.injEq] at h
      exact absurd h.1.1 (by decide)
    · rename_i flags s₁ heq
      split at h
      · rename_i hin
        split at h
        · rename_i e' s₂' hd
          simp only [Prod.mk.injEq] at h
          obtain ⟨⟨_, he⟩, hs⟩ := h
          injection he with he2
          subst he2
          subst hs
          exact ⟨flags, s₁, heq, hin, hd⟩
        · simp only [Prod.mk.injEq] at h
          exact absurd h.1.2 (by simp)
      · simp only [Prod.mk.injEq] at h
        exact absurd h.1.2 (by simp)

/-- Witness for C10: on a fully updated site with a stale marker, with a
store failure injected exactly at the final marker deletion, the invocation
returns `(true, err)` even though neither workload nor the metadata was
updated (`markerOnlyFlags` records no update). -/
theorem C10_marker_delete_error_witness :
    runUpdate false "ns" markerFaultEnv (st0 markerOnlyWorld) =
      ((true, some (Err.api (ApiErr.other "boom"))), markerOnlyFinal) :=
  (C10_marker_delete_error false "ns" markerFaultEnv (st0 markerOnlyWorld)).2.1
    markerOnlyFlags markerOnlyMid (Err.api (ApiErr.other "boom")) markerOnlyFinal
    rfl rfl rfl

theorem delSpec_pure : DelSpec (M.pure ()) id id id id id id [] := by
  intro env s r s' hnf h
  have h2 : ((Except.ok (), s) : Except Err Unit × St) = (r, s') := h
  cases h2
  exact ⟨rfl, rfl, rfl, rfl, rfl, rfl, rfl, rfl, rfl, [], (List.append_nil _).symm, by simp⟩

theorem delSpec_seq {x y : M Unit}
    {a1 : List (Nm × SvcData) → List (Nm × SvcData)} {b1 : List (Nm × SvcData) → List (Nm × SvcData)}
    {a2 : List (Nm × String) → List (Nm × String)} {b2 : List (Nm × String) → List (Nm × String)}
    {a3 : List (Nm × SA) → List (Nm × SA)} {b3 : List (Nm × SA) → List (Nm × SA)}
    {a4 : List (Nm × Unit) → List (Nm × Unit)} {b4 : List (Nm × Unit) → List (Nm × Unit)}
    {a5 : List (Nm × Unit) → List (Nm × Unit)} {b5 : List (Nm × Unit) → List (Nm × Unit)}
    {a6 : List (Nm × Route) → List (Nm × Route)} {b6 : List (Nm × Route) → List (Nm × Route)}
    {A B : List Ev}
    (hx : DelSpec x a1 a2 a3 a4 a5 a6 A) (hy : DelSpec y b1 b2 b3 b4 b5 b6 B) :
    DelSpec (x >>= fun _ => y) (fun l => b1 (a1 l)) (fun l => b2 (a2 l))
      (fun l => b3 (a3 l)) (fun l => b4 (a4 l)) (fun l => b5 (a5 l))
      (fun l => b6 (a6 l)) (A ++ B) := by
  intro env s r s' hnf h
  rcases hx1 : x env s with ⟨rx, s₁⟩
  obtain ⟨hrx, hc, hd, h1, h2, h3, h4, h5, h6, d1, hd1, hm1⟩ := hx env s rx s₁ hnf hx1
  subst hrx
  rw [bind_ok hx1] at h
  obtain ⟨hry, hc2, hd2, h1b, h2b, h3b, h4b, h5b, h6b, d2, htr2, hm2⟩ := hy env s₁ r s' hnf h
  refine ⟨hry, hc2.trans hc, hd2.trans hd, ?_, ?_, ?_, ?_, ?_, ?_, d1 ++ d2, ?_, ?_⟩
  · rw [h1b, h1]
  · rw [h2b, h2]
  · rw [h3b, h3]
  · rw [h4b, h4]
  · rw [h5b, h5]
  · rw [h6b, h6]
  · rw [htr2, hd1, List.append_assoc]
  · intro e he
    rcases List.mem_append.mp he with hm | hm
    · exact List.mem_append.mpr (Or.inl (hm1 e hm))
    · exact List.mem_append.mpr (Or.inr (hm2 e hm))

theorem delSpec_ite (c : Prop) [Decidable c] {x y : M Unit}
    {f1 : List (Nm × SvcData) → List (Nm × SvcData)}
    {f2 : List (Nm × String) → List (Nm × String)}
    {f3 : List (Nm × SA) → List (Nm × SA)}
    {f4 : List (Nm × Unit) → List (Nm × Unit)}
    {f5 : List (Nm × Unit) → List (Nm × Unit)}
    {f6 : List (Nm × Route) → List (Nm × Route)}
    {A B : List Ev}
    (hx : DelSpec x f1 f2 f3 f4 f5 f6 A) (hy : DelSpec y f1 f2 f3 f4 f5 f6 B) :
    DelSpec (if c then x else y) f1 f2 f3 f4 f5 f6 (A ++ B) := by
  intro env s r s' hnf h
  by_cases hc : c
  · rw [if_pos hc] at h
    obtain ⟨hr, hcm, hdp, h1, h2, h3, h4, h5, h6, d, hd, hm⟩ := hx env s r s' hnf h
    exact ⟨hr, hcm, hdp, h1, h2, h3, h4, h5, h6, d, hd,
      fun e he => List.mem_append.mpr (Or.inl (hm e he))⟩
  · rw [if_neg hc] at h
    obtain ⟨hr, hcm, hdp, h1, h2, h3, h4, h5, h6, d, hd, hm⟩ := hy env s r s' hnf h
    exact ⟨hr, hcm, hdp, h1, h2, h3, h4, h5, h6, d, hd,
      fun e he => List.mem_append.mpr (Or.inr (hm e he))⟩

theorem delSpec_askEnv_bind {k : Env → M Unit}
    {f1 : List (Nm × SvcData) → List (Nm × SvcData)}
    {f2 : List (Nm × String) → List (Nm × String)}
    {f3 : List (Nm × SA) → List (Nm × SA)}
    {f4 : List (Nm × Unit) → List (Nm × Unit)}
    {f5 : List (Nm × Unit) → List (Nm × Unit)}
    {f6 : List (Nm × Route) → List (Nm × Route)}
    {A : List Ev}
    (hk : ∀ env0, DelSpec (k env0) f1 f2 f3 f4 f5 f6 A) :
    DelSpec (askEnv >>= k) f1 f2 f3 f4 f5 f6 A := by
  intro env s r s' hnf h
  rw [bind_ok (show askEnv env s = (Except.ok env, s) from rfl)] at h
  exact hk env env s r s' hnf h

theorem delSpec_service (n : Nm) :
    DelSpec (swallowNotFound (deleteService n) >>= fun _ => M.pure ())
      (adel n) id id id id id [Ev.delete Kind.service n] := by
  intro env s r s' hnf h
  rcases s with ⟨⟨cms, svcs, secs, sas, rls, rbs, rts, deps⟩, tr, calls, clock⟩
  have hf := hnf calls
  rcases hl : alook n svcs with _ | v
  · have hd : swallowNotFound (deleteService n) env
        ⟨⟨cms, svcs, secs, sas, rls, rbs, rts, deps⟩, tr, calls, clock⟩ =
        (Except.ok none, ⟨⟨cms, svcs, secs, sas, rls, rbs, rts, deps⟩, tr, calls + 1, clock⟩) := by
      unfold swallowNotFound deleteService
      try dsimp only
      rw [hf, hl]
      all_goals rfl
    rw [bind_ok hd] at h
    have h2 : ((Except.ok (), (⟨⟨cms, svcs, secs, sas, rls, rbs, rts, deps⟩, tr, calls + 1,
        clock⟩ : St)) : Except Err Unit × St) = (r, s') := h
    cases h2
    exact ⟨rfl, rfl, rfl, (adel_of_alook_none hl).symm, rfl, rfl, rfl, rfl, rfl, [],
      (List.append_nil _).symm, by simp⟩
  · have hd : swallowNotFound (deleteService n) env
        ⟨⟨cms, svcs, secs, sas, rls, rbs, rts, deps⟩, tr, calls, clock⟩ =
        (Except.ok (some ()), ⟨⟨cms, adel n svcs, secs, sas, rls, rbs, rts, deps⟩,
          tr ++ [Ev.delete Kind.service n], calls + 1, clock⟩) := by
      unfold swallowNotFound deleteService
      try dsimp only
      rw [hf, hl]
      all_goals rfl
    rw [bind_ok hd] at h
    have h2 : ((Except.ok (), (⟨⟨cms, adel n svcs, secs, sas, rls, rbs, rts, deps⟩,
        tr ++ [Ev.delete Kind.service n], calls + 1, clock⟩ : St)) : Except Err Unit × St) =
        (r, s') := h
    cases h2
    exact ⟨rfl, rfl, rfl, rfl, rfl, rfl, rfl, rfl, rfl, [Ev.delete Kind.service n], rfl,
      by simp⟩

theorem delSpec_secret (n : Nm) :
    DelSpec (swallowNotFound (deleteSecret n) >>= fun _ => M.pure ())
      id (adel n) id id id id [Ev.delete Kind.secret n] := by
  intro env s r s' hnf h
  rcases s with ⟨⟨cms, svcs, secs, sas, rls, rbs, rts, deps⟩, tr, calls, clock⟩
  have hf := hnf calls
  rcases hl : alook n secs with _ | v
  · have hd : swallowNotFound (deleteSecret n) env
        ⟨⟨cms, svcs, secs, sas, rls, rbs, rts, deps⟩, tr, calls, clock⟩ =
        (Except.ok none, ⟨⟨cms, svcs, secs, sas, rls, rbs, rts, deps⟩, tr, calls + 1, clock⟩) := by
      unfold swallowNotFound deleteSecret
      try dsimp only
      rw [hf, hl]
      all_goals rfl
    rw [bind_ok hd] at h
    have h2 : ((Except.ok (), (⟨⟨cms, svcs, secs, sas, rls, rbs, rts, deps⟩, tr, calls + 1,
        clock⟩ : St)) : Except Err Unit × St) = (r, s') := h
    cases h2
    exact ⟨rfl, rfl, rfl, rfl, (adel_of_alook_none hl).symm, rfl, rfl, rfl, rfl, [],
      (List.append_nil _).symm, by simp⟩
  · have hd : swallowNotFound (deleteSecret n) env
        ⟨⟨cms, svcs, secs, sas, rls, rbs, rts, deps⟩, tr, calls, clock⟩ =
        (Except.ok (some ()), ⟨⟨cms, svcs, adel n secs, sas, rls, rbs, rts, deps⟩,
          tr ++ [Ev.delete Kind.secret n], calls + 1, clock⟩) := by
      unfold swallowNotFound deleteSecret
      try dsimp only
      rw [hf, hl]
      all_goals rfl
    rw [bind_ok hd] at h
    have h2 : ((Except.ok (), (⟨⟨cms, svcs, adel n secs, sas, rls, rbs, rts, deps⟩,
        tr ++ [Ev.delete Kind.secret n], calls + 1, clock⟩ : St)) : Except Err Unit × St) =
        (r, s') := h
    cases h2
    exact ⟨rfl, rfl, rfl, rfl, rfl, rfl, rfl, rfl, rfl, [Ev.delete Kind.secret n], rfl,
      by simp⟩

theorem delSpec_sa (n : Nm) :
    DelSpec (swallowNotFound (deleteSA n) >>= fun _ => M.pure ())
      id id (adel n) id id id [Ev.delete Kind.serviceAccount n] := by
  intro env s r s' hnf h
  rcases s with ⟨⟨cms, svcs, secs, sas, rls, rbs, rts, deps⟩, tr, calls, clock⟩
  have hf := hnf calls
  rcases hl : alook n sas with _ | v
  · have hd : swallowNotFound (deleteSA n) env
        ⟨⟨cms, svcs, secs, sas, rls, rbs, rts, deps⟩, tr, calls, clock⟩ =
        (Except.ok none, ⟨⟨cms, svcs, secs, sas, rls, rbs, rts, deps⟩, tr, calls + 1, clock⟩) := by
      unfold swallowNotFound deleteSA
      try dsimp only
      rw [hf, hl]
      all_goals rfl
    rw [bind_ok hd] at h
    have h2 : ((Except.ok (), (⟨⟨cms, svcs, secs, sas, rls, rbs, rts, deps⟩, tr, calls + 1,
        clock⟩ : St)) : Except Err Unit × St) = (r, s') := h
    cases h2
    exact ⟨rfl, rfl, rfl, rfl, rfl, (adel_of_alook_none hl).symm, rfl, rfl, rfl, [],
      (List.append_nil _).symm, by simp⟩
  · have hd : swallowNotFound (deleteSA n) env
        ⟨⟨cms, svcs, secs, sas, rls, rbs, rts, deps⟩, tr, calls, clock⟩ =
        (Except.ok (some ()), ⟨⟨cms, svcs, secs, adel n sas, rls, rbs, rts, deps⟩,
          tr ++ [Ev.delete Kind.serviceAccount n], calls + 1, clock⟩) := by
      unfold swallowNotFound deleteSA
      try dsimp only
      rw [hf, hl]
      all_goals rfl
    rw [bind_ok hd] at h
    have h2 : ((Except.ok (), (⟨⟨cms, svcs, secs, adel n sas, rls, rbs, rts, deps⟩,
        tr ++ [Ev.delete Kind.serviceAccount n], calls + 1, clock⟩ : St)) : Except Err Unit × St) =
        (r, s') := h
    cases h2
    exact ⟨rfl, rfl, rfl, rfl, rfl, rfl, rfl, rfl, rfl, [Ev.delete Kind.serviceAccount n],
      rfl, by simp⟩

theorem delSpec_role (n : Nm) :
    DelSpec (swallowNotFound (deleteRole n) >>= fun _ => M.pure ())
      id id id (adel n) id id [Ev.delete Kind.role n] := by
  intro env s r s' hnf h
  rcases s with ⟨⟨cms, svcs, secs, sas, rls, rbs, rts, deps⟩, tr, calls, clock⟩
  have hf := hnf calls
  rcases hl : alook n rls with _ | v
  · have hd : swallowNotFound (deleteRole n) env
        ⟨⟨cms, svcs, secs, sas, rls, rbs, rts, deps⟩, tr, calls, clock⟩ =
        (Except.ok none, ⟨⟨cms, svcs, secs, sas, rls, rbs, rts, deps⟩, tr, calls + 1, clock⟩) := by
      unfold swallowNotFound deleteRole
      try dsimp only
      rw [hf, hl]
      all_goals rfl
    rw [bind_ok hd] at h
    have h2 : ((Except.ok (), (⟨⟨cms, svcs, secs, sas, rls, rbs, rts, deps⟩, tr, calls + 1,
        clock⟩ : St)) : Except Err Unit × St) = (r, s') := h
    cases h2
    exact ⟨rfl, rfl, rfl, rfl, rfl, rfl, (adel_of_alook_none hl).symm, rfl, rfl, [],
      (List.append_nil _).symm, by simp⟩
  · have hd : swallowNotFound (deleteRole n) env
        ⟨⟨cms, svcs, secs, sas, rls, rbs, rts, deps⟩, tr, calls, clock⟩ =
        (Except.ok (some ()), ⟨⟨cms, svcs, secs, sas, adel n rls, rbs, rts, deps⟩,
          tr ++ [Ev.delete Kind.role n], calls + 1, clock⟩) := by
      unfold swallowNotFound deleteRole
      try dsimp only
      rw [hf, hl]
      all_goals rfl
    rw [bind_ok hd] at h
    have h2 : ((Except.ok (), (⟨⟨cms, svcs, secs, sas, adel n rls, rbs, rts, deps⟩,
        tr ++ [Ev.delete Kind.role n], calls + 1, clock⟩ : St)) : Except Err Unit × St) =
        (r, s') := h
    cases h2
    exact ⟨rfl, rfl, rfl, rfl, rfl, rfl, rfl, rfl, rfl, [Ev.delete Kind.role n], rfl,
      by simp⟩

theorem delSpec_roleBinding (n : Nm) :
    DelSpec (swallowNotFound (deleteRoleBinding n) >>= fun _ => M.pure ())
      id id id id (adel n) id [Ev.delete Kind.roleBinding n] := by
  intro env s r s' hnf h
  rcases s with ⟨⟨cms, svcs, secs, sas, rls, rbs, rts, deps⟩, tr, calls, clock⟩
  have hf := hnf calls
  rcases hl : alook n rbs with _ | v
  · have hd : swallowNotFound (deleteRoleBinding n) env
        ⟨⟨cms, svcs, secs, sas, rls, rbs, rts, deps⟩, tr, calls, clock⟩ =
        (Except.ok none, ⟨⟨cms, svcs, secs, sas, rls, rbs, rts, deps⟩, tr, calls + 1, clock⟩) := by
      unfold swallowNotFound deleteRoleBinding
      try dsimp only
      rw [hf, hl]
      all_goals rfl
    rw [bind_ok hd] at h
    have h2 : ((Except.ok (), (⟨⟨cms, svcs, secs, sas, rls, rbs, rts, deps⟩, tr, calls + 1,
        clock⟩ : St)) : Except Err Unit × St) = (r, s') := h
    cases h2
    exact ⟨rfl, rfl, rfl, rfl, rfl, rfl, rfl, (adel_of_alook_none hl).symm, rfl, [],
      (List.append_nil _).symm, by simp⟩
  · have hd : swallowNotFound (deleteRoleBinding n) env
        ⟨⟨cms, svcs, secs, sas, rls, rbs, rts, deps⟩, tr, calls, clock⟩ =
        (Except.ok (some ()), ⟨⟨cms, svcs, secs, sas, rls, adel n rbs, rts, deps⟩,
          tr ++ [Ev.delete Kind.roleBinding n], calls + 1, clock⟩) := by
      unfold swallowNotFound deleteRoleBinding
      try dsimp only
      rw [hf, hl]
      all_goals rfl
    rw [bind_ok hd] at h
    have h2 : ((Except.ok (), (⟨⟨cms, svcs, secs, sas, rls, adel n rbs, rts, deps⟩,
        tr ++ [Ev.delete Kind.roleBinding n], calls + 1, clock⟩ : St)) : Except Err Unit × St) =
        (r, s') := h
    cases h2
    exact ⟨rfl, rfl, rfl, rfl, rfl, rfl, rfl, rfl, rfl, [Ev.delete Kind.roleBinding n],
      rfl, by simp⟩

theorem delSpec_route (n : Nm) :
    DelSpec (swallowNotFound (deleteRoute n) >>= fun _ => M.pure ())
      id id id id id (adel n) [Ev.delete Kind.route n] := by
  intro env s r s' hnf h
  rcases s with ⟨⟨cms, svcs, secs, sas, rls, rbs, rts, deps⟩, tr, calls, clock⟩
  have hf := hnf calls
  rcases hl : alook n rts with _ | v
  · have hd : swallowNotFound (deleteRoute n) env
        ⟨⟨cms, svcs, secs, sas, rls, rbs, rts, deps⟩, tr, calls, clock⟩ =
        (Except.ok none, ⟨⟨cms, svcs, secs, sas, rls, rbs, rts, deps⟩, tr, calls + 1, clock⟩) := by
      unfold swallowNotFound deleteRoute
      try dsimp only
      rw [hf, hl]
      all_goals rfl
    rw [bind_ok hd] at h
    have h2 : ((Except.ok (), (⟨⟨cms, svcs, secs, sas, rls, rbs, rts, deps⟩, tr, calls + 1,
        clock⟩ : St)) : Except Err Unit × St) = (r, s') := h
    cases h2
    exact ⟨rfl, rfl, rfl, rfl, rfl, rfl, rfl, rfl, (adel_of_alook_none hl).symm, [],
      (List.append_nil _).symm, by simp⟩
  · have hd : swallowNotFound (deleteRoute n) env
        ⟨⟨cms, svcs, secs, sas, rls, rbs, rts, deps⟩, tr, calls, clock⟩ =
        (Except.ok (some ()), ⟨⟨cms, svcs, secs, sas, rls, rbs, adel n rts, deps⟩,
          tr ++ [Ev.delete Kind.route n], calls + 1, clock⟩) := by
      unfold swallowNotFound deleteRoute
      try dsimp only
      rw [hf, hl]
      all_goals rfl
    rw [bind_ok hd] at h
    have h2 : ((Except.ok (), (⟨⟨cms, svcs, secs, sas, rls, rbs, adel n rts, deps⟩,
        tr ++ [Ev.delete Kind.route n], calls + 1, clock⟩ : St)) : Except Err Unit × St) =
        (r, s') := h
    cases h2
    exact ⟨rfl, rfl, rfl, rfl, rfl, rfl, rfl, rfl, rfl, [Ev.delete Kind.route n], rfl,
      by simp⟩

/-- C1 (amended): under a fault-free store, cleanup deletes every
legacy-named object, tolerating not-found — including the legacy
`skupper-controller` route when a route client is available — except that
the legacy transport network-exposure service `skupper-internal` is deleted
exactly when the site uses routed objects, and retained (never deleted)
otherwise. -/
theorem C1_cleanup_retention (ur : Bool) (env : Env) (s : St) (r : Except Err Unit) (s' : St)
    (hnf : NoFaults env) (h : cleanupPhase ur env s = (r, s')) :
    r = Except.ok () ∧
    alook Nm.messaging s'.w.services = none ∧
    alook Nm.controller s'.w.services = none ∧
    alook Nm.skupper s'.w.secrets = none ∧
    alook Nm.amqps s'.w.secrets = none ∧
    alook Nm.ca s'.w.secrets = none ∧
    alook Nm.internal s'.w.secrets = none ∧
    alook Nm.internalCa s'.w.secrets = none ∧
    alook Nm.skupper s'.w.serviceAccounts = none ∧
    alook Nm.proxyController s'.w.serviceAccounts = none ∧
    alook Nm.edit s'.w.roles = none ∧
    alook Nm.view s'.w.roles = none ∧
    alook Nm.proxyControllerSkupperEdit s'.w.roleBindings = none ∧
    alook Nm.skupperSkupperView s'.w.roleBindings = none ∧
    (env.hasRouteClient = true → alook Nm.controller s'.w.routes = none) ∧
    (ur = true → alook Nm.internal s'.w.services = none) ∧
    (ur = false → alook Nm.internal s'.w.services = alook Nm.internal s.w.services ∧
      ∃ d, s'.tr = s.tr ++ d ∧ Ev.delete Kind.service Nm.internal ∉ d) := by
  cases ur
  · have hrest := delSpec_seq
      (delSpec_seq (delSpec_service Nm.messaging)
        (delSpec_seq (delSpec_service Nm.controller) delSpec_pure))
      (delSpec_seq
        (delSpec_seq (delSpec_secret Nm.skupper)
          (delSpec_seq (delSpec_secret Nm.amqps)
            (delSpec_seq (delSpec_secret Nm.ca)
              (delSpec_seq (delSpec_secret Nm.internal)
                (delSpec_seq (delSpec_secret Nm.internalCa) delSpec_pure)))))
        (delSpec_seq
          (delSpec_seq (delSpec_roleBinding Nm.proxyControllerSkupperEdit)
            (delSpec_seq (delSpec_roleBinding Nm.skupperSkupperView) delSpec_pure))
          (delSpec_seq
            (delSpec_seq (delSpec_sa Nm.skupper)
              (delSpec_seq (delSpec_sa Nm.proxyController) delSpec_pure))
            (delSpec_seq (delSpec_role Nm.edit)
              (delSpec_seq (delSpec_role Nm.view) delSpec_pure)))))
    unfold cleanupPhase at h
    rw [bind_ok (show askEnv env s = (Except.ok env, s) from rfl)] at h
    try dsimp only at h
    rcases hrc : env.hasRouteClient with _ | _
    · rw [hrc] at h
      rw [if_neg (show ¬(false = true) from fun hc => Bool.noConfusion hc)] at h
      obtain ⟨hr, hcm, hdp, hsv, hse, hsa2, hrl, hrb, hrt, d, htr, hmem⟩ :=
        delSpec_seq delSpec_pure hrest env s r s' hnf h
      simp only [id_eq] at hsv hse hsa2 hrl hrb hrt
      refine ⟨hr, ?_, ?_, ?_, ?_, ?_, ?_, ?_, ?_, ?_, ?_, ?_, ?_, ?_,
        fun hc => Bool.noConfusion hc,
        fun hc => Bool.noConfusion hc, fun _ => ⟨?_, d, htr, fun hm2 => ?_⟩⟩
      · rw [hsv, alook_adel_ne (by decide : ¬Nm.messaging = Nm.controller)]
        exact alook_adel_self _ _
      · rw [hsv]
        exact alook_adel_self _ _
      · rw [hse, alook_adel_ne (by decide : ¬Nm.skupper = Nm.internalCa),
          alook_adel_ne (by decide : ¬Nm.skupper = Nm.internal),
          alook_adel_ne (by decide : ¬Nm.skupper = Nm.ca),
          alook_adel_ne (by decide : ¬Nm.skupper = Nm.amqps)]
        exact alook_adel_self _ _
      · rw [hse, alook_adel_ne (by decide : ¬Nm.amqps = Nm.internalCa),
          alook_adel_ne (by decide : ¬Nm.amqps = Nm.internal),
          alook_adel_ne (by decide : ¬Nm.amqps = Nm.ca)]
        exact alook_adel_self _ _
      · rw [hse, alook_adel_ne (by decide : ¬Nm.ca = Nm.internalCa),
          alook_adel_ne (by decide : ¬Nm.ca = Nm.internal)]
        exact alook_adel_self _ _
      · rw [hse, alook_adel_ne (by decide : ¬Nm.internal = Nm.internalCa)]
        exact alook_adel_self _ _
      · rw [hse]
        exact alook_adel_self _ _
      · rw [hsa2, alook_adel_ne (by decide : ¬Nm.skupper = Nm.proxyController)]
        exact alook_adel_self _ _
      · rw [hsa2]
        exact alook_adel_self _ _
      · rw [hrl, alook_adel_ne (by decide : ¬Nm.edit = Nm.view)]
        exact alook_adel_self _ _
      · rw [hrl]
        exact alook_adel_self _ _
      · rw [hrb, alook_adel_ne (by decide : ¬Nm.proxyControllerSkupperEdit = Nm.skupperSkupperView)]
        exact alook_adel_self _ _
      · rw [hrb]
        exact alook_adel_self _ _
      · rw [hsv, alook_adel_ne (by decide : ¬Nm.internal = Nm.controller),
          alook_adel_ne (by decide : ¬Nm.internal = Nm.messaging)]
      · exact absurd (hmem _ hm2) (by decide)
    · rw [hrc] at h
      rw [if_pos rfl] at h
      obtain ⟨hr, hcm, hdp, hsv, hse, hsa2, hrl, hrb, hrt, d, htr, hmem⟩ :=
        delSpec_seq (delSpec_route Nm.controller) hrest env s r s' hnf h
      simp only [id_eq] at hsv hse hsa2 hrl hrb hrt
      refine ⟨hr, ?_, ?_, ?_, ?_, ?_, ?_, ?_, ?_, ?_, ?_, ?_, ?_, ?_,
        fun _ => by rw [hrt]; exact alook_adel_self _ _,
        fun hc => Bool.noConfusion hc, fun _ => ⟨?_, d, htr, fun hm2 => ?_⟩⟩
      · rw [hsv, alook_adel_ne (by decide : ¬Nm.messaging = Nm.controller)]
        exact alook_adel_self _ _
      · rw [hsv]
        exact alook_adel_self _ _
      · rw [hse, alook_adel_ne (by decide : ¬Nm.skupper = Nm.internalCa),
          alook_adel_ne (by decide : ¬Nm.skupper = Nm.internal),
          alook_adel_ne (by decide : ¬Nm.skupper = Nm.ca),
          alook_adel_ne (by decide : ¬Nm.skupper = Nm.amqps)]
        exact alook_adel_self _ _
      · rw [hse, alook_adel_ne (by decide : ¬Nm.amqps = Nm.internalCa),
          alook_adel_ne (by decide : ¬Nm.amqps = Nm.internal),
          alook_adel_ne (by decide : ¬Nm.amqps = Nm.ca)]
        exact alook_adel_self _ _
      · rw [hse, alook_adel_ne (by decide : ¬Nm.ca = Nm.internalCa),
          alook_adel_ne (by decide : ¬Nm.ca = Nm.internal)]
        exact alook_adel_self _ _
      · rw [hse, alook_adel_ne (by decide : ¬Nm.internal = Nm.internalCa)]
        exact alook_adel_self _ _
      · rw [hse]
        exact alook_adel_self _ _
      · rw [hsa2, alook_adel_ne (by decide : ¬Nm.skupper = Nm.proxyController)]
        exact alook_adel_self _ _
      · rw [hsa2]
        exact alook_adel_self _ _
      · rw [hrl, alook_adel_ne (by decide : ¬Nm.edit = Nm.view)]
        exact alook_adel_self _ _
      · rw [hrl]
        exact alook_adel_self _ _
      · rw [hrb, alook_adel_ne (by decide : ¬Nm.proxyControllerSkupperEdit = Nm.skupperSkupperView)]
        exact alook_adel_self _ _
      · rw [hrb]
        exact alook_adel_self _ _
      · rw [hsv, alook_adel_ne (by decide : ¬Nm.internal = Nm.controller),
          alook_adel_ne (by decide : ¬Nm.internal = Nm.messaging)]
      · exact absurd (hmem _ hm2) (by decide)
  · have hrest := delSpec_seq
      (delSpec_seq (delSpec_service Nm.messaging)
        (delSpec_seq (delSpec_service Nm.controller)
          (delSpec_seq (delSpec_service Nm.internal) delSpec_pure)))
      (delSpec_seq
        (delSpec_seq (delSpec_secret Nm.skupper)
          (delSpec_seq (delSpec_secret Nm.amqps)
            (delSpec_seq (delSpec_secret Nm.ca)
              (delSpec_seq (delSpec_secret Nm.internal)
                (delSpec_seq (delSpec_secret Nm.internalCa) delSpec_pure)))))
        (delSpec_seq
          (delSpec_seq (delSpec_roleBinding Nm.proxyControllerSkupperEdit)
            (delSpec_seq (delSpec_roleBinding Nm.skupperSkupperView) delSpec_pure))
          (delSpec_seq
            (delSpec_seq (delSpec_sa Nm.skupper)
              (delSpec_seq (delSpec_sa Nm.proxyController) delSpec_pure))
            (delSpec_seq (delSpec_role Nm.edit)
              (delSpec_seq (delSpec_role Nm.view) delSpec_pure)))))
    unfold cleanupPhase at h
    rw [bind_ok (show askEnv env s = (Except.ok env, s) from rfl)] at h
    try dsimp only at h
    rcases hrc : env.hasRouteClient with _ | _
    · rw [hrc] at h
      rw [if_neg (show ¬(false = true) from fun hc => Bool.noConfusion hc)] at h
      obtain ⟨hr, hcm, hdp, hsv, hse, hsa2, hrl, hrb, hrt, d, htr, hmem⟩ :=
        delSpec_seq delSpec_pure hrest env s r s' hnf h
      simp only [id_eq] at hsv hse hsa2 hrl hrb hrt
      refine ⟨hr, ?_, ?_, ?_, ?_, ?_, ?_, ?_, ?_, ?_, ?_, ?_, ?_, ?_,
        fun hc => Bool.noConfusion hc,
        fun _ => ?_, fun hc => Bool.noConfusion hc⟩
      · rw [hsv, alook_adel_ne (by decide : ¬Nm.messaging = Nm.internal),
          alook_adel_ne (by decide : ¬Nm.messaging = Nm.controller)]
        exact alook_adel_self _ _
      · rw [hsv, alook_adel_ne (by decide : ¬Nm.controller = Nm.internal)]
        exact alook_adel_self _ _
      · rw [hse, alook_adel_ne (by decide : ¬Nm.skupper = Nm.internalCa),
          alook_adel_ne (by decide : ¬Nm.skupper = Nm.internal),
          alook_adel_ne (by decide : ¬Nm.skupper = Nm.ca),
          alook_adel_ne (by decide : ¬Nm.skupper = Nm.amqps)]
        exact alook_adel_self _ _
      · rw [hse, alook_adel_ne (by decide : ¬Nm.amqps = Nm.internalCa),
          alook_adel_ne (by decide : ¬Nm.amqps = Nm.internal),
          alook_adel_ne (by decide : ¬Nm.amqps = Nm.ca)]
        exact alook_adel_self _ _
      · rw [hse, alook_adel_ne (by decide : ¬Nm.ca = Nm.internalCa),
          alook_adel_ne (by decide : ¬Nm.ca = Nm.internal)]
        exact alook_adel_self _ _
      · rw [hse, alook_adel_ne (by decide : ¬Nm.internal = Nm.internalCa)]
        exact alook_adel_self _ _
      · rw [hse]
        exact alook_adel_self _ _
      · rw [hsa2, alook_adel_ne (by decide : ¬Nm.skupper = Nm.proxyController)]
        exact alook_adel_self _ _
      · rw [hsa2]
        exact alook_adel_self _ _
      · rw [hrl, alook_adel_ne (by decide : ¬Nm.edit = Nm.view)]
        exact alook_adel_self _ _
      · rw [hrl]
        exact alook_adel_self _ _
      · rw [hrb, alook_adel_ne (by decide : ¬Nm.proxyControllerSkupperEdit = Nm.skupperSkupperView)]
        exact alook_adel_self _ _
      · rw [hrb]
        exact alook_adel_self _ _
      · rw [hsv]
        exact alook_adel_self _ _
    · rw [hrc] at h
      rw [if_pos rfl] at h
      obtain ⟨hr, hcm, hdp, hsv, hse, hsa2, hrl, hrb, hrt, d, htr, hmem⟩ :=
        delSpec_seq (delSpec_route Nm.controller) hrest env s r s' hnf h
      simp only [id_eq] at hsv hse hsa2 hrl hrb hrt
      refine ⟨hr, ?_, ?_, ?_, ?_, ?_, ?_, ?_, ?_, ?_, ?_, ?_, ?_, ?_,
        fun _ => by rw [hrt]; exact alook_adel_self _ _,
        fun _ => ?_, fun hc => Bool.noConfusion hc⟩
      · rw [hsv, alook_adel_ne (by decide : ¬Nm.messaging = Nm.internal),
          alook_adel_ne (by decide : ¬Nm.messaging = Nm.controller)]
        exact alook_adel_self _ _
      · rw [hsv, alook_adel_ne (by decide : ¬Nm.controller = Nm.internal)]
        exact alook_adel_self _ _
      · rw [hse, alook_adel_ne (by decide : ¬Nm.skupper = Nm.internalCa),
          alook_adel_ne (by decide : ¬Nm.skupper = Nm.internal),
          alook_adel_ne (by decide : ¬Nm.skupper = Nm.ca),
          alook_adel_ne (by decide : ¬Nm.skupper = Nm.amqps)]
        exact alook_adel_self _ _
      · rw [hse, alook_adel_ne (by decide : ¬Nm.amqps = Nm.internalCa),
          alook_adel_ne (by decide : ¬Nm.amqps = Nm.internal),
          alook_adel_ne (by decide : ¬Nm.amqps = Nm.ca)]
        exact alook_adel_self _ _
      · rw [hse, alook_adel_ne (by decide : ¬Nm.ca = Nm.internalCa),
          alook_adel_ne (by decide : ¬Nm.ca = Nm.internal)]
        exact alook_adel_self _ _
      · rw [hse, alook_adel_ne (by decide : ¬Nm.internal = Nm.internalCa)]
        exact alook_adel_self _ _
      · rw [hse]
        exact alook_adel_self _ _
      · rw [hsa2, alook_adel_ne (by decide : ¬Nm.skupper = Nm.proxyController)]
        exact alook_adel_self _ _
      · rw [hsa2]
        exact alook_adel_self _ _
      · rw [hrl, alook_adel_ne (by decide : ¬Nm.edit = Nm.view)]
        exact alook_adel_self _ _
      · rw [hrl]
        exact alook_adel_self _ _
      · rw [hrb, alook_adel_ne (by decide : ¬Nm.proxyControllerSkupperEdit = Nm.skupperSkupperView)]
        exact alook_adel_self _ _
      · rw [hrb]
        exact alook_adel_self _ _
      · rw [hsv]
        exact alook_adel_self _ _

/-- Witness for C1: a fault-free cleanup on the rename fixture with
`usingRoutes = false` retains `skupper-internal` and removes the legacy
controller service; on the routed fixture with a route client the legacy
`skupper-controller` route is gone afterwards. -/
theorem C1_cleanup_retention_witness :
    alook Nm.internal (cleanupPhase false baseEnv (st0 renameWorld)).2.w.services =
      alook Nm.internal (st0 renameWorld).w.services ∧
    alook Nm.controller (cleanupPhase false baseEnv (st0 renameWorld)).2.w.services = none ∧
    alook Nm.controller (cleanupPhase true routesEnv (st0 routesWorld)).2.w.routes = none := by
  obtain ⟨hr, h1, h2, h3, h4, h5, h6, h7, h8, h9, h10, h11, h12, h13, hrt1, htrue1, hfalse1⟩ :=
    C1_cleanup_retention false baseEnv (st0 renameWorld)
      (cleanupPhase false baseEnv (st0 renameWorld)).1
      (cleanupPhase false baseEnv (st0 renameWorld)).2 (fun _ => rfl) rfl
  obtain ⟨hr2, g1, g2, g3, g4, g5, g6, g7, g8, g9, g10, g11, g12, g13, hroute, grest⟩ :=
    C1_cleanup_retention true routesEnv (st0 routesWorld)
      (cleanupPhase true routesEnv (st0 routesWorld)).1
      (cleanupPhase true routesEnv (st0 routesWorld)).2 (fun _ => rfl) rfl
  exact ⟨(hfalse1 rfl).1, h2, hroute rfl⟩

theorem mutSafe_pure {α : Type} (a : α) (A : List Ev) : MutSafe (M.pure a) A := by
  intro env s r s' h
  cases h
  exact ⟨[], (List.append_nil _).symm, by simp⟩

theorem mutSafe_askEnv (A : List Ev) : MutSafe askEnv A := by
  intro env s r s' h
  cases h
  exact ⟨[], (List.append_nil _).symm, by simp⟩

theorem mutSafe_nowM (A : List Ev) : MutSafe nowM A := by
  intro env s r s' h
  cases h
  exact ⟨[], (List.append_nil _).symm, by simp⟩

theorem mutSafe_mthrow {α : Type} (e : Err) (A : List Ev) : MutSafe (mthrow e : M α) A := by
  intro env s r s' h
  cases h
  exact ⟨[], (List.append_nil _).symm, by simp⟩

theorem mutSafe_sleepM (A : List Ev) : MutSafe sleepM A := by
  intro env s r s' h
  rcases s with ⟨w, tr, calls, clock⟩
  cases h
  exact ⟨[Ev.sleep], rfl, fun e he hm => by
    rcases List.mem_singleton.mp he with rfl
    exact Bool.noConfusion hm⟩

theorem mutSafe_printlnM (m : String) (A : List Ev) : MutSafe (printlnM m) A := by
  intro env s r s' h
  rcases s with ⟨w, tr, calls, clock⟩
  cases h
  exact ⟨[Ev.println m], rfl, fun e he hm => by
    rcases List.mem_singleton.mp he with rfl
    exact Bool.noConfusion hm⟩

theorem mutSafe_bind {α β : Type} {x : M α} {f : α → M β} {A : List Ev}
    (hx : MutSafe x A) (hf : ∀ a, MutSafe (f a) A) : MutSafe (x >>= f) A := by
  intro env s r s' h
  have h' : M.bind x f env s = (r, s') := h
  unfold M.bind at h'
  rcases hx1 : x env s with ⟨rx, s₁⟩
  rw [hx1] at h'
  rcases rx with e | a
  · cases h'
    exact hx env s _ _ hx1
  · obtain ⟨d1, hd1, hm1⟩ := hx env s _ _ hx1
    obtain ⟨d2, hd2, hm2⟩ := hf a env s₁ r s' h'
    refine ⟨d1 ++ d2, by rw [hd2, hd1, List.append_assoc], fun e he hm => ?_⟩
    rcases List.mem_append.mp he with hmm | hmm
    exacts [hm1 e hmm hm, hm2 e hmm hm]

theorem mutSafe_ite {α : Type} {c : Prop} [Decidable c] {x y : M α} {A : List Ev}
    (hx : MutSafe x A) (hy : MutSafe y A) : MutSafe (if c then x else y) A := by
  intro env s r s' h
  by_cases hc : c
  · rw [if_pos hc] at h
    exact hx env s r s' h
  · rw [if_neg hc] at h
    exact hy env s r s' h

theorem mutSafe_tryM {α : Type} {x : M α} {A : List Ev} (hx : MutSafe x A) :
    MutSafe (tryM x) A := by
  intro env s r s' h
  unfold tryM at h
  rcases hx1 : x env s with ⟨rx, s₁⟩
  rw [hx1] at h
  rcases rx with e | a
  · have h2 : ((Except.ok (Except.error e), s₁) : Except Err (Except Err α) × St) = (r, s') := h
    cases h2
    exact hx env s _ _ hx1
  · have h2 : ((Except.ok (Except.ok a), s₁) : Except Err (Except Err α) × St) = (r, s') := h
    cases h2
    exact hx env s _ _ hx1

theorem mutSafe_getCM (n : Nm) (A : List Ev) : MutSafe (getCM n) A := by
  intro env s r s' h
  rcases s with ⟨w, tr, calls, clock⟩
  unfold getCM at h
  try dsimp only at h
  rcases hf : env.faults calls with _ | e <;> rw [hf] at h
  · rcases hl : alook n w.configmaps with _ | d0 <;> rw [hl] at h <;> cases h <;>
      exact ⟨_, rfl, fun e he hm => by
        rcases List.mem_singleton.mp he with rfl
        exact Bool.noConfusion hm⟩
  · cases h
    exact ⟨_, rfl, fun e he hm => by
      rcases List.mem_singleton.mp he with rfl
      exact Bool.noConfusion hm⟩

theorem mutSafe_getService (n : Nm) (A : List Ev) : MutSafe (getService n) A := by
  intro env s r s' h
  rcases s with ⟨w, tr, calls, clock⟩
  unfold getService at h
  try dsimp only at h
  rcases hf : env.faults calls with _ | e <;> rw [hf] at h
  · rcases hl : alook n w.services with _ | d0 <;> rw [hl] at h <;> cases h <;>
      exact ⟨_, rfl, fun e he hm => by
        rcases List.mem_singleton.mp he with rfl
        exact Bool.noConfusion hm⟩
  · cases h
    exact ⟨_, rfl, fun e he hm => by
      rcases List.mem_singleton.mp he with rfl
      exact Bool.noConfusion hm⟩

theorem mutSafe_getDep (n : Nm) (A : List Ev) : MutSafe (getDep n) A := by
  intro env s r s' h
  rcases s with ⟨w, tr, calls, clock⟩
  unfold getDep at h
  try dsimp only at h
  rcases hf : env.faults calls with _ | e <;> rw [hf] at h
  · rcases hl : alook n w.deployments with _ | d0 <;> rw [hl] at h <;> cases h <;>
      exact ⟨_, rfl, fun e he hm => by
        rcases List.mem_singleton.mp he with rfl
        exact Bool.noConfusion hm⟩
  · cases h
    exact ⟨_, rfl, fun e he hm => by
      rcases List.mem_singleton.mp he with rfl
      exact Bool.noConfusion hm⟩

theorem mutSafe_getRouterConfig (cm : ConfigMap) (A : List Ev) :
    MutSafe (getRouterConfig cm) A := by
  intro env s r s' h
  unfold getRouterConfig at h
  rcases cm with ⟨content, owners⟩
  rcases content with site | v | _ <;>
    · cases h
      exact ⟨[], (List.append_nil _).symm, by simp⟩

theorem mutSafe_isUpdatingM (A : List Ev) : MutSafe isUpdatingM A := by
  intro env s r s' h
  unfold isUpdatingM at h
  rcases hg : getCM markerName env s with ⟨rg, s₁⟩
  rw [hg] at h
  rcases rg with e | cm
  · try dsimp only at h
    by_cases hnf : isNotFound e = true
    · rw [if_pos hnf] at h
      cases h
      exact mutSafe_getCM markerName A env s _ _ hg
    · rw [if_neg hnf] at h
      cases h
      exact mutSafe_getCM markerName A env s _ _ hg
  · rcases cm with ⟨content, owners⟩
    rcases content with site | v | _ <;>
      · try dsimp only at h
        have h2 : ((Except.ok _, s₁) : Except Err (Bool × Ver) × St) = (r, s') := h
        cases h2
        exact mutSafe_getCM markerName A env s _ _ hg

theorem mutSafe_updateCM (n : Nm) (cm : ConfigMap) {A : List Ev}
    (hA : Ev.update Kind.configmap n ∈ A) : MutSafe (updateCM n cm) A := by
  intro env s r s' h
  rcases s with ⟨⟨cms, svcs, secs, sas, rls, rbs, rts, deps⟩, tr, calls, clock⟩
  unfold updateCM at h
  try dsimp only at h
  rcases hf : env.faults calls with _ | e <;> rw [hf] at h
  · rcases hl : alook n cms with _ | d0 <;> rw [hl] at h <;> cases h
    · exact ⟨[], (List.append_nil _).symm, by simp⟩
    · exact ⟨[Ev.update Kind.configmap n], rfl, fun e he hm => by
        rcases List.mem_singleton.mp he with rfl
        exact hA⟩
  · cases h
    exact ⟨[], (List.append_nil _).symm, by simp⟩

theorem mutSafe_createCM (n : Nm) (cm : ConfigMap) {A : List Ev}
    (hA : Ev.create Kind.configmap n ∈ A) : MutSafe (createCM n cm) A := by
  intro env s r s' h
  rcases s with ⟨⟨cms, svcs, secs, sas, rls, rbs, rts, deps⟩, tr, calls, clock⟩
  unfold createCM at h
  try dsimp only at h
  rcases hf : env.faults calls with _ | e <;> rw [hf] at h
  · rcases hl : alook n cms with _ | d0 <;> rw [hl] at h <;> cases h
    · exact ⟨[Ev.create Kind.configmap n], rfl, fun e he hm => by
        rcases List.mem_singleton.mp he with rfl
        exact hA⟩
    · exact ⟨[], (List.append_nil _).symm, by simp⟩
  · cases h
    exact ⟨[], (List.append_nil _).symm, by simp⟩

theorem mutSafe_updateDep (n : Nm) (d : Dep) {A : List Ev}
    (hA : Ev.update Kind.deployment n ∈ A) : MutSafe (updateDep n d) A := by
  intro env s r s' h
  rcases s with ⟨⟨cms, svcs, secs, sas, rls, rbs, rts, deps⟩, tr, calls, clock⟩
  unfold updateDep at h
  try dsimp only at h
  rcases hf : env.faults calls with _ | e <;> rw [hf] at h
  · rcases hl : alook n deps with _ | d0 <;> rw [hl] at h <;> cases h
    · exact ⟨[], (List.append_nil _).symm, by simp⟩
    · exact ⟨[Ev.update Kind.deployment n], rfl, fun e he hm => by
        rcases List.mem_singleton.mp he with rfl
        exact hA⟩
  · cases h
    exact ⟨[], (List.append_nil _).symm, by simp⟩

theorem mutSafe_consoleLoop (A : List Ev) :
    ∀ (fuel : Nat) (slept : Bool), MutSafe (consoleLoop fuel slept) A := by
  intro fuel
  induction fuel with
  | zero =>
    intro slept
    exact mutSafe_pure "" A
  | succ n ih =>
    intro slept
    unfold consoleLoop
    apply mutSafe_bind (mutSafe_ite (mutSafe_sleepM A) (mutSafe_pure () A))
    intro _
    apply mutSafe_bind (mutSafe_tryM (mutSafe_getService ControllerServiceName A))
    intro r
    rcases r with e | svc
    · exact mutSafe_bind (mutSafe_printlnM _ A) (fun _ => mutSafe_pure _ A)
    · exact mutSafe_ite (mutSafe_pure _ A) (ih true)

theorem mutSafe_consolePoll (A : List Ev) : MutSafe consolePoll A := by
  unfold consolePoll
  apply mutSafe_bind (mutSafe_consoleLoop A 120 false)
  intro host
  exact mutSafe_ite (mutSafe_printlnM _ A) (mutSafe_pure () A)

theorem mutSafe_routerPhase (rn us hup rei : Bool) :
    MutSafe (routerPhase rn us hup rei) [routerUpdEv] := by
  unfold routerPhase
  apply mutSafe_bind (mutSafe_askEnv _)
  intro env
  apply mutSafe_bind (mutSafe_getDep TransportDeploymentName _)
  intro router
  try dsimp only
  apply mutSafe_ite
  · apply mutSafe_bind (mutSafe_nowM _)
    intro clock
    apply mutSafe_bind (mutSafe_updateDep TransportDeploymentName _ (by simp [routerUpdEv]))
    intro _
    apply mutSafe_bind (mutSafe_ite (mutSafe_printlnM _ _) (mutSafe_pure () _))
    intro _
    exact mutSafe_pure _ _
  · exact mutSafe_pure _ _

theorem mutSafe_controllerPhase (rn hup clb : Bool) :
    MutSafe (controllerPhase rn hup clb) [ctrlUpdEv] := by
  unfold controllerPhase
  apply mutSafe_bind (mutSafe_askEnv _)
  intro env
  apply mutSafe_bind (mutSafe_getDep ControllerDeploymentName _)
  intro controller
  try dsimp only
  apply mutSafe_ite
  · apply mutSafe_bind (mutSafe_nowM _)
    intro clock
    apply mutSafe_bind (mutSafe_updateDep ControllerDeploymentName _ (by simp [ctrlUpdEv]))
    intro _
    apply mutSafe_bind (mutSafe_ite (mutSafe_consolePoll _) (mutSafe_pure () _))
    intro _
    exact mutSafe_pure _ _
  · exact mutSafe_pure _ _

theorem getCM_run (n : Nm) (env : Env) (w : World) (tr : List Ev) (calls clock : Nat) :
    getCM n env ⟨w, tr, calls, clock⟩ =
      ((match env.faults calls with
        | some e => Except.error (Err.api e)
        | none =>
          match alook n w.configmaps with
          | some cm => Except.ok cm
          | none => Except.error (Err.api ApiErr.notFound)),
       ⟨w, tr ++ [Ev.lookup Kind.configmap n], calls + 1, clock⟩) := by
  unfold getCM
  try dsimp only
  rcases hf : env.faults calls with _ | e
  · rcases hcm : alook n w.configmaps with _ | cm <;> rfl
  · rfl

theorem isUpdatingM_spec {env : Env} {w : World} {tr : List Ev} {calls clock : Nat}
    {riu : Except Err (Bool × Ver)} {s₃ : St}
    (h : isUpdatingM env ⟨w, tr, calls, clock⟩ = (riu, s₃)) :
    s₃ = ⟨w, tr ++ [Ev.lookup Kind.configmap markerName], calls + 1, clock⟩ ∧
    ∀ v, riu = Except.ok (true, v) → (alook markerName w.configmaps).isSome = true := by
  rcases hf : env.faults calls with _ | e
  · rcases hmk : alook markerName w.configmaps with _ | mcm
    · have heq : isUpdatingM env ⟨w, tr, calls, clock⟩ =
          (Except.ok (false, ⟨[], ""⟩),
           ⟨w, tr ++ [Ev.lookup Kind.configmap markerName], calls + 1, clock⟩) := by
        unfold isUpdatingM
        rw [getCM_run, hf, hmk]
        all_goals rfl
      rw [heq] at h
      cases h
      refine ⟨rfl, fun v hv => ?_⟩
      injection hv with hv2
      injection hv2
    · rcases mcm with ⟨mc, mo⟩
      rcases mc with msite | mv | _
      · have heq : isUpdatingM env ⟨w, tr, calls, clock⟩ =
            (Except.ok (true, ⟨[], ""⟩),
             ⟨w, tr ++ [Ev.lookup Kind.configmap markerName], calls + 1, clock⟩) := by
          unfold isUpdatingM
          rw [getCM_run, hf, hmk]
          all_goals rfl
        rw [heq] at h
        cases h
        exact ⟨rfl, fun v hv => rfl⟩
      · have heq : isUpdatingM env ⟨w, tr, calls, clock⟩ =
            (Except.ok (true, mv),
             ⟨w, tr ++ [Ev.lookup Kind.configmap markerName], calls + 1, clock⟩) := by
          unfold isUpdatingM
          rw [getCM_run, hf, hmk]
          all_goals rfl
        rw [heq] at h
        cases h
        exact ⟨rfl, fun v hv => rfl⟩
      · have heq : isUpdatingM env ⟨w, tr, calls, clock⟩ =
            (Except.ok (true, ⟨[], ""⟩),
             ⟨w, tr ++ [Ev.lookup Kind.configmap markerName], calls + 1, clock⟩) := by
          unfold isUpdatingM
          rw [getCM_run, hf, hmk]
          all_goals rfl
        rw [heq] at h
        cases h
        exact ⟨rfl, fun v hv => rfl⟩
  · rcases e with _ | _ | msg
    · have heq : isUpdatingM env ⟨w, tr, calls, clock⟩ =
          (Except.ok (false, ⟨[], ""⟩),
           ⟨w, tr ++ [Ev.lookup Kind.configmap markerName], calls + 1, clock⟩) := by
        unfold isUpdatingM
        rw [getCM_run, hf]
        all_goals rfl
      rw [heq] at h
      cases h
      refine ⟨rfl, fun v hv => ?_⟩
      injection hv with hv2
      injection hv2 with hb hv3
      exact Bool.noConfusion hb
    · have heq : isUpdatingM env ⟨w, tr, calls, clock⟩ =
          (Except.error (Err.api ApiErr.alreadyExists),
           ⟨w, tr ++ [Ev.lookup Kind.configmap markerName], calls + 1, clock⟩) := by
        unfold isUpdatingM
        rw [getCM_run, hf]
        all_goals rfl
      rw [heq] at h
      cases h
      exact ⟨rfl, fun v hv => by cases hv⟩
    · have heq : isUpdatingM env ⟨w, tr, calls, clock⟩ =
          (Except.error (Err.api (ApiErr.other msg)),
           ⟨w, tr ++ [Ev.lookup Kind.configmap markerName], calls + 1, clock⟩) := by
        unfold isUpdatingM
        rw [getCM_run, hf]
        all_goals rfl
      rw [heq] at h
      cases h
      exact ⟨rfl, fun v hv => by cases hv⟩

theorem updateCM_run (n : Nm) (cm : ConfigMap) (env : Env)
    (cms : List (Nm × ConfigMap)) (svcs : List (Nm × SvcData)) (secs : List (Nm × String))
    (sas : List (Nm × SA)) (rls rbs : List (Nm × Unit)) (rts : List (Nm × Route))
    (deps : List (Nm × Dep)) (tr : List Ev) (calls clock : Nat) :
    updateCM n cm env ⟨⟨cms, svcs, secs, sas, rls, rbs, rts, deps⟩, tr, calls, clock⟩ =
      (match env.faults calls with
       | some e => (Except.error (Err.api e),
           ⟨⟨cms, svcs, secs, sas, rls, rbs, rts, deps⟩, tr, calls + 1, clock⟩)
       | none =>
         match alook n cms with
         | none => (Except.error (Err.api ApiErr.notFound),
             ⟨⟨cms, svcs, secs, sas, rls, rbs, rts, deps⟩, tr, calls + 1, clock⟩)
         | some _ => (Except.ok (),
             ⟨⟨aset n cm cms, svcs, secs, sas, rls, rbs, rts, deps⟩,
              tr ++ [Ev.update Kind.configmap n], calls + 1, clock⟩)) := by
  unfold updateCM
  dsimp only

theorem createCM_run (n : Nm) (cm : ConfigMap) (env : Env)
    (cms : List (Nm × ConfigMap)) (svcs : List (Nm × SvcData)) (secs : List (Nm × String))
    (sas : List (Nm × SA)) (rls rbs : List (Nm × Unit)) (rts : List (Nm × Route))
    (deps : List (Nm × Dep)) (tr : List Ev) (calls clock : Nat) :
    createCM n cm env ⟨⟨cms, svcs, secs, sas, rls, rbs, rts, deps⟩, tr, calls, clock⟩ =
      (match env.faults calls with
       | some e => (Except.error (Err.api e),
           ⟨⟨cms, svcs, secs, sas, rls, rbs, rts, deps⟩, tr, calls + 1, clock⟩)
       | none =>
         match alook n cms with
         | some _ => (Except.error (Err.api ApiErr.alreadyExists),
             ⟨⟨cms, svcs, secs, sas, rls, rbs, rts, deps⟩, tr, calls + 1, clock⟩)
         | none => (Except.ok (),
             ⟨⟨(n, cm) :: cms, svcs, secs, sas, rls, rbs, rts, deps⟩,
              tr ++ [Ev.create Kind.configmap n], calls + 1, clock⟩)) := by
  unfold createCM
  dsimp only

theorem markerFirst_append {d₁ d₂ : List Ev} (h : markerFirst d₁ = true)
    (hc : markerCreateEv ∈ d₁) : markerFirst (d₁ ++ d₂) = true := by
  induction d₁ with
  | nil => cases hc
  | cons e rest ih =>
    rw [List.cons_append]
    unfold markerFirst at h ⊢
    by_cases he : e = markerCreateEv
    · rw [if_pos he]
    · rw [if_neg he] at h ⊢
      by_cases hm : e.isMutation = true
      · rw [if_pos hm] at h
        cases h
      · rw [if_neg hm] at h ⊢
        rcases List.mem_cons.mp hc with hce | hcr
        · exact absurd hce.symm he
        · exact ih h hcr

theorem mutsIn_of {allowed : List Ev} {d : List Ev}
    (h : ∀ e ∈ d, Ev.isMutation e = true → allowed.contains e = true) :
    mutsIn allowed d = true := by
  unfold mutsIn
  rw [List.all_eq_true]
  intro e he
  by_cases hm : Ev.isMutation e = true
  · rw [h e he hm]
    simp
  · rw [Bool.not_eq_true] at hm
    rw [hm]
    simp

theorem versionPhase_marker (env : Env) (s : St)
    (r : Except Err (ConfigMap × Bool × Bool × Bool)) (s₁ : St)
    (h : versionPhase env s = (r, s₁)) :
    ∃ d, s₁.tr = s.tr ++ d ∧
      (∀ e ∈ d, Ev.isMutation e = true → e = markerCreateEv ∨ e = cmUpdateEv) ∧
      (markerCreateEv ∈ d → markerFirst d = true) ∧
      (∀ cm0 us rn ip, r = Except.ok (cm0, us, rn, ip) → (rn = true ∨ ip = true) →
        markerIn s.w = true ∨ markerCreateEv ∈ d) := by
  rcases s with ⟨⟨cms, svcs, secs, sas, rls, rbs, rts, deps⟩, tr, calls, clock⟩
  unfold versionPhase at h
  rw [bind_ok (show askEnv env ⟨⟨cms, svcs, secs, sas, rls, rbs, rts, deps⟩, tr, calls, clock⟩ =
    (Except.ok env, ⟨⟨cms, svcs, secs, sas, rls, rbs, rts, deps⟩, tr, calls, clock⟩) from rfl)] at h
  rcases hf0 : env.faults calls with _ | e0
  · rcases hcm : alook TransportConfigMapName cms with _ | cmv
    · have hge : getCM TransportConfigMapName env
          ⟨⟨cms, svcs, secs, sas, rls, rbs, rts, deps⟩, tr, calls, clock⟩ =
          (Except.error (Err.api ApiErr.notFound),
           ⟨⟨cms, svcs, secs, sas, rls, rbs, rts, deps⟩,
            tr ++ [Ev.lookup Kind.configmap TransportConfigMapName], calls + 1, clock⟩) := by
        simp only [getCM_run, hf0, hcm]
      rw [bind_error hge] at h
      cases h
      exact ⟨[Ev.lookup Kind.configmap TransportConfigMapName], rfl, by decide, by decide,
        fun cm0 us rn ip hok => by cases hok⟩
    · have hge : getCM TransportConfigMapName env
          ⟨⟨cms, svcs, secs, sas, rls, rbs, rts, deps⟩, tr, calls, clock⟩ =
          (Except.ok cmv,
           ⟨⟨cms, svcs, secs, sas, rls, rbs, rts, deps⟩,
            tr ++ [Ev.lookup Kind.configmap TransportConfigMapName], calls + 1, clock⟩) := by
        simp only [getCM_run, hf0, hcm]
      rw [bind_ok hge] at h
      try dsimp only at h
      rcases cmv with ⟨cc, owners⟩
      rcases cc with site | mv | _
      · -- router content: proceed
        rw [bind_ok (show getRouterConfig ⟨CMContent.router site, owners⟩ env
            ⟨⟨cms, svcs, secs, sas, rls, rbs, rts, deps⟩,
             tr ++ [Ev.lookup Kind.configmap TransportConfigMapName], calls + 1, clock⟩ =
            (Except.ok site,
             ⟨⟨cms, svcs, secs, sas, rls, rbs, rts, deps⟩,
              tr ++ [Ev.lookup Kind.configmap TransportConfigMapName], calls + 1, clock⟩)
            from rfl)] at h
        try dsimp only at h
        rcases hlt : lessRecentThanVersion env.libVersion site.version with _ | _
        · -- not newer: continue
          rw [hlt] at h
          rw [if_neg (fun hc => Bool.noConfusion hc)] at h
          rcases hiu : isUpdatingM env
              ⟨⟨cms, svcs, secs, sas, rls, rbs, rts, deps⟩,
               tr ++ [Ev.lookup Kind.configmap TransportConfigMapName], calls + 1, clock⟩
            with ⟨riu, s₃⟩
          obtain ⟨hs₃, hipm⟩ := isUpdatingM_spec hiu
          subst hs₃
          rcases riu with eiu | ⟨ip0, v0⟩
          · rw [bind_error hiu] at h
            cases h
            exact ⟨[Ev.lookup Kind.configmap TransportConfigMapName,
                    Ev.lookup Kind.configmap markerName], by simp, by decide, by decide,
              fun cm0 us rn ip hok => by cases hok⟩
          · rw [bind_ok hiu] at h
            try dsimp only at h
            rcases ip0 with _ | _
            · -- not in progress
              try dsimp only at h
              try simp only [Bool.false_and, Bool.not_false, Bool.true_and] at h
              rcases hcond : (moreRecentThanVersion env.libVersion site.version ||
                  (equivalentVersion env.libVersion site.version &&
                   env.libVersion != site.version)) with _ | _
              · rw [hcond] at h
                rw [if_neg (fun hc => Bool.noConfusion hc)] at h
                have h2 : ((Except.ok ((⟨CMContent.router site, owners⟩ : ConfigMap),
                    false, false, false),
                    (⟨⟨cms, svcs, secs, sas, rls, rbs, rts, deps⟩,
                     tr ++ [Ev.lookup Kind.configmap TransportConfigMapName] ++
                       [Ev.lookup Kind.configmap markerName], calls + 1 + 1, clock⟩ : St)) :
                    Except Err (ConfigMap × Bool × Bool × Bool) × St) = (r, s₁) := h
                cases h2
                refine ⟨[Ev.lookup Kind.configmap TransportConfigMapName,
                         Ev.lookup Kind.configmap markerName], by simp, by decide, by decide,
                  fun cm0 us rn ip hok hori => ?_⟩
                cases hok
                rcases hori with hc | hc <;> exact Bool.noConfusion hc
              · rw [hcond] at h
                rw [if_pos rfl] at h
                try dsimp only at h
                rcases hold : lessRecentThanVersion site.version v050 with _ | _
                · -- no marker creation; straight to updateCM
                  rw [hold] at h
                  rw [if_neg (fun hc => Bool.noConfusion hc)] at h
                  rw [bind_ok (show M.pure ((false : Bool), (false : Bool)) env
                      ⟨⟨cms, svcs, secs, sas, rls, rbs, rts, deps⟩,
                       tr ++ [Ev.lookup Kind.configmap TransportConfigMapName] ++
                         [Ev.lookup Kind.configmap markerName], calls + 1 + 1, clock⟩ =
                      (Except.ok ((false : Bool), (false : Bool)),
                       ⟨⟨cms, svcs, secs, sas, rls, rbs, rts, deps⟩,
                        tr ++ [Ev.lookup Kind.configmap TransportConfigMapName] ++
                          [Ev.lookup Kind.configmap markerName], calls + 1 + 1, clock⟩)
                      from rfl)] at h
                  try dsimp only at h
                  rcases hf2 : env.faults (calls + 1 + 1) with _ | e2
                  · have hupd : updateCM TransportConfigMapName
                        ⟨CMContent.router ⟨env.libVersion, site.identity⟩, owners⟩ env
                        ⟨⟨cms, svcs, secs, sas, rls, rbs, rts, deps⟩,
                         tr ++ [Ev.lookup Kind.configmap TransportConfigMapName] ++
                           [Ev.lookup Kind.configmap markerName], calls + 1 + 1, clock⟩ =
                        (Except.ok (),
                         ⟨⟨aset TransportConfigMapName
                             ⟨CMContent.router ⟨env.libVersion, site.identity⟩, owners⟩ cms,
                           svcs, secs, sas, rls, rbs, rts, deps⟩,
                          tr ++ [Ev.lookup Kind.configmap TransportConfigMapName] ++
                            [Ev.lookup Kind.configmap markerName] ++
                            [Ev.update Kind.configmap TransportConfigMapName],
                          calls + 1 + 1 + 1, clock⟩) := by
                      simp only [updateCM_run, hf2, hcm]
                    rw [bind_ok hupd] at h
                    have h2 : ((Except.ok ((⟨CMContent.router site, owners⟩ : ConfigMap),
                        true, false, false),
                        (⟨⟨aset TransportConfigMapName
                             ⟨CMContent.router ⟨env.libVersion, site.identity⟩, owners⟩ cms,
                           svcs, secs, sas, rls, rbs, rts, deps⟩,
                          tr ++ [Ev.lookup Kind.configmap TransportConfigMapName] ++
                            [Ev.lookup Kind.configmap markerName] ++
                            [Ev.update Kind.configmap TransportConfigMapName],
                          calls + 1 + 1 + 1, clock⟩ : St)) :
                        Except Err (ConfigMap × Bool × Bool × Bool) × St) = (r, s₁) := h
                    cases h2
                    refine ⟨[Ev.lookup Kind.configmap TransportConfigMapName,
                             Ev.lookup Kind.configmap markerName,
                             Ev.update Kind.configmap TransportConfigMapName],
                      by simp, by decide, by decide, fun cm0 us rn ip hok hori => ?_⟩
                    cases hok
                    rcases hori with hc | hc <;> exact Bool.noConfusion hc
                  · have hupd : updateCM TransportConfigMapName
                        ⟨CMContent.router ⟨env.libVersion, site.identity⟩, owners⟩ env
                        ⟨⟨cms, svcs, secs, sas, rls, rbs, rts, deps⟩,
                         tr ++ [Ev.lookup Kind.configmap TransportConfigMapName] ++
                           [Ev.lookup Kind.configmap markerName], calls + 1 + 1, clock⟩ =
                        (Except.error (Err.api e2),
                         ⟨⟨cms, svcs, secs, sas, rls, rbs, rts, deps⟩,
                          tr ++ [Ev.lookup Kind.configmap TransportConfigMapName] ++
                            [Ev.lookup Kind.configmap markerName], calls + 1 + 1 + 1, clock⟩) := by
                      simp only [updateCM_run, hf2]
                    rw [bind_error hupd] at h
                    cases h
                    exact ⟨[Ev.lookup Kind.configmap TransportConfigMapName,
                            Ev.lookup Kind.configmap markerName], by simp, by decide, by decide,
                      fun cm0 us rn ip hok => by cases hok⟩
                · -- marker creation path
                  rw [hold] at h
                  rw [if_pos rfl] at h
                  try dsimp only at h
                  rw [show (updateStarted site.version owners : M Unit) =
                    createCM markerName ⟨CMContent.marker site.version, owners⟩ from rfl] at h
                  rcases hf2 : env.faults (calls + 1 + 1) with _ | e2
                  · rcases hmk2 : alook markerName cms with _ | mk0
                    · have hcr : createCM markerName ⟨CMContent.marker site.version, owners⟩ env
                          ⟨⟨cms, svcs, secs, sas, rls, rbs, rts, deps⟩,
                           tr ++ [Ev.lookup Kind.configmap TransportConfigMapName] ++
                             [Ev.lookup Kind.configmap markerName], calls + 1 + 1, clock⟩ =
                          (Except.ok (),
                           ⟨⟨(markerName, ⟨CMContent.marker site.version, owners⟩) :: cms,
                             svcs, secs, sas, rls, rbs, rts, deps⟩,
                            tr ++ [Ev.lookup Kind.configmap TransportConfigMapName] ++
                              [Ev.lookup Kind.configmap markerName] ++
                              [Ev.create Kind.configmap markerName], calls + 1 + 1 + 1, clock⟩) := by
                        simp only [createCM_run, hf2, hmk2]
                      rw [bind_ok hcr] at h
                      rw [bind_ok (show M.pure ((true : Bool), (true : Bool)) env
                          ⟨⟨(markerName, ⟨CMContent.marker site.version, owners⟩) :: cms,
                            svcs, secs, sas, rls, rbs, rts, deps⟩,
                           tr ++ [Ev.lookup Kind.configmap TransportConfigMapName] ++
                             [Ev.lookup Kind.configmap markerName] ++
                             [Ev.create Kind.configmap markerName], calls + 1 + 1 + 1, clock⟩ =
                          (Except.ok ((true : Bool), (true : Bool)),
                           ⟨⟨(markerName, ⟨CMContent.marker site.version, owners⟩) :: cms,
                             svcs, secs, sas, rls, rbs, rts, deps⟩,
                           tr ++ [Ev.lookup Kind.configmap TransportConfigMapName] ++
                             [Ev.lookup Kind.configmap markerName] ++
                             [Ev.create Kind.configmap markerName], calls + 1 + 1 + 1, clock⟩)
                          from rfl)] at h
                      try dsimp only at h
                      have hlk2 : alook TransportConfigMapName
                          ((markerName, (⟨CMContent.marker site.version, owners⟩ : ConfigMap)) :: cms) =
                          some ⟨CMContent.router site, owners⟩ := by
                        rw [show alook TransportConfigMapName
                            ((markerName, (⟨CMContent.marker site.version, owners⟩ : ConfigMap)) :: cms) =
                            alook TransportConfigMapName cms from rfl, hcm]
                      rcases hf3 : env.faults (calls + 1 + 1 + 1) with _ | e3
                      · have hupd : updateCM TransportConfigMapName
                            ⟨CMContent.router ⟨env.libVersion, site.identity⟩, owners⟩ env
                            ⟨⟨(markerName, ⟨CMContent.marker site.version, owners⟩) :: cms,
                              svcs, secs, sas, rls, rbs, rts, deps⟩,
                             tr ++ [Ev.lookup Kind.configmap TransportConfigMapName] ++
                               [Ev.lookup Kind.configmap markerName] ++
                               [Ev.create Kind.configmap markerName], calls + 1 + 1 + 1, clock⟩ =
                            (Except.ok (),
                             ⟨⟨aset TransportConfigMapName
                                 ⟨CMContent.router ⟨env.libVersion, site.identity⟩, owners⟩
                                 ((markerName, ⟨CMContent.marker site.version, owners⟩) :: cms),
                               svcs, secs, sas, rls, rbs, rts, deps⟩,
                              tr ++ [Ev.lookup Kind.configmap TransportConfigMapName] ++
                                [Ev.lookup Kind.configmap markerName] ++
                                [Ev.create Kind.configmap markerName] ++
                                [Ev.update Kind.configmap TransportConfigMapName],
                              calls + 1 + 1 + 1 + 1, clock⟩) := by
                          simp only [updateCM_run, hf3, hlk2]
                        rw [bind_ok hupd] at h
                        have h2 : ((Except.ok ((⟨CMContent.router site, owners⟩ : ConfigMap),
                            true, true, true),
                            (⟨⟨aset TransportConfigMapName
                                 ⟨CMContent.router ⟨env.libVersion, site.identity⟩, owners⟩
                                 ((markerName, ⟨CMContent.marker site.version, owners⟩) :: cms),
                               svcs, secs, sas, rls, rbs, rts, deps⟩,
                              tr ++ [Ev.lookup Kind.configmap TransportConfigMapName] ++
                                [Ev.lookup Kind.configmap markerName] ++
                                [Ev.create Kind.configmap markerName] ++
                                [Ev.update Kind.configmap TransportConfigMapName],
                              calls + 1 + 1 + 1 + 1, clock⟩ : St)) :
                            Except Err (ConfigMap × Bool × Bool × Bool) × St) = (r, s₁) := h
                        cases h2
                        exact ⟨[Ev.lookup Kind.configmap TransportConfigMapName,
                                Ev.lookup Kind.configmap markerName,
                                Ev.create Kind.configmap markerName,
                                Ev.update Kind.configmap TransportConfigMapName],
                          by simp, by decide, by decide,
                          fun cm0 us rn ip hok hori => Or.inr (by decide)⟩
                      · have hupd : updateCM TransportConfigMapName
                            ⟨CMContent.router ⟨env.libVersion, site.identity⟩, owners⟩ env
                            ⟨⟨(markerName, ⟨CMContent.marker site.version, owners⟩) :: cms,
                              svcs, secs, sas, rls, rbs, rts, deps⟩,
                             tr ++ [Ev.lookup Kind.configmap TransportConfigMapName] ++
                               [Ev.lookup Kind.configmap markerName] ++
                               [Ev.create Kind.configmap markerName], calls + 1 + 1 + 1, clock⟩ =
                            (Except.error (Err.api e3),
                             ⟨⟨(markerName, ⟨CMContent.marker site.version, owners⟩) :: cms,
                               svcs, secs, sas, rls, rbs, rts, deps⟩,
                              tr ++ [Ev.lookup Kind.configmap TransportConfigMapName] ++
                                [Ev.lookup Kind.configmap markerName] ++
                                [Ev.create Kind.configmap markerName], calls + 1 + 1 + 1 + 1, clock⟩) := by
                          simp only [updateCM_run, hf3]
                        rw [bind_error hupd] at h
                        cases h
                        exact ⟨[Ev.lookup Kind.configmap TransportConfigMapName,
                                Ev.lookup Kind.configmap markerName,
                                Ev.create Kind.configmap markerName], by simp, by decide, by decide,
                          fun cm0 us rn ip hok => by cases hok⟩
                    · have hcr : createCM markerName ⟨CMContent.marker site.version, owners⟩ env
                          ⟨⟨cms, svcs, secs, sas, rls, rbs, rts, deps⟩,
                           tr ++ [Ev.lookup Kind.configmap TransportConfigMapName] ++
                             [Ev.lookup Kind.configmap markerName], calls + 1 + 1, clock⟩ =
                          (Except.error (Err.api ApiErr.alreadyExists),
                           ⟨⟨cms, svcs, secs, sas, rls, rbs, rts, deps⟩,
                            tr ++ [Ev.lookup Kind.configmap TransportConfigMapName] ++
                              [Ev.lookup Kind.configmap markerName], calls + 1 + 1 + 1, clock⟩) := by
                        simp only [createCM_run, hf2, hmk2]
                      rw [bind_error hcr] at h
                      cases h
                      exact ⟨[Ev.lookup Kind.configmap TransportConfigMapName,
                              Ev.lookup Kind.configmap markerName], by simp, by decide, by decide,
                        fun cm0 us rn ip hok => by cases hok⟩
                  · have hcr : createCM markerName ⟨CMContent.marker site.version, owners⟩ env
                        ⟨⟨cms, svcs, secs, sas, rls, rbs, rts, deps⟩,
                         tr ++ [Ev.lookup Kind.configmap TransportConfigMapName] ++
                           [Ev.lookup Kind.configmap markerName], calls + 1 + 1, clock⟩ =
                        (Except.error (Err.api e2),
                         ⟨⟨cms, svcs, secs, sas, rls, rbs, rts, deps⟩,
                          tr ++ [Ev.lookup Kind.configmap TransportConfigMapName] ++
                            [Ev.lookup Kind.configmap markerName], calls + 1 + 1 + 1, clock⟩) := by
                      simp only [createCM_run, hf2]
                    rw [bind_error hcr] at h
                    cases h
                    exact ⟨[Ev.lookup Kind.configmap TransportConfigMapName,
                            Ev.lookup Kind.configmap markerName], by simp, by decide, by decide,
                      fun cm0 us rn ip hok => by cases hok⟩
            · -- in progress: marker present
              have hMI : (alook markerName cms).isSome = true := hipm v0 rfl
              try dsimp only at h
              try simp only [Bool.true_and, Bool.not_true, Bool.false_and] at h
              rcases hcond : (moreRecentThanVersion env.libVersion site.version ||
                  (equivalentVersion env.libVersion site.version &&
                   env.libVersion != site.version)) with _ | _
              · rw [hcond] at h
                rw [if_neg (fun hc => Bool.noConfusion hc)] at h
                have h2 : ((Except.ok ((⟨CMContent.router site, owners⟩ : ConfigMap),
                    false, lessRecentThanVersion v0 v050, true),
                    (⟨⟨cms, svcs, secs, sas, rls, rbs, rts, deps⟩,
                     tr ++ [Ev.lookup Kind.configmap TransportConfigMapName] ++
                       [Ev.lookup Kind.configmap markerName], calls + 1 + 1, clock⟩ : St)) :
                    Except Err (ConfigMap × Bool × Bool × Bool) × St) = (r, s₁) := h
                cases h2
                exact ⟨[Ev.lookup Kind.configmap TransportConfigMapName,
                        Ev.lookup Kind.configmap markerName], by simp, by decide, by decide,
                  fun cm0 us rn ip hok hori => Or.inl hMI⟩
              · rw [hcond] at h
                rw [if_pos rfl] at h
                try dsimp only at h
                rw [if_neg (fun hc => Bool.noConfusion hc)] at h
                rw [bind_ok (show M.pure ((lessRecentThanVersion v0 v050 : Bool), (true : Bool)) env
                    ⟨⟨cms, svcs, secs, sas, rls, rbs, rts, deps⟩,
                     tr ++ [Ev.lookup Kind.configmap TransportConfigMapName] ++
                       [Ev.lookup Kind.configmap markerName], calls + 1 + 1, clock⟩ =
                    (Except.ok ((lessRecentThanVersion v0 v050 : Bool), (true : Bool)),
                     ⟨⟨cms, svcs, secs, sas, rls, rbs, rts, deps⟩,
                      tr ++ [Ev.lookup Kind.configmap TransportConfigMapName] ++
                        [Ev.lookup Kind.configmap markerName], calls + 1 + 1, clock⟩)
                    from rfl)] at h
                try dsimp only at h
                rcases hf2 : env.faults (calls + 1 + 1) with _ | e2
                · have hupd : updateCM TransportConfigMapName
                      ⟨CMContent.router ⟨env.libVersion, site.identity⟩, owners⟩ env
                      ⟨⟨cms, svcs, secs, sas, rls, rbs, rts, deps⟩,
                       tr ++ [Ev.lookup Kind.configmap TransportConfigMapName] ++
                         [Ev.lookup Kind.configmap markerName], calls + 1 + 1, clock⟩ =
                      (Except.ok (),
                       ⟨⟨aset TransportConfigMapName
                           ⟨CMContent.router ⟨env.libVersion, site.identity⟩, owners⟩ cms,
                         svcs, secs, sas, rls, rbs, rts, deps⟩,
                        tr ++ [Ev.lookup Kind.configmap TransportConfigMapName] ++
                          [Ev.lookup Kind.configmap markerName] ++
                          [Ev.update Kind.configmap TransportConfigMapName],
                        calls + 1 + 1 + 1, clock⟩) := by
                    simp only [updateCM_run, hf2, hcm]
                  rw [bind_ok hupd] at h
                  have h2 : ((Except.ok ((⟨CMContent.router site, owners⟩ : ConfigMap),
                      true, lessRecentThanVersion v0 v050, true),
                      (⟨⟨aset TransportConfigMapName
                           ⟨CMContent.router ⟨env.libVersion, site.identity⟩, owners⟩ cms,
                         svcs, secs, sas, rls, rbs, rts, deps⟩,
                        tr ++ [Ev.lookup Kind.configmap TransportConfigMapName] ++
                          [Ev.lookup Kind.configmap markerName] ++
                          [Ev.update Kind.configmap TransportConfigMapName],
                        calls + 1 + 1 + 1, clock⟩ : St)) :
                      Except Err (ConfigMap × Bool × Bool × Bool) × St) = (r, s₁) := h
                  cases h2
                  exact ⟨[Ev.lookup Kind.configmap TransportConfigMapName,
                          Ev.lookup Kind.configmap markerName,
                          Ev.update Kind.configmap TransportConfigMapName],
                    by simp, by decide, by decide, fun cm0 us rn ip hok hori => Or.inl hMI⟩
                · have hupd : updateCM TransportConfigMapName
                      ⟨CMContent.router ⟨env.libVersion, site.identity⟩, owners⟩ env
                      ⟨⟨cms, svcs, secs, sas, rls, rbs, rts, deps⟩,
                       tr ++ [Ev.lookup Kind.configmap TransportConfigMapName] ++
                         [Ev.lookup Kind.configmap markerName], calls + 1 + 1, clock⟩ =
                      (Except.error (Err.api e2),
                       ⟨⟨cms, svcs, secs, sas, rls, rbs, rts, deps⟩,
                        tr ++ [Ev.lookup Kind.configmap TransportConfigMapName] ++
                          [Ev.lookup Kind.configmap markerName], calls + 1 + 1 + 1, clock⟩) := by
                    simp only [updateCM_run, hf2]
                  rw [bind_error hupd] at h
                  cases h
                  exact ⟨[Ev.lookup Kind.configmap TransportConfigMapName,
                          Ev.lookup Kind.configmap markerName], by simp, by decide, by decide,
                    fun cm0 us rn ip hok => by cases hok⟩
        · -- site newer than library
          rw [hlt] at h
          rw [if_pos rfl] at h
          have h2 : ((Except.error (Err.fatal "site is newer than library; cannot update"),
              (⟨⟨cms, svcs, secs, sas, rls, rbs, rts, deps⟩,
               tr ++ [Ev.lookup Kind.configmap TransportConfigMapName], calls + 1, clock⟩ : St)) :
              Except Err (ConfigMap × Bool × Bool × Bool) × St) = (r, s₁) := h
          cases h2
          exact ⟨[Ev.lookup Kind.configmap TransportConfigMapName], rfl, by decide, by decide,
            fun cm0 us rn ip hok => by cases hok⟩
      · -- marker content in the transport configmap slot: parse error
        rw [bind_error (show getRouterConfig ⟨CMContent.marker mv, owners⟩ env
            ⟨⟨cms, svcs, secs, sas, rls, rbs, rts, deps⟩,
             tr ++ [Ev.lookup Kind.configmap TransportConfigMapName], calls + 1, clock⟩ =
            (Except.error (Err.fatal "invalid router config"),
             ⟨⟨cms, svcs, secs, sas, rls, rbs, rts, deps⟩,
              tr ++ [Ev.lookup Kind.configmap TransportConfigMapName], calls + 1, clock⟩)
            from rfl)] at h
        cases h
        exact ⟨[Ev.lookup Kind.configmap TransportConfigMapName], rfl, by decide, by decide,
          fun cm0 us rn ip hok => by cases hok⟩
      · -- plain content: parse error
        rw [bind_error (show getRouterConfig ⟨CMContent.plain, owners⟩ env
            ⟨⟨cms, svcs, secs, sas, rls, rbs, rts, deps⟩,
             tr ++ [Ev.lookup Kind.configmap TransportConfigMapName], calls + 1, clock⟩ =
            (Except.error (Err.fatal "invalid router config"),
             ⟨⟨cms, svcs, secs, sas, rls, rbs, rts, deps⟩,
              tr ++ [Ev.lookup Kind.configmap TransportConfigMapName], calls + 1, clock⟩)
            from rfl)] at h
        cases h
        exact ⟨[Ev.lookup Kind.configmap TransportConfigMapName], rfl, by decide, by decide,
          fun cm0 us rn ip hok => by cases hok⟩
  · -- fault on the first read
    have hge : getCM TransportConfigMapName env
        ⟨⟨cms, svcs, secs, sas, rls, rbs, rts, deps⟩, tr, calls, clock⟩ =
        (Except.error (Err.api e0),
         ⟨⟨cms, svcs, secs, sas, rls, rbs, rts, deps⟩,
          tr ++ [Ev.lookup Kind.configmap TransportConfigMapName], calls + 1, clock⟩) := by
      simp only [getCM_run, hf0]
    rw [bind_error hge] at h
    cases h
    exact ⟨[Ev.lookup Kind.configmap TransportConfigMapName], rfl, by decide, by decide,
      fun cm0 us rn ip hok => by cases hok⟩

theorem deleteCM_run (n : Nm) (env : Env)
    (cms : List (Nm × ConfigMap)) (svcs : List (Nm × SvcData)) (secs : List (Nm × String))
    (sas : List (Nm × SA)) (rls rbs : List (Nm × Unit)) (rts : List (Nm × Route))
    (deps : List (Nm × Dep)) (tr : List Ev) (calls clock : Nat) :
    deleteCM n env ⟨⟨cms, svcs, secs, sas, rls, rbs, rts, deps⟩, tr, calls, clock⟩ =
      (match env.faults calls with
       | some e => (Except.error (Err.api e),
           ⟨⟨cms, svcs, secs, sas, rls, rbs, rts, deps⟩, tr, calls + 1, clock⟩)
       | none =>
         match alook n cms with
         | none => (Except.error (Err.api ApiErr.notFound),
             ⟨⟨cms, svcs, secs, sas, rls, rbs, rts, deps⟩, tr, calls + 1, clock⟩)
         | some _ => (Except.ok (),
             ⟨⟨adel n cms, svcs, secs, sas, rls, rbs, rts, deps⟩,
              tr ++ [Ev.delete Kind.configmap n], calls + 1, clock⟩)) := by
  unfold deleteCM
  dsimp only

theorem mutsNotDelete {d : List Ev}
    (hm : ∀ e ∈ d, Ev.isMutation e = true → e = markerCreateEv ∨ e = cmUpdateEv) :
    markerDeleteEv ∉ d := fun hmem => by
  rcases hm _ hmem (by decide) with hq | hq <;> exact absurd hq (by decide)

theorem cmmutNotDelete {d : List Ev}
    (hm : ∀ e ∈ d, Ev.isCMMut e = false ∧ Ev.isDepMut e = false) :
    markerDeleteEv ∉ d := fun hmem => by
  exact absurd (hm _ hmem).1 (by decide)

theorem depOnlyNotDelete {d : List Ev} {n : Nm}
    (hm : ∀ e ∈ d, Ev.isMutation e = true → e ∈ [Ev.update Kind.deployment n]) :
    markerDeleteEv ∉ d := fun hmem =>
  Ev.noConfusion (List.mem_singleton.mp (hm _ hmem (by decide)))

theorem notMemAppend {α : Type} {a : α} {l₁ l₂ : List α}
    (h₁ : a ∉ l₁) (h₂ : a ∉ l₂) : a ∉ l₁ ++ l₂ := fun hm =>
  (List.mem_append.mp hm).elim h₁ h₂

theorem restOk2 {d₂ d₃ : List Ev}
    (h₂ : ∀ e ∈ d₂, Ev.isMutation e = true → e ∈ [routerUpdEv])
    (h₃ : ∀ e ∈ d₃, Ev.isMutation e = true → e ∈ [ctrlUpdEv]) :
    ∀ e ∈ d₂ ++ d₃, Ev.isMutation e = true →
      ([cmUpdateEv, routerUpdEv, ctrlUpdEv] : List Ev).contains e = true := by
  intro e he hm
  rcases List.mem_append.mp he with hmm | hmm
  · rcases List.mem_singleton.mp (h₂ e hmm hm) with rfl
    decide
  · rcases List.mem_singleton.mp (h₃ e hmm hm) with rfl
    decide

theorem discOfVersion {d₁ rest : List Ev}
    (hmut₁ : ∀ e ∈ d₁, Ev.isMutation e = true → e = markerCreateEv ∨ e = cmUpdateEv)
    (hmf₁ : markerCreateEv ∈ d₁ → markerFirst d₁ = true)
    (hrest : ∀ e ∈ rest, Ev.isMutation e = true →
      ([cmUpdateEv, routerUpdEv, ctrlUpdEv] : List Ev).contains e = true) :
    markerFirst (d₁ ++ rest) = true ∨
      mutsIn [cmUpdateEv, routerUpdEv, ctrlUpdEv] (d₁ ++ rest) = true := by
  by_cases hcr : markerCreateEv ∈ d₁
  · exact Or.inl (markerFirst_append (hmf₁ hcr) hcr)
  · refine Or.inr (mutsIn_of ?_)
    intro e he hm
    rcases List.mem_append.mp he with hm1 | hm2
    · rcases hmut₁ e hm1 hm with rfl | rfl
      · exact absurd hm1 hcr
      · decide
    · exact hrest e hm2 hm

theorem discOfRename {Q : Prop} {w : World} {d₁ rest : List Ev}
    (hver : markerIn w = true ∨ markerCreateEv ∈ d₁)
    (hmf₁ : markerCreateEv ∈ d₁ → markerFirst d₁ = true) :
    markerIn w = true ∨ markerFirst (d₁ ++ rest) = true ∨ Q := by
  rcases hver with hmi | hcr
  · exact Or.inl hmi
  · exact Or.inr (Or.inl (markerFirst_append (hmf₁ hcr) hcr))

theorem mutsIn_mem {A d : List Ev} {e : Ev} (h : mutsIn A d = true) (he : e ∈ d)
    (hm : Ev.isMutation e = true) : A.contains e = true := by
  unfold mutsIn at h
  have := List.all_eq_true.mp h e he
  rw [hm] at this
  simpa using this

theorem mainBody_marker (hup : Bool) (ns : String) (env : Env) (s : St)
    (rm : Except Err RunFlags) (sm : St) (h : mainBody hup ns env s = (rm, sm)) :
    ∃ d, sm.tr = s.tr ++ d ∧
      (markerIn s.w = true ∨ markerFirst d = true ∨
        mutsIn [cmUpdateEv, routerUpdEv, ctrlUpdEv] d = true) ∧
      markerDeleteEv ∉ d ∧
      (∀ fl, rm = Except.ok fl → fl.inprogress = true →
        markerIn s.w = true ∨ markerCreateEv ∈ d) := by
  unfold mainBody at h
  rcases hv : versionPhase env s with ⟨rv, s₂⟩
  obtain ⟨d₁, htr₁, hmut₁, hmf₁, hflags₁⟩ := versionPhase_marker env s rv s₂ hv
  rcases rv with e | ⟨cm0, us, rn, ip⟩
  · rw [bind_error hv] at h
    cases h
    refine ⟨d₁, htr₁, ?_, mutsNotDelete hmut₁, fun fl hok => by cases hok⟩
    rcases @discOfVersion _ [] hmut₁ hmf₁ (by intro e he; cases he) with hq | hq
    · rw [List.append_nil] at hq
      exact Or.inr (Or.inl hq)
    · rw [List.append_nil] at hq
      exact Or.inr (Or.inr hq)
  · rw [bind_ok hv] at h
    try dsimp only at h
    rcases rn with _ | _
    · -- rename = false
      rw [if_neg (fun hc => Bool.noConfusion hc)] at h
      rw [bind_ok (show M.pure ((false : Bool), (false : Bool), (false : Bool)) env s₂ =
        (Except.ok ((false : Bool), (false : Bool), (false : Bool)), s₂) from rfl)] at h
      try dsimp only at h
      rcases hrp : routerPhase false us hup false env s₂ with ⟨rr, s₃⟩
      obtain ⟨d₂, htr₂, hmut₂⟩ := mutSafe_routerPhase false us hup false env s₂ rr s₃ hrp
      rcases rr with er | updR
      · rw [bind_error hrp] at h
        cases h
        refine ⟨d₁ ++ d₂, by rw [htr₂, htr₁, List.append_assoc], ?_,
          notMemAppend (mutsNotDelete hmut₁) (depOnlyNotDelete hmut₂),
          fun fl hok => by cases hok⟩
        rcases discOfVersion hmut₁ hmf₁
          (@restOk2 _ [] hmut₂ (by intro e he; cases he)) with hq | hq
        · rw [List.append_nil] at hq
          exact Or.inr (Or.inl hq)
        · rw [List.append_nil] at hq
          exact Or.inr (Or.inr hq)
      · rw [bind_ok hrp] at h
        try dsimp only at h
        rcases hcp : controllerPhase false hup false env s₃ with ⟨rc, s₄⟩
        obtain ⟨d₃, htr₃, hmut₃⟩ := mutSafe_controllerPhase false hup false env s₃ rc s₄ hcp
        rcases rc with ec | updC
        · rw [bind_error hcp] at h
          cases h
          refine ⟨d₁ ++ (d₂ ++ d₃),
            by rw [htr₃, htr₂, htr₁, List.append_assoc, List.append_assoc], ?_,
            notMemAppend (mutsNotDelete hmut₁)
              (notMemAppend (depOnlyNotDelete hmut₂) (depOnlyNotDelete hmut₃)),
            fun fl hok => by cases hok⟩
          exact (discOfVersion hmut₁ hmf₁ (restOk2 hmut₂ hmut₃)).elim
            (fun hq => Or.inr (Or.inl hq)) (fun hq => Or.inr (Or.inr hq))
        · rw [bind_ok hcp] at h
          try dsimp only at h
          rw [if_neg (fun hc => Bool.noConfusion hc)] at h
          have h2 : ((Except.ok (⟨updR, updC, us, ip, false⟩ : RunFlags), s₄) :
              Except Err RunFlags × St) = (rm, sm) := h
          cases h2
          refine ⟨d₁ ++ (d₂ ++ d₃),
            by rw [htr₃, htr₂, htr₁, List.append_assoc, List.append_assoc], ?_,
            notMemAppend (mutsNotDelete hmut₁)
              (notMemAppend (depOnlyNotDelete hmut₂) (depOnlyNotDelete hmut₃)),
            fun fl hok hip => ?_⟩
          · exact (discOfVersion hmut₁ hmf₁ (restOk2 hmut₂ hmut₃)).elim
              (fun hq => Or.inr (Or.inl hq)) (fun hq => Or.inr (Or.inr hq))
          · cases hok
            rcases hflags₁ cm0 us false ip rfl (Or.inr hip) with hmi | hcr
            · exact Or.inl hmi
            · exact Or.inr (List.mem_append.mpr (Or.inl hcr))
    · -- rename = true
      rw [if_pos rfl] at h
      have hver := hflags₁ cm0 us true ip rfl (Or.inl rfl)
      rcases hrnp : renamePhase ns cm0 env s₂ with ⟨rrn, s₃⟩
      obtain ⟨hcf, hdf, ⟨d₂, htr₂, hcd₂⟩, herr⟩ := tame_renamePhase ns cm0 env s₂ rrn s₃ hrnp
      rcases rrn with er | ⟨ur, clb, rei⟩
      · rw [bind_error hrnp] at h
        cases h
        exact ⟨d₁ ++ d₂, by rw [htr₂, htr₁, List.append_assoc],
          discOfRename hver hmf₁,
          notMemAppend (mutsNotDelete hmut₁) (cmmutNotDelete hcd₂),
          fun fl hok => by cases hok⟩
      · rw [bind_ok hrnp] at h
        try dsimp only at h
        rcases hrp : routerPhase true us hup rei env s₃ with ⟨rr, s₄⟩
        obtain ⟨d₃, htr₃, hmut₃⟩ := mutSafe_routerPhase true us hup rei env s₃ rr s₄ hrp
        rcases rr with er | updR
        · rw [bind_error hrp] at h
          cases h
          exact ⟨d₁ ++ (d₂ ++ d₃),
            by rw [htr₃, htr₂, htr₁, List.append_assoc, List.append_assoc],
            discOfRename hver hmf₁,
            notMemAppend (mutsNotDelete hmut₁)
              (notMemAppend (cmmutNotDelete hcd₂) (depOnlyNotDelete hmut₃)),
            fun fl hok => by cases hok⟩
        · rw [bind_ok hrp] at h
          try dsimp only at h
          rcases hcp : controllerPhase true hup clb env s₄ with ⟨rc, s₅⟩
          obtain ⟨d₄, htr₄, hmut₄⟩ := mutSafe_controllerPhase true hup clb env s₄ rc s₅ hcp
          rcases rc with ec | updC
          · rw [bind_error hcp] at h
            cases h
            exact ⟨d₁ ++ (d₂ ++ (d₃ ++ d₄)),
              by rw [htr₄, htr₃, htr₂, htr₁]; simp [List.append_assoc],
              discOfRename hver hmf₁,
              notMemAppend (mutsNotDelete hmut₁)
                (notMemAppend (cmmutNotDelete hcd₂)
                  (notMemAppend (depOnlyNotDelete hmut₃) (depOnlyNotDelete hmut₄))),
              fun fl hok => by cases hok⟩
          · rw [bind_ok hcp] at h
            try dsimp only at h
            rw [if_pos rfl] at h
            rcases hcl : cleanupPhase ur env s₅ with ⟨rcl, s₆⟩
            obtain ⟨hcf₂, hdf₂, ⟨d₅, htr₅, hcd₅⟩, herr₂⟩ := tame_cleanupPhase ur env s₅ rcl s₆ hcl
            rcases rcl with ecl | u
            · rw [bind_error hcl] at h
              cases h
              exact ⟨d₁ ++ (d₂ ++ (d₃ ++ (d₄ ++ d₅))),
                by rw [htr₅, htr₄, htr₃, htr₂, htr₁]; simp [List.append_assoc],
                discOfRename hver hmf₁,
                notMemAppend (mutsNotDelete hmut₁)
                  (notMemAppend (cmmutNotDelete hcd₂)
                    (notMemAppend (depOnlyNotDelete hmut₃)
                      (notMemAppend (depOnlyNotDelete hmut₄) (cmmutNotDelete hcd₅)))),
                fun fl hok => by cases hok⟩
            · rw [bind_ok hcl] at h
              have h2 : ((Except.ok (⟨updR, updC, us, ip, true⟩ : RunFlags), s₆) :
                  Except Err RunFlags × St) = (rm, sm) := h
              cases h2
              refine ⟨d₁ ++ (d₂ ++ (d₃ ++ (d₄ ++ d₅))),
                by rw [htr₅, htr₄, htr₃, htr₂, htr₁]; simp [List.append_assoc],
                discOfRename hver hmf₁,
                notMemAppend (mutsNotDelete hmut₁)
                  (notMemAppend (cmmutNotDelete hcd₂)
                    (notMemAppend (depOnlyNotDelete hmut₃)
                      (notMemAppend (depOnlyNotDelete hmut₄) (cmmutNotDelete hcd₅)))),
                fun fl hok hip => ?_⟩
              cases hok
              rcases hver with hmi | hcr
              · exact Or.inl hmi
              · exact Or.inr (List.mem_append.mpr (Or.inl hcr))

/-- C4 (amended): in every invocation, either the upgrade marker already
exists at the start, or it is created before any other mutation, or the
invocation's mutations are confined to the metadata bump and the workload
redeploys; the marker deletion happens only as the very last event of a
run whose result carries no error, and a failed invocation never deletes
the marker. -/
theorem C4_marker_discipline (hup : Bool) (ns : String) (env : Env) (s : St)
    (b : Bool) (err : Option Err) (s' : St)
    (h : runUpdate hup ns env s = ((b, err), s')) :
    ∃ d, s'.tr = s.tr ++ d ∧
      (markerIn s.w = true ∨ markerFirst d = true ∨
        mutsIn [cmUpdateEv, routerUpdEv, ctrlUpdEv] d = true) ∧
      (markerDeleteEv ∈ d → err = none ∧
        ∃ d₀, d = d₀ ++ [markerDeleteEv] ∧ markerDeleteEv ∉ d₀) := by
  unfold runUpdate at h
  rcases hm : mainBody hup ns env s with ⟨rm, sm⟩
  rw [hm] at h
  obtain ⟨d, htr, hdisc, hnd, hipc⟩ := mainBody_marker hup ns env s rm sm hm
  rcases rm with e | flags
  · try dsimp only at h
    have h2 : (((false, some e), sm) : (Bool × Option Err) × St) = ((b, err), s') := h
    cases h2
    exact ⟨d, htr, hdisc, fun hmem => absurd hmem hnd⟩
  · try dsimp only at h
    rcases flags with ⟨uR, uC, uS, ip, rn⟩
    rcases ip with _ | _
    · try dsimp only at h
      rw [if_neg (fun hc => Bool.noConfusion hc)] at h
      have h2 : (((uR || uC || uS, none), sm) : (Bool × Option Err) × St) = ((b, err), s') := h
      cases h2
      exact ⟨d, htr, hdisc, fun hmem => absurd hmem hnd⟩
    · try dsimp only at h
      rw [if_pos rfl] at h
      rcases sm with ⟨⟨cms₂, svcs₂, secs₂, sas₂, rls₂, rbs₂, rts₂, deps₂⟩, tr₂, calls₂, clock₂⟩
      try dsimp only at htr
      rcases hf : env.faults calls₂ with _ | e2
      · rcases hmk : alook markerName cms₂ with _ | mk
        · have hdc : updateCompleted env
              ⟨⟨cms₂, svcs₂, secs₂, sas₂, rls₂, rbs₂, rts₂, deps₂⟩, tr₂, calls₂, clock₂⟩ =
              (Except.error (Err.api ApiErr.notFound),
               ⟨⟨cms₂, svcs₂, secs₂, sas₂, rls₂, rbs₂, rts₂, deps₂⟩, tr₂, calls₂ + 1, clock₂⟩) := by
            simp only [updateCompleted, deleteCM_run, hf, hmk]
          rw [hdc] at h
          try dsimp only at h
          have h2 : (((true, some (Err.api ApiErr.notFound)),
              (⟨⟨cms₂, svcs₂, secs₂, sas₂, rls₂, rbs₂, rts₂, deps₂⟩, tr₂, calls₂ + 1,
               clock₂⟩ : St)) : (Bool × Option Err) × St) = ((b, err), s') := h
          cases h2
          exact ⟨d, htr, hdisc, fun hmem => absurd hmem hnd⟩
        · have hdc : updateCompleted env
              ⟨⟨cms₂, svcs₂, secs₂, sas₂, rls₂, rbs₂, rts₂, deps₂⟩, tr₂, calls₂, clock₂⟩ =
              (Except.ok (),
               ⟨⟨adel markerName cms₂, svcs₂, secs₂, sas₂, rls₂, rbs₂, rts₂, deps₂⟩,
                tr₂ ++ [Ev.delete Kind.configmap markerName], calls₂ + 1, clock₂⟩) := by
            simp only [updateCompleted, deleteCM_run, hf, hmk]
          rw [hdc] at h
          try dsimp only at h
          have h2 : (((uR || uC || uS, none),
              (⟨⟨adel markerName cms₂, svcs₂, secs₂, sas₂, rls₂, rbs₂, rts₂, deps₂⟩,
               tr₂ ++ [Ev.delete Kind.configmap markerName], calls₂ + 1,
               clock₂⟩ : St)) : (Bool × Option Err) × St) = ((b, err), s') := h
          cases h2
          refine ⟨d ++ [markerDeleteEv], ?_, ?_, fun _ => ⟨rfl, d, rfl, hnd⟩⟩
          · show tr₂ ++ [Ev.delete Kind.configmap markerName] = s.tr ++ (d ++ [markerDeleteEv])
            rw [htr]
            simp [markerDeleteEv, markerCreateEv, List.append_assoc]
          · rcases hipc ⟨uR, uC, uS, true, rn⟩ rfl rfl with hmi | hcr
            · exact Or.inl hmi
            · rcases hdisc with hmi2 | hmf | hmuts
              · exact Or.inl hmi2
              · exact Or.inr (Or.inl (markerFirst_append hmf hcr))
              · exact absurd (mutsIn_mem hmuts hcr (by decide)) (by decide)
      · have hdc : updateCompleted env
            ⟨⟨cms₂, svcs₂, secs₂, sas₂, rls₂, rbs₂, rts₂, deps₂⟩, tr₂, calls₂, clock₂⟩ =
            (Except.error (Err.api e2),
             ⟨⟨cms₂, svcs₂, secs₂, sas₂, rls₂, rbs₂, rts₂, deps₂⟩, tr₂, calls₂ + 1, clock₂⟩) := by
          simp only [updateCompleted, deleteCM_run, hf]
        rw [hdc] at h
        try dsimp only at h
        have h2 : (((true, some (Err.api e2)),
            (⟨⟨cms₂, svcs₂, secs₂, sas₂, rls₂, rbs₂, rts₂, deps₂⟩, tr₂, calls₂ + 1,
             clock₂⟩ : St)) : (Bool × Option Err) × St) = ((b, err), s') := h
        cases h2
        exact ⟨d, htr, hdisc, fun hmem => absurd hmem hnd⟩

/-- Witness for C4: the full fault-free migration run on the pre-0.5.0
fixture satisfies the marker discipline. -/
theorem C4_marker_discipline_witness :
    ∃ d, (runUpdate false "ns" baseEnv (st0 renameWorld)).2.tr = (st0 renameWorld).tr ++ d ∧
      (markerIn (st0 renameWorld).w = true ∨ markerFirst d = true ∨
        mutsIn [cmUpdateEv, routerUpdEv, ctrlUpdEv] d = true) ∧
      (markerDeleteEv ∈ d →
        (runUpdate false "ns" baseEnv (st0 renameWorld)).1.2 = none ∧
        ∃ d₀, d = d₀ ++ [markerDeleteEv] ∧ markerDeleteEv ∉ d₀) :=
  C4_marker_discipline false "ns" baseEnv (st0 renameWorld)
    (runUpdate false "ns" baseEnv (st0 renameWorld)).1.1
    (runUpdate false "ns" baseEnv (st0 renameWorld)).1.2
    (runUpdate false "ns" baseEnv (st0 renameWorld)).2 rfl

theorem getDep_run (n : Nm) (env : Env) (w : World) (tr : List Ev) (calls clock : Nat) :
    getDep n env ⟨w, tr, calls, clock⟩ =
      ((match env.faults calls with
        | some e => Except.error (Err.api e)
        | none =>
          match alook n w.deployments with
          | some d => Except.ok d
          | none => Except.error (Err.api ApiErr.notFound)),
       ⟨w, tr ++ [Ev.lookup Kind.deployment n], calls + 1, clock⟩) := by
  unfold getDep
  try dsimp only
  rcases hf : env.faults calls with _ | e
  · rcases hl : alook n w.deployments with _ | d0 <;> rfl
  · rfl

theorem updateDep_run (n : Nm) (d : Dep) (env : Env)
    (cms : List (Nm × ConfigMap)) (svcs : List (Nm × SvcData)) (secs : List (Nm × String))
    (sas : List (Nm × SA)) (rls rbs : List (Nm × Unit)) (rts : List (Nm × Route))
    (deps : List (Nm × Dep)) (tr : List Ev) (calls clock : Nat) :
    updateDep n d env ⟨⟨cms, svcs, secs, sas, rls, rbs, rts, deps⟩, tr, calls, clock⟩ =
      (match env.faults calls with
       | some e => (Except.error (Err.api e),
           ⟨⟨cms, svcs, secs, sas, rls, rbs, rts, deps⟩, tr, calls + 1, clock⟩)
       | none =>
         match alook n deps with
         | none => (Except.error (Err.api ApiErr.notFound),
             ⟨⟨cms, svcs, secs, sas, rls, rbs, rts, deps⟩, tr, calls + 1, clock⟩)
         | some _ => (Except.ok (),
             ⟨⟨cms, svcs, secs, sas, rls, rbs, rts, aset n d deps⟩,
              tr ++ [Ev.update Kind.deployment n], calls + 1, clock⟩)) := by
  unfold updateDep
  dsimp only

theorem routerPhase_nr (us hup : Bool) (env : Env)
    (cms : List (Nm × ConfigMap)) (svcs : List (Nm × SvcData)) (secs : List (Nm × String))
    (sas : List (Nm × SA)) (rls rbs : List (Nm × Unit)) (rts : List (Nm × Route))
    (deps : List (Nm × Dep)) (tr : List Ev) (calls clock : Nat) (dep : Dep)
    (hnf : NoFaults env)
    (hd : alook TransportDeploymentName deps = some dep)
    (him : getImage dep = env.routerImage) :
    routerPhase false us hup false env
        ⟨⟨cms, svcs, secs, sas, rls, rbs, rts, deps⟩, tr, calls, clock⟩ =
      (if us || hup then
        (Except.ok true,
         ⟨⟨cms, svcs, secs, sas, rls, rbs, rts,
           aset TransportDeploymentName (touchDep dep clock) deps⟩,
          tr ++ [Ev.lookup Kind.deployment TransportDeploymentName] ++
            [Ev.update Kind.deployment TransportDeploymentName],
          calls + 1 + 1, clock⟩)
      else
        (Except.ok false,
         ⟨⟨cms, svcs, secs, sas, rls, rbs, rts, deps⟩,
          tr ++ [Ev.lookup Kind.deployment TransportDeploymentName], calls + 1, clock⟩)) := by
  unfold routerPhase
  rw [bind_ok (show askEnv env
      ⟨⟨cms, svcs, secs, sas, rls, rbs, rts, deps⟩, tr, calls, clock⟩ =
      (Except.ok env, ⟨⟨cms, svcs, secs, sas, rls, rbs, rts, deps⟩, tr, calls, clock⟩)
      from rfl)]
  have hget : getDep TransportDeploymentName env
      ⟨⟨cms, svcs, secs, sas, rls, rbs, rts, deps⟩, tr, calls, clock⟩ =
      (Except.ok dep,
       ⟨⟨cms, svcs, secs, sas, rls, rbs, rts, deps⟩,
        tr ++ [Ev.lookup Kind.deployment TransportDeploymentName], calls + 1, clock⟩) := by
    simp only [getDep_run, hnf calls, hd]
  rw [bind_ok hget]
  try dsimp only
  rw [if_neg (show ¬(false = true) from fun hc => Bool.noConfusion hc)]
  try dsimp only
  rw [him, bne_self_eq_false]
  rw [if_neg (show ¬(false = true) from fun hc => Bool.noConfusion hc)]
  try dsimp only
  simp only [Bool.false_or]
  by_cases hc : (us || hup) = true
  · rw [if_pos hc, if_pos hc]
    rw [bind_ok (show nowM env
        ⟨⟨cms, svcs, secs, sas, rls, rbs, rts, deps⟩,
         tr ++ [Ev.lookup Kind.deployment TransportDeploymentName], calls + 1, clock⟩ =
        (Except.ok clock,
         ⟨⟨cms, svcs, secs, sas, rls, rbs, rts, deps⟩,
          tr ++ [Ev.lookup Kind.deployment TransportDeploymentName], calls + 1, clock⟩)
        from rfl)]
    try dsimp only
    try simp only [Bool.not_false]
    try rw [if_pos rfl]
    try rw [if_pos trivial]
    have hupd : updateDep TransportDeploymentName (touchDep dep clock) env
        ⟨⟨cms, svcs, secs, sas, rls, rbs, rts, deps⟩,
         tr ++ [Ev.lookup Kind.deployment TransportDeploymentName], calls + 1, clock⟩ =
        (Except.ok (),
         ⟨⟨cms, svcs, secs, sas, rls, rbs, rts,
           aset TransportDeploymentName (touchDep dep clock) deps⟩,
          tr ++ [Ev.lookup Kind.deployment TransportDeploymentName] ++
            [Ev.update Kind.deployment TransportDeploymentName], calls + 1 + 1, clock⟩) := by
      simp only [updateDep_run, hnf (calls + 1), hd]
    rw [bind_ok hupd]
    try rw [if_neg (show ¬(false = true) from fun hc2 => Bool.noConfusion hc2)]
    rfl
  · rw [if_neg hc, if_neg hc]
    rfl

theorem controllerPhase_nr (hup : Bool) (env : Env)
    (cms : List (Nm × ConfigMap)) (svcs : List (Nm × SvcData)) (secs : List (Nm × String))
    (sas : List (Nm × SA)) (rls rbs : List (Nm × Unit)) (rts : List (Nm × Route))
    (deps : List (Nm × Dep)) (tr : List Ev) (calls clock : Nat) (dep : Dep)
    (hnf : NoFaults env)
    (hd : alook ControllerDeploymentName deps = some dep)
    (him : getImage dep = env.controllerImage) :
    controllerPhase false hup false env
        ⟨⟨cms, svcs, secs, sas, rls, rbs, rts, deps⟩, tr, calls, clock⟩ =
      (if hup then
        (Except.ok true,
         ⟨⟨cms, svcs, secs, sas, rls, rbs, rts,
           aset ControllerDeploymentName (touchDep dep clock) deps⟩,
          tr ++ [Ev.lookup Kind.deployment ControllerDeploymentName] ++
            [Ev.update Kind.deployment ControllerDeploymentName],
          calls + 1 + 1, clock⟩)
      else
        (Except.ok false,
         ⟨⟨cms, svcs, secs, sas, rls, rbs, rts, deps⟩,
          tr ++ [Ev.lookup Kind.deployment ControllerDeploymentName], calls + 1, clock⟩)) := by
  unfold controllerPhase
  rw [bind_ok (show askEnv env
      ⟨⟨cms, svcs, secs, sas, rls, rbs, rts, deps⟩, tr, calls, clock⟩ =
      (Except.ok env, ⟨⟨cms, svcs, secs, sas, rls, rbs, rts, deps⟩, tr, calls, clock⟩)
      from rfl)]
  have hget : getDep ControllerDeploymentName env
      ⟨⟨cms, svcs, secs, sas, rls, rbs, rts, deps⟩, tr, calls, clock⟩ =
      (Except.ok dep,
       ⟨⟨cms, svcs, secs, sas, rls, rbs, rts, deps⟩,
        tr ++ [Ev.lookup Kind.deployment ControllerDeploymentName], calls + 1, clock⟩) := by
    simp only [getDep_run, hnf calls, hd]
  rw [bind_ok hget]
  try dsimp only
  rw [if_neg (show ¬(false = true) from fun hc => Bool.noConfusion hc)]
  try dsimp only
  rw [him, bne_self_eq_false]
  rw [if_neg (show ¬(false = true) from fun hc => Bool.noConfusion hc)]
  try dsimp only
  simp only [Bool.false_or]
  by_cases hc : hup = true
  · rw [if_pos hc, if_pos hc]
    rw [bind_ok (show nowM env
        ⟨⟨cms, svcs, secs, sas, rls, rbs, rts, deps⟩,
         tr ++ [Ev.lookup Kind.deployment ControllerDeploymentName], calls + 1, clock⟩ =
        (Except.ok clock,
         ⟨⟨cms, svcs, secs, sas, rls, rbs, rts, deps⟩,
          tr ++ [Ev.lookup Kind.deployment ControllerDeploymentName], calls + 1, clock⟩)
        from rfl)]
    try dsimp only
    try simp only [Bool.not_false]
    try rw [if_pos rfl]
    try rw [if_pos trivial]
    have hupd : updateDep ControllerDeploymentName (touchDep dep clock) env
        ⟨⟨cms, svcs, secs, sas, rls, rbs, rts, deps⟩,
         tr ++ [Ev.lookup Kind.deployment ControllerDeploymentName], calls + 1, clock⟩ =
        (Except.ok (),
         ⟨⟨cms, svcs, secs, sas, rls, rbs, rts,
           aset ControllerDeploymentName (touchDep dep clock) deps⟩,
          tr ++ [Ev.lookup Kind.deployment ControllerDeploymentName] ++
            [Ev.update Kind.deployment ControllerDeploymentName], calls + 1 + 1, clock⟩) := by
      simp only [updateDep_run, hnf (calls + 1), hd]
    rw [bind_ok hupd]
    try rw [if_neg (show ¬(false = true) from fun hc2 => Bool.noConfusion hc2)]
    rfl
  · rw [if_neg hc, if_neg hc]
    rfl

/-- C6 (amended): with no rename pending and the stored images already
matching the desired ones, the transport workload is redeployed — its pod
template touched with a fresh timestamp annotation — exactly when the
force-restart flag is set or the site metadata was bumped this run
(`updateSite`), while the controller workload is redeployed exactly when
the force-restart flag is set: a metadata bump alone never forces a
controller redeploy. -/
theorem C6_force_restart (us hup : Bool) (env : Env) (s t : St) (dr dc : Dep)
    (hnf : NoFaults env)
    (hdr : alook TransportDeploymentName s.w.deployments = some dr)
    (himr : getImage dr = env.routerImage)
    (hdc : alook ControllerDeploymentName t.w.deployments = some dc)
    (himc : getImage dc = env.controllerImage) :
    routerPhase false us hup false env s =
      (if us || hup then
        (Except.ok true,
         ⟨{s.w with deployments := (aset
             TransportDeploymentName (touchDep dr s.clock) s.w.deployments)},
          s.tr ++ [Ev.lookup Kind.deployment TransportDeploymentName] ++
            [Ev.update Kind.deployment TransportDeploymentName], s.calls + 1 + 1, s.clock⟩)
      else
        (Except.ok false,
         ⟨s.w, s.tr ++ [Ev.lookup Kind.deployment TransportDeploymentName],
          s.calls + 1, s.clock⟩)) ∧
    controllerPhase false hup false env t =
      (if hup then
        (Except.ok true,
         ⟨{t.w with deployments := (aset
             ControllerDeploymentName (touchDep dc t.clock) t.w.deployments)},
          t.tr ++ [Ev.lookup Kind.deployment ControllerDeploymentName] ++
            [Ev.update Kind.deployment ControllerDeploymentName], t.calls + 1 + 1, t.clock⟩)
      else
        (Except.ok false,
         ⟨t.w, t.tr ++ [Ev.lookup Kind.deployment ControllerDeploymentName],
          t.calls + 1, t.clock⟩)) := by
  rcases s with ⟨⟨cms, svcs, secs, sas, rls, rbs, rts, deps⟩, tr, calls, clock⟩
  rcases t with ⟨⟨cms2, svcs2, secs2, sas2, rls2, rbs2, rts2, deps2⟩, tr2, calls2, clock2⟩
  exact ⟨routerPhase_nr us hup env cms svcs secs sas rls rbs rts deps tr calls clock dr
      hnf hdr himr,
    controllerPhase_nr hup env cms2 svcs2 secs2 sas2 rls2 rbs2 rts2 deps2 tr2 calls2 clock2 dc
      hnf hdc himc⟩

/-- Witness for C6: on the already-up-to-date fixture, a metadata bump
(`updateSite = true`, `hup = false`) redeploys the transport workload but
not the controller workload. -/
theorem C6_force_restart_witness :
    routerPhase false true false false baseEnv (st0 equivWorld) =
      (if true || false then
        (Except.ok true,
         ⟨{(st0 equivWorld).w with deployments := (aset
             TransportDeploymentName
               (touchDep ⟨Nm.skupper, [⟨"router", baseEnv.routerImage, []⟩],
                  [Nm.amqps, Nm.internal, Nm.proxyCerts], []⟩ (st0 equivWorld).clock)
               (st0 equivWorld).w.deployments)},
          (st0 equivWorld).tr ++ [Ev.lookup Kind.deployment TransportDeploymentName] ++
            [Ev.update Kind.deployment TransportDeploymentName],
          (st0 equivWorld).calls + 1 + 1, (st0 equivWorld).clock⟩)
      else
        (Except.ok false,
         ⟨(st0 equivWorld).w,
          (st0 equivWorld).tr ++ [Ev.lookup Kind.deployment TransportDeploymentName],
          (st0 equivWorld).calls + 1, (st0 equivWorld).clock⟩)) ∧
    controllerPhase false false false baseEnv (st0 equivWorld) =
      (if false then
        (Except.ok true,
         ⟨{(st0 equivWorld).w with deployments := (aset
             ControllerDeploymentName
               (touchDep ⟨Nm.proxyController, [⟨"sc", baseEnv.controllerImage, []⟩],
                  [Nm.skupper, Nm.controllerCerts], []⟩ (st0 equivWorld).clock)
               (st0 equivWorld).w.deployments)},
          (st0 equivWorld).tr ++ [Ev.lookup Kind.deployment ControllerDeploymentName] ++
            [Ev.update Kind.deployment ControllerDeploymentName],
          (st0 equivWorld).calls + 1 + 1, (st0 equivWorld).clock⟩)
      else
        (Except.ok false,
         ⟨(st0 equivWorld).w,
          (st0 equivWorld).tr ++ [Ev.lookup Kind.deployment ControllerDeploymentName],
          (st0 equivWorld).calls + 1, (st0 equivWorld).clock⟩)) :=
  C6_force_restart true false baseEnv (st0 equivWorld) (st0 equivWorld)
    ⟨Nm.skupper, [⟨"router", baseEnv.routerImage, []⟩],
     [Nm.amqps, Nm.internal, Nm.proxyCerts], []⟩
    ⟨Nm.proxyController, [⟨"sc", baseEnv.controllerImage, []⟩],
     [Nm.skupper, Nm.controllerCerts], []⟩
    (fun n => rfl) rfl rfl rfl rfl

theorem versionPhase_equiv (env : Env)
    (cms : List (Nm × ConfigMap)) (svcs : List (Nm × SvcData)) (secs : List (Nm × String))
    (sas : List (Nm × SA)) (rls rbs : List (Nm × Unit)) (rts : List (Nm × Route))
    (deps : List (Nm × Dep)) (tr : List Ev) (calls clock : Nat)
    (site : SiteMeta) (owners : List String)
    (hnf : NoFaults env)
    (hcm : alook TransportConfigMapName cms = some ⟨CMContent.router site, owners⟩)
    (heq : equivalentVersion env.libVersion site.version = true)
    (hne : env.libVersion ≠ site.version)
    (hge05 : lessRecentThanVersion site.version v050 = false)
    (hmk : alook markerName cms = none) :
    versionPhase env ⟨⟨cms, svcs, secs, sas, rls, rbs, rts, deps⟩, tr, calls, clock⟩ =
      (Except.ok ((⟨CMContent.router site, owners⟩ : ConfigMap), true, false, false),
       ⟨⟨aset TransportConfigMapName
           ⟨CMContent.router ⟨env.libVersion, site.identity⟩, owners⟩ cms,
         svcs, secs, sas, rls, rbs, rts, deps⟩,
        tr ++ [Ev.lookup Kind.configmap TransportConfigMapName] ++
          [Ev.lookup Kind.configmap markerName] ++
          [Ev.update Kind.configmap TransportConfigMapName],
        calls + 1 + 1 + 1, clock⟩) := by
  have hnums : env.libVersion.nums = site.version.nums := eq_of_beq heq
  have hlt : lessRecentThanVersion env.libVersion site.version = false := by
    unfold lessRecentThanVersion
    rw [hnums]
    exact numsLess_irrefl _
  have hmr : moreRecentThanVersion env.libVersion site.version = false := by
    unfold moreRecentThanVersion
    rw [hnums]
    exact numsLess_irrefl _
  have hbne : (env.libVersion != site.version) = true := bne_iff_ne.mpr hne
  unfold versionPhase
  rw [bind_ok (show askEnv env
      ⟨⟨cms, svcs, secs, sas, rls, rbs, rts, deps⟩, tr, calls, clock⟩ =
      (Except.ok env, ⟨⟨cms, svcs, secs, sas, rls, rbs, rts, deps⟩, tr, calls, clock⟩)
      from rfl)]
  have hge : getCM TransportConfigMapName env
      ⟨⟨cms, svcs, secs, sas, rls, rbs, rts, deps⟩, tr, calls, clock⟩ =
      (Except.ok ⟨CMContent.router site, owners⟩,
       ⟨⟨cms, svcs, secs, sas, rls, rbs, rts, deps⟩,
        tr ++ [Ev.lookup Kind.configmap TransportConfigMapName], calls + 1, clock⟩) := by
    simp only [getCM_run, hnf calls, hcm]
  rw [bind_ok hge]
  try dsimp only
  rw [bind_ok (show getRouterConfig ⟨CMContent.router site, owners⟩ env
      ⟨⟨cms, svcs, secs, sas, rls, rbs, rts, deps⟩,
       tr ++ [Ev.lookup Kind.configmap TransportConfigMapName], calls + 1, clock⟩ =
      (Except.ok site,
       ⟨⟨cms, svcs, secs, sas, rls, rbs, rts, deps⟩,
        tr ++ [Ev.lookup Kind.configmap TransportConfigMapName], calls + 1, clock⟩)
      from rfl)]
  try dsimp only
  rw [hlt]
  rw [if_neg (show ¬(false = true) from fun hc => Bool.noConfusion hc)]
  have hiu : isUpdatingM env
      ⟨⟨cms, svcs, secs, sas, rls, rbs, rts, deps⟩,
       tr ++ [Ev.lookup Kind.configmap TransportConfigMapName], calls + 1, clock⟩ =
      (Except.ok (false, ⟨[], ""⟩),
       ⟨⟨cms, svcs, secs, sas, rls, rbs, rts, deps⟩,
        tr ++ [Ev.lookup Kind.configmap TransportConfigMapName] ++
          [Ev.lookup Kind.configmap markerName], calls + 1 + 1, clock⟩) := by
    unfold isUpdatingM
    rw [getCM_run, hnf (calls + 1), hmk]
    all_goals rfl
  rw [bind_ok hiu]
  try dsimp only
  rw [hmr, heq, hbne]
  rw [if_pos (show (false || true && true) = true from rfl)]
  try dsimp only
  try simp only [Bool.not_false, Bool.true_and, Bool.false_and]
  rw [hge05]
  rw [if_neg (show ¬(false = true) from fun hc => Bool.noConfusion hc)]
  rw [bind_ok (show M.pure ((false : Bool), (false : Bool)) env
      ⟨⟨cms, svcs, secs, sas, rls, rbs, rts, deps⟩,
       tr ++ [Ev.lookup Kind.configmap TransportConfigMapName] ++
         [Ev.lookup Kind.configmap markerName], calls + 1 + 1, clock⟩ =
      (Except.ok ((false : Bool), (false : Bool)),
       ⟨⟨cms, svcs, secs, sas, rls, rbs, rts, deps⟩,
        tr ++ [Ev.lookup Kind.configmap TransportConfigMapName] ++
          [Ev.lookup Kind.configmap markerName], calls + 1 + 1, clock⟩)
      from rfl)]
  try dsimp only
  have hupd : updateCM TransportConfigMapName
      ⟨CMContent.router ⟨env.libVersion, site.identity⟩, owners⟩ env
      ⟨⟨cms, svcs, secs, sas, rls, rbs, rts, deps⟩,
       tr ++ [Ev.lookup Kind.configmap TransportConfigMapName] ++
         [Ev.lookup Kind.configmap markerName], calls + 1 + 1, clock⟩ =
      (Except.ok (),
       ⟨⟨aset TransportConfigMapName
           ⟨CMContent.router ⟨env.libVersion, site.identity⟩, owners⟩ cms,
         svcs, secs, sas, rls, rbs, rts, deps⟩,
        tr ++ [Ev.lookup Kind.configmap TransportConfigMapName] ++
          [Ev.lookup Kind.configmap markerName] ++
          [Ev.update Kind.configmap TransportConfigMapName], calls + 1 + 1 + 1, clock⟩) := by
    simp only [updateCM_run, hnf (calls + 1 + 1), hcm]
  rw [bind_ok hupd]
  rfl

/-- C5 (amended): when the orchestrator's version is equivalent to but not
textually equal to the stored site version (the stored version at or above
the naming threshold, no marker present), the stored metadata version is
rewritten to the orchestrator's version, `rename` and `inprogress` stay
false and no object is renamed; the transport workload IS redeployed even
when its image already matches (because `updateSite` is true), while the
controller workload is not redeployed when its image matches and the
force-restart flag is unset. -/
theorem C5_equivalent_version (env : Env) (s : St) (site : SiteMeta) (owners : List String)
    (hnf : NoFaults env)
    (hcm : alook TransportConfigMapName s.w.configmaps =
      some ⟨CMContent.router site, owners⟩)
    (heq : equivalentVersion env.libVersion site.version = true)
    (hne : env.libVersion ≠ site.version)
    (hge05 : lessRecentThanVersion site.version v050 = false)
    (hmk : alook markerName s.w.configmaps = none) :
    versionPhase env s =
      (Except.ok ((⟨CMContent.router site, owners⟩ : ConfigMap), true, false, false),
       ⟨{s.w with configmaps := (aset
           TransportConfigMapName
           ⟨CMContent.router ⟨env.libVersion, site.identity⟩, owners⟩ s.w.configmaps)},
        s.tr ++ [Ev.lookup Kind.configmap TransportConfigMapName] ++
          [Ev.lookup Kind.configmap markerName] ++
          [Ev.update Kind.configmap TransportConfigMapName],
        s.calls + 1 + 1 + 1, s.clock⟩) ∧
    (∀ (hup : Bool) (t : St) (dep : Dep),
      alook TransportDeploymentName t.w.deployments = some dep →
      getImage dep = env.routerImage →
      (routerPhase false true hup false env t).1 = Except.ok true) ∧
    (∀ (t : St) (dep : Dep),
      alook ControllerDeploymentName t.w.deployments = some dep →
      getImage dep = env.controllerImage →
      (controllerPhase false false false env t).1 = Except.ok false) := by
  refine ⟨?_, ?_, ?_⟩
  · rcases s with ⟨⟨cms, svcs, secs, sas, rls, rbs, rts, deps⟩, tr, calls, clock⟩
    exact versionPhase_equiv env cms svcs secs sas rls rbs rts deps tr calls clock site owners
      hnf hcm heq hne hge05 hmk
  · intro hup t dep hd him
    rcases t with ⟨⟨cms, svcs, secs, sas, rls, rbs, rts, deps⟩, tr, calls, clock⟩
    rw [routerPhase_nr true hup env cms svcs secs sas rls rbs rts deps tr calls clock dep
      hnf hd him]
    rw [if_pos (show (true || hup) = true by simp)]
  · intro t dep hd him
    rcases t with ⟨⟨cms, svcs, secs, sas, rls, rbs, rts, deps⟩, tr, calls, clock⟩
    rw [controllerPhase_nr false env cms svcs secs sas rls rbs rts deps tr calls clock dep
      hnf hd him]
    rw [if_neg (show ¬(false = true) from fun hc => Bool.noConfusion hc)]

/-- Witness for C5: the `0.6.0` library against a stored `0.6.0-rc1` site
with both images current: the metadata is bumped without rename, the
transport workload reports an update, the controller does not. -/
theorem C5_equivalent_version_witness :
    (versionPhase baseEnv (st0 equivWorld)).1 =
      Except.ok ((⟨CMContent.router ⟨⟨[0, 6, 0], "rc1"⟩, "site1"⟩, ["site-cm"]⟩ : ConfigMap),
        true, false, false) ∧
    (routerPhase false true false false baseEnv (st0 equivWorld)).1 = Except.ok true ∧
    (controllerPhase false false false baseEnv (st0 equivWorld)).1 = Except.ok false := by
  obtain ⟨h1, h2, h3⟩ := C5_equivalent_version baseEnv (st0 equivWorld)
    ⟨⟨[0, 6, 0], "rc1"⟩, "site1"⟩ ["site-cm"] (fun n => rfl) rfl (by decide) (by decide)
    (by decide) rfl
  refine ⟨?_, ?_, ?_⟩
  · rw [h1]
  · exact h2 false (st0 equivWorld)
      ⟨Nm.skupper, [⟨"router", baseEnv.routerImage, []⟩],
       [Nm.amqps, Nm.internal, Nm.proxyCerts], []⟩ rfl rfl
  · exact h3 (st0 equivWorld)
      ⟨Nm.proxyController, [⟨"sc", baseEnv.controllerImage, []⟩],
       [Nm.skupper, Nm.controllerCerts], []⟩ rfl rfl
theorem pairErrNe {α : Type} {e : Err} {a : α} {s₁ s₂ : St} {P : Prop}
    (h : ((Except.error e, s₁) : Except Err α × St) = (Except.ok a, s₂)) : P :=
  Except.noConfusion (congrArg Prod.fst h)

theorem mutations_append (a b : List Ev) :
    mutations (a ++ b) = mutations a ++ mutations b := by
  unfold mutations
  exact List.filter_append a b

theorem mutations_lookup (k : Kind) (n : Nm) : mutations [Ev.lookup k n] = [] := rfl

theorem updateOauthArgs_ne_nil (cs : List Container) (n : String) (h : cs ≠ []) :
    updateOauthArgs cs n ≠ [] := by
  rcases cs with _ | ⟨c0, _ | ⟨c1, rest⟩⟩
  · exact absurd rfl h
  · exact h
  · rw [show updateOauthArgs (c0 :: c1 :: rest) n =
        (if c1.name = "oauth-proxy" then
          c0 :: { c1 with args := c1.args.map (fun a =>
            if a.startsWith "--openshift-service-account" then
              "--openshift-service-account=" ++ n
            else a) } :: rest
        else c0 :: c1 :: rest) from rfl]
    by_cases hc : c1.name = "oauth-proxy"
    · rw [if_pos hc]
      exact fun h2 => List.noConfusion h2
    · rw [if_neg hc]
      exact fun h2 => List.noConfusion h2

theorem setImage_post (d : Dep) (img : String) (h : d.containers ≠ []) :
    getImage (setImage d img) = img ∧ (setImage d img).containers ≠ [] := by
  rcases hc : d.containers with _ | ⟨c, rest⟩
  · exact absurd hc h
  · unfold setImage getImage
    rw [hc]
    exact ⟨rfl, fun h2 => List.noConfusion h2⟩

theorem isUpdatingM_absent (env : Env) (w : World) (tr : List Ev) (calls clock : Nat)
    (hnf : NoFaults env) (hmk : alook markerName w.configmaps = none) :
    isUpdatingM env ⟨w, tr, calls, clock⟩ =
      (Except.ok (false, ⟨[], ""⟩),
       ⟨w, tr ++ [Ev.lookup Kind.configmap markerName], calls + 1, clock⟩) := by
  unfold isUpdatingM
  rw [getCM_run, hnf calls, hmk]
  all_goals rfl

theorem isUpdatingM_present (env : Env) (w : World) (tr : List Ev) (calls clock : Nat)
    (mcm : ConfigMap)
    (hnf : NoFaults env) (hmk : alook markerName w.configmaps = some mcm) :
    ∃ v, isUpdatingM env ⟨w, tr, calls, clock⟩ =
      (Except.ok (true, v),
       ⟨w, tr ++ [Ev.lookup Kind.configmap markerName], calls + 1, clock⟩) := by
  rcases mcm with ⟨mc, mo⟩
  rcases mc with msite | mv | _
  · exact ⟨⟨[], ""⟩, by
      unfold isUpdatingM
      rw [getCM_run, hnf calls, hmk]
      all_goals rfl⟩
  · exact ⟨mv, by
      unfold isUpdatingM
      rw [getCM_run, hnf calls, hmk]
      all_goals rfl⟩
  · exact ⟨⟨[], ""⟩, by
      unfold isUpdatingM
      rw [getCM_run, hnf calls, hmk]
      all_goals rfl⟩

theorem versionPhase_ok_post (env : Env) (s : St)
    (cm : ConfigMap) (us rn ip : Bool) (s₂ : St)
    (hnf : NoFaults env)
    (h : versionPhase env s = (Except.ok (cm, us, rn, ip), s₂)) :
    s₂.w.deployments = s.w.deployments ∧
    (∃ site₂ ow, alook TransportConfigMapName s₂.w.configmaps =
        some ⟨CMContent.router site₂, ow⟩ ∧ site₂.version = env.libVersion) ∧
    (ip = false → alook markerName s₂.w.configmaps = none) ∧
    (ip = true → (alook markerName s₂.w.configmaps).isSome = true) := by
  rcases s with ⟨⟨cms, svcs, secs, sas, rls, rbs, rts, deps⟩, tr, calls, clock⟩
  unfold versionPhase at h
  rw [bind_ok (show askEnv env ⟨⟨cms, svcs, secs, sas, rls, rbs, rts, deps⟩, tr, calls, clock⟩ =
    (Except.ok env, ⟨⟨cms, svcs, secs, sas, rls, rbs, rts, deps⟩, tr, calls, clock⟩)
    from rfl)] at h
  rcases hcm : alook TransportConfigMapName cms with _ | cmv
  · have hge : getCM TransportConfigMapName env
        ⟨⟨cms, svcs, secs, sas, rls, rbs, rts, deps⟩, tr, calls, clock⟩ =
        (Except.error (Err.api ApiErr.notFound),
         ⟨⟨cms, svcs, secs, sas, rls, rbs, rts, deps⟩,
          tr ++ [Ev.lookup Kind.configmap TransportConfigMapName], calls + 1, clock⟩) := by
      simp only [getCM_run, hnf calls, hcm]
    rw [bind_error hge] at h
    exact pairErrNe h
  · have hge : getCM TransportConfigMapName env
        ⟨⟨cms, svcs, secs, sas, rls, rbs, rts, deps⟩, tr, calls, clock⟩ =
        (Except.ok cmv,
         ⟨⟨cms, svcs, secs, sas, rls, rbs, rts, deps⟩,
          tr ++ [Ev.lookup Kind.configmap TransportConfigMapName], calls + 1, clock⟩) := by
      simp only [getCM_run, hnf calls, hcm]
    rw [bind_ok hge] at h
    try dsimp only at h
    rcases cmv with ⟨cc, owners⟩
    rcases cc with site | mv | _
    · -- router content: proceed
      rw [bind_ok (show getRouterConfig ⟨CMContent.router site, owners⟩ env
          ⟨⟨cms, svcs, secs, sas, rls, rbs, rts, deps⟩,
           tr ++ [Ev.lookup Kind.configmap TransportConfigMapName], calls + 1, clock⟩ =
          (Except.ok site,
           ⟨⟨cms, svcs, secs, sas, rls, rbs, rts, deps⟩,
            tr ++ [Ev.lookup Kind.configmap TransportConfigMapName], calls + 1, clock⟩)
          from rfl)] at h
      try dsimp only at h
      rcases hlt : lessRecentThanVersion env.libVersion site.version with _ | _
      · -- not newer: continue
        rw [hlt] at h
        rw [if_neg (fun hc => Bool.noConfusion hc)] at h
        rcases hmk : alook markerName cms with _ | mcm
        · -- marker absent at lookup
          rw [bind_ok (isUpdatingM_absent env ⟨cms, svcs, secs, sas, rls, rbs, rts, deps⟩
            (tr ++ [Ev.lookup Kind.configmap TransportConfigMapName]) (calls + 1) clock
            hnf hmk)] at h
          try dsimp only at h
          try simp only [Bool.false_and, Bool.not_false, Bool.true_and] at h
          rcases hcond : (moreRecentThanVersion env.libVersion site.version ||
              (equivalentVersion env.libVersion site.version &&
               env.libVersion != site.version)) with _ | _
          · -- no update: versions textually equal
            rw [hcond] at h
            rw [if_neg (fun hc => Bool.noConfusion hc)] at h
            have h2 : ((Except.ok ((⟨CMContent.router site, owners⟩ : ConfigMap),
                false, false, false),
                (⟨⟨cms, svcs, secs, sas, rls, rbs, rts, deps⟩,
                 tr ++ [Ev.lookup Kind.configmap TransportConfigMapName] ++
                   [Ev.lookup Kind.configmap markerName], calls + 1 + 1, clock⟩ : St)) :
                Except Err (ConfigMap × Bool × Bool × Bool) × St) =
                (Except.ok (cm, us, rn, ip), s₂) := h
            cases h2
            have hmrf : moreRecentThanVersion env.libVersion site.version = false := by
              rcases hq : moreRecentThanVersion env.libVersion site.version with _ | _
              · rfl
              · rw [hq, Bool.true_or] at hcond
                exact Bool.noConfusion hcond
            have hnums : env.libVersion.nums = site.version.nums :=
              numsLess_trichotomy _ _ hlt hmrf
            have hbe : equivalentVersion env.libVersion site.version = true := by
              unfold equivalentVersion
              rw [hnums]
              simp
            have hveq : env.libVersion = site.version := by
              by_contra hcon
              rw [hmrf, hbe, bne_iff_ne.mpr hcon] at hcond
              exact absurd hcond (by decide)
            exact ⟨rfl, ⟨site, owners, hcm, hveq.symm⟩,
              fun _ => hmk, fun hc => Bool.noConfusion hc⟩
          · rw [hcond] at h
            rw [if_pos rfl] at h
            try dsimp only at h
            rcases hold : lessRecentThanVersion site.version v050 with _ | _
            · -- no marker creation; straight to updateCM
              rw [hold] at h
              rw [if_neg (fun hc => Bool.noConfusion hc)] at h
              rw [bind_ok (show M.pure ((false : Bool), (false : Bool)) env
                  ⟨⟨cms, svcs, secs, sas, rls, rbs, rts, deps⟩,
                   tr ++ [Ev.lookup Kind.configmap TransportConfigMapName] ++
                     [Ev.lookup Kind.configmap markerName], calls + 1 + 1, clock⟩ =
                  (Except.ok ((false : Bool), (false : Bool)),
                   ⟨⟨cms, svcs, secs, sas, rls, rbs, rts, deps⟩,
                    tr ++ [Ev.lookup Kind.configmap TransportConfigMapName] ++
                      [Ev.lookup Kind.configmap markerName], calls + 1 + 1, clock⟩)
                  from rfl)] at h
              try dsimp only at h
              have hupd : updateCM TransportConfigMapName
                  ⟨CMContent.router ⟨env.libVersion, site.identity⟩, owners⟩ env
                  ⟨⟨cms, svcs, secs, sas, rls, rbs, rts, deps⟩,
                   tr ++ [Ev.lookup Kind.configmap TransportConfigMapName] ++
                     [Ev.lookup Kind.configmap markerName], calls + 1 + 1, clock⟩ =
                  (Except.ok (),
                   ⟨⟨aset TransportConfigMapName
                       ⟨CMContent.router ⟨env.libVersion, site.identity⟩, owners⟩ cms,
                     svcs, secs, sas, rls, rbs, rts, deps⟩,
                    tr ++ [Ev.lookup Kind.configmap TransportConfigMapName] ++
                      [Ev.lookup Kind.configmap markerName] ++
                      [Ev.update Kind.configmap TransportConfigMapName],
                    calls + 1 + 1 + 1, clock⟩) := by
                simp only [updateCM_run, hnf (calls + 1 + 1), hcm]
              rw [bind_ok hupd] at h
              have h2 : ((Except.ok ((⟨CMContent.router site, owners⟩ : ConfigMap),
                  true, false, false),
                  (⟨⟨aset TransportConfigMapName
                       ⟨CMContent.router ⟨env.libVersion, site.identity⟩, owners⟩ cms,
                     svcs, secs, sas, rls, rbs, rts, deps⟩,
                    tr ++ [Ev.lookup Kind.configmap TransportConfigMapName] ++
                      [Ev.lookup Kind.configmap markerName] ++
                      [Ev.update Kind.configmap TransportConfigMapName],
                    calls + 1 + 1 + 1, clock⟩ : St)) :
                  Except Err (ConfigMap × Bool × Bool × Bool) × St) =
                  (Except.ok (cm, us, rn, ip), s₂) := h
              cases h2
              refine ⟨rfl, ⟨⟨env.libVersion, site.identity⟩, owners, ?_, rfl⟩, ?_, ?_⟩
              · exact alook_aset_self _ _ (fun hq => by
                  rw [hcm] at hq
                  exact Option.noConfusion hq)
              · intro _
                rw [alook_aset_ne (show ¬markerName = TransportConfigMapName by decide)]
                exact hmk
              · intro hc
                exact Bool.noConfusion hc
            · -- marker creation path
              rw [hold] at h
              rw [if_pos rfl] at h
              try dsimp only at h
              rw [show (updateStarted site.version owners : M Unit) =
                createCM markerName ⟨CMContent.marker site.version, owners⟩ from rfl] at h
              have hcr : createCM markerName ⟨CMContent.marker site.version, owners⟩ env
                  ⟨⟨cms, svcs, secs, sas, rls, rbs, rts, deps⟩,
                   tr ++ [Ev.lookup Kind.configmap TransportConfigMapName] ++
                     [Ev.lookup Kind.configmap markerName], calls + 1 + 1, clock⟩ =
                  (Except.ok (),
                   ⟨⟨(markerName, ⟨CMContent.marker site.version, owners⟩) :: cms,
                     svcs, secs, sas, rls, rbs, rts, deps⟩,
                    tr ++ [Ev.lookup Kind.configmap TransportConfigMapName] ++
                      [Ev.lookup Kind.configmap markerName] ++
                      [Ev.create Kind.configmap markerName], calls + 1 + 1 + 1, clock⟩) := by
                simp only [createCM_run, hnf (calls + 1 + 1), hmk]
              rw [bind_ok hcr] at h
              rw [bind_ok (show M.pure ((true : Bool), (true : Bool)) env
                  ⟨⟨(markerName, ⟨CMContent.marker site.version, owners⟩) :: cms,
                    svcs, secs, sas, rls, rbs, rts, deps⟩,
                   tr ++ [Ev.lookup Kind.configmap TransportConfigMapName] ++
                     [Ev.lookup Kind.configmap markerName] ++
                     [Ev.create Kind.configmap markerName], calls + 1 + 1 + 1, clock⟩ =
                  (Except.ok ((true : Bool), (true : Bool)),
                   ⟨⟨(markerName, ⟨CMContent.marker site.version, owners⟩) :: cms,
                     svcs, secs, sas, rls, rbs, rts, deps⟩,
                   tr ++ [Ev.lookup Kind.configmap TransportConfigMapName] ++
                     [Ev.lookup Kind.configmap markerName] ++
                     [Ev.create Kind.configmap markerName], calls + 1 + 1 + 1, clock⟩)
                  from rfl)] at h
              try dsimp only at h
              have hlk2 : alook TransportConfigMapName
                  ((markerName, (⟨CMContent.marker site.version, owners⟩ : ConfigMap)) :: cms) =
                  some ⟨CMContent.router site, owners⟩ := by
                rw [show alook TransportConfigMapName
                    ((markerName, (⟨CMContent.marker site.version, owners⟩ : ConfigMap)) :: cms) =
                    alook TransportConfigMapName cms from rfl, hcm]
              have hupd : updateCM TransportConfigMapName
                  ⟨CMContent.router ⟨env.libVersion, site.identity⟩, owners⟩ env
                  ⟨⟨(markerName, ⟨CMContent.marker site.version, owners⟩) :: cms,
                    svcs, secs, sas, rls, rbs, rts, deps⟩,
                   tr ++ [Ev.lookup Kind.configmap TransportConfigMapName] ++
                     [Ev.lookup Kind.configmap markerName] ++
                     [Ev.create Kind.configmap markerName], calls + 1 + 1 + 1, clock⟩ =
                  (Except.ok (),
                   ⟨⟨aset TransportConfigMapName
                       ⟨CMContent.router ⟨env.libVersion, site.identity⟩, owners⟩
                       ((markerName, ⟨CMContent.marker site.version, owners⟩) :: cms),
                     svcs, secs, sas, rls, rbs, rts, deps⟩,
                    tr ++ [Ev.lookup Kind.configmap TransportConfigMapName] ++
                      [Ev.lookup Kind.configmap markerName] ++
                      [Ev.create Kind.configmap markerName] ++
                      [Ev.update Kind.configmap TransportConfigMapName],
                    calls + 1 + 1 + 1 + 1, clock⟩) := by
                simp only [updateCM_run, hnf (calls + 1 + 1 + 1), hlk2]
              rw [bind_ok hupd] at h
              have h2 : ((Except.ok ((⟨CMContent.router site, owners⟩ : ConfigMap),
                  true, true, true),
                  (⟨⟨aset TransportConfigMapName
                       ⟨CMContent.router ⟨env.libVersion, site.identity⟩, owners⟩
                       ((markerName, ⟨CMContent.marker site.version, owners⟩) :: cms),
                     svcs, secs, sas, rls, rbs, rts, deps⟩,
                    tr ++ [Ev.lookup Kind.configmap TransportConfigMapName] ++
                      [Ev.lookup Kind.configmap markerName] ++
                      [Ev.create Kind.configmap markerName] ++
                      [Ev.update Kind.configmap TransportConfigMapName],
                    calls + 1 + 1 + 1 + 1, clock⟩ : St)) :
                  Except Err (ConfigMap × Bool × Bool × Bool) × St) =
                  (Except.ok (cm, us, rn, ip), s₂) := h
              cases h2
              refine ⟨rfl, ⟨⟨env.libVersion, site.identity⟩, owners, ?_, rfl⟩, ?_, ?_⟩
              · exact alook_aset_self _ _ (fun hq => by
                  rw [hlk2] at hq
                  exact Option.noConfusion hq)
              · intro hc
                exact Bool.noConfusion hc
              · intro _
                rw [alook_aset_ne (show ¬markerName = TransportConfigMapName by decide)]
                rfl
        · -- marker present at lookup
          obtain ⟨v0, hiu⟩ := isUpdatingM_present env ⟨cms, svcs, secs, sas, rls, rbs, rts, deps⟩
            (tr ++ [Ev.lookup Kind.configmap TransportConfigMapName]) (calls + 1) clock
            mcm hnf hmk
          rw [bind_ok hiu] at h
          try dsimp only at h
          try simp only [Bool.true_and, Bool.not_true, Bool.false_and] at h
          rcases hcond : (moreRecentThanVersion env.libVersion site.version ||
              (equivalentVersion env.libVersion site.version &&
               env.libVersion != site.version)) with _ | _
          · -- no update: versions textually equal
            rw [hcond] at h
            rw [if_neg (fun hc => Bool.noConfusion hc)] at h
            have h2 : ((Except.ok ((⟨CMContent.router site, owners⟩ : ConfigMap),
                false, lessRecentThanVersion v0 v050, true),
                (⟨⟨cms, svcs, secs, sas, rls, rbs, rts, deps⟩,
                 tr ++ [Ev.lookup Kind.configmap TransportConfigMapName] ++
                   [Ev.lookup Kind.configmap markerName], calls + 1 + 1, clock⟩ : St)) :
                Except Err (ConfigMap × Bool × Bool × Bool) × St) =
                (Except.ok (cm, us, rn, ip), s₂) := h
            cases h2
            have hmrf : moreRecentThanVersion env.libVersion site.version = false := by
              rcases hq : moreRecentThanVersion env.libVersion site.version with _ | _
              · rfl
              · rw [hq, Bool.true_or] at hcond
                exact Bool.noConfusion hcond
            have hnums : env.libVersion.nums = site.version.nums :=
              numsLess_trichotomy _ _ hlt hmrf
            have hbe : equivalentVersion env.libVersion site.version = true := by
              unfold equivalentVersion
              rw [hnums]
              simp
            have hveq : env.libVersion = site.version := by
              by_contra hcon
              rw [hmrf, hbe, bne_iff_ne.mpr hcon] at hcond
              exact absurd hcond (by decide)
            refine ⟨rfl, ⟨site, owners, hcm, hveq.symm⟩,
              fun hc => Bool.noConfusion hc, fun _ => ?_⟩
            rw [hmk]
            rfl
          · rw [hcond] at h
            rw [if_pos rfl] at h
            try dsimp only at h
            rw [if_neg (fun hc => Bool.noConfusion hc)] at h
            rw [bind_ok (show M.pure ((lessRecentThanVersion v0 v050 : Bool), (true : Bool)) env
                ⟨⟨cms, svcs, secs, sas, rls, rbs, rts, deps⟩,
                 tr ++ [Ev.lookup Kind.configmap TransportConfigMapName] ++
                   [Ev.lookup Kind.configmap markerName], calls + 1 + 1, clock⟩ =
                (Except.ok ((lessRecentThanVersion v0 v050 : Bool), (true : Bool)),
                 ⟨⟨cms, svcs, secs, sas, rls, rbs, rts, deps⟩,
                  tr ++ [Ev.lookup Kind.configmap TransportConfigMapName] ++
                    [Ev.lookup Kind.configmap markerName], calls + 1 + 1, clock⟩)
                from rfl)] at h
            try dsimp only at h
            have hupd : updateCM TransportConfigMapName
                ⟨CMContent.router ⟨env.libVersion, site.identity⟩, owners⟩ env
                ⟨⟨cms, svcs, secs, sas, rls, rbs, rts, deps⟩,
                 tr ++ [Ev.lookup Kind.configmap TransportConfigMapName] ++
                   [Ev.lookup Kind.configmap markerName], calls + 1 + 1, clock⟩ =
                (Except.ok (),
                 ⟨⟨aset TransportConfigMapName
                     ⟨CMContent.router ⟨env.libVersion, site.identity⟩, owners⟩ cms,
                   svcs, secs, sas, rls, rbs, rts, deps⟩,
                  tr ++ [Ev.lookup Kind.configmap TransportConfigMapName] ++
                    [Ev.lookup Kind.configmap markerName] ++
                    [Ev.update Kind.configmap TransportConfigMapName],
                  calls + 1 + 1 + 1, clock⟩) := by
              simp only [updateCM_run, hnf (calls + 1 + 1), hcm]
            rw [bind_ok hupd] at h
            have h2 : ((Except.ok ((⟨CMContent.router site, owners⟩ : ConfigMap),
                true, lessRecentThanVersion v0 v050, true),
                (⟨⟨aset TransportConfigMapName
                     ⟨CMContent.router ⟨env.libVersion, site.identity⟩, owners⟩ cms,
                   svcs, secs, sas, rls, rbs, rts, deps⟩,
                  tr ++ [Ev.lookup Kind.configmap TransportConfigMapName] ++
                    [Ev.lookup Kind.configmap markerName] ++
                    [Ev.update Kind.configmap TransportConfigMapName],
                  calls + 1 + 1 + 1, clock⟩ : St)) :
                Except Err (ConfigMap × Bool × Bool × Bool) × St) =
                (Except.ok (cm, us, rn, ip), s₂) := h
            cases h2
            refine ⟨rfl, ⟨⟨env.libVersion, site.identity⟩, owners, ?_, rfl⟩, ?_, ?_⟩
            · exact alook_aset_self _ _ (fun hq => by
                rw [hcm] at hq
                exact Option.noConfusion hq)
            · intro hc
              exact Bool.noConfusion hc
            · intro _
              rw [alook_aset_ne (show ¬markerName = TransportConfigMapName by decide)]
              rw [hmk]
              rfl
      · -- site newer than library: refused
        rw [hlt] at h
        rw [if_pos rfl] at h
        exact pairErrNe h
    · -- marker content in the transport configmap slot: parse error
      rw [bind_error (show getRouterConfig ⟨CMContent.marker mv, owners⟩ env
          ⟨⟨cms, svcs, secs, sas, rls, rbs, rts, deps⟩,
           tr ++ [Ev.lookup Kind.configmap TransportConfigMapName], calls + 1, clock⟩ =
          (Except.error (Err.fatal "invalid router config"),
           ⟨⟨cms, svcs, secs, sas, rls, rbs, rts, deps⟩,
            tr ++ [Ev.lookup Kind.configmap TransportConfigMapName], calls + 1, clock⟩)
          from rfl)] at h
      exact pairErrNe h
    · -- plain content: parse error
      rw [bind_error (show getRouterConfig ⟨CMContent.plain, owners⟩ env
          ⟨⟨cms, svcs, secs, sas, rls, rbs, rts, deps⟩,
           tr ++ [Ev.lookup Kind.configmap TransportConfigMapName], calls + 1, clock⟩ =
          (Except.error (Err.fatal "invalid router config"),
           ⟨⟨cms, svcs, secs, sas, rls, rbs, rts, deps⟩,
            tr ++ [Ev.lookup Kind.configmap TransportConfigMapName], calls + 1, clock⟩)
          from rfl)] at h
      exact pairErrNe h
theorem tailPrint_ok {rei : Bool} {msg : String} {env : Env}
    {w : World} {tr : List Ev} {calls clock : Nat} {r : Except Err Bool} {s₂ : St}
    (h : ((if rei = true then printlnM msg else M.pure ()) >>= fun _ => M.pure true)
        env ⟨w, tr, calls, clock⟩ = (r, s₂)) :
    r = Except.ok true ∧ s₂.w = w := by
  rcases rei with _ | _
  · rw [if_neg (fun hc => Bool.noConfusion hc)] at h
    have h2 : ((Except.ok true, (⟨w, tr, calls, clock⟩ : St)) :
        Except Err Bool × St) = (r, s₂) := h
    cases h2
    exact ⟨rfl, rfl⟩
  · rw [if_pos rfl] at h
    have h2 : ((Except.ok true,
        (⟨w, tr ++ [Ev.println msg], calls, clock⟩ : St)) :
        Except Err Bool × St) = (r, s₂) := h
    cases h2
    exact ⟨rfl, rfl⟩

theorem tailPoll_ok {clb : Bool} {env : Env}
    {w : World} {tr : List Ev} {calls clock : Nat} {r : Except Err Bool} {s₂ : St}
    (h : ((if clb = true then consolePoll else M.pure ()) >>= fun _ => M.pure true)
        env ⟨w, tr, calls, clock⟩ = (r, s₂)) :
    s₂.w.configmaps = w.configmaps ∧ s₂.w.deployments = w.deployments := by
  rcases clb with _ | _
  · rw [if_neg (fun hc => Bool.noConfusion hc)] at h
    have h2 : ((Except.ok true, (⟨w, tr, calls, clock⟩ : St)) :
        Except Err Bool × St) = (r, s₂) := h
    cases h2
    exact ⟨rfl, rfl⟩
  · rw [if_pos rfl] at h
    rcases hpol : consolePoll env ⟨w, tr, calls, clock⟩ with ⟨rp, sp⟩
    obtain ⟨hcf, hdf, _, _⟩ := tame_consolePoll env ⟨w, tr, calls, clock⟩ rp sp hpol
    rcases rp with ep | up
    · rw [bind_error hpol] at h
      have h2 : ((Except.error ep, sp) : Except Err Bool × St) = (r, s₂) := h
      cases h2
      exact ⟨hcf, hdf⟩
    · rw [bind_ok hpol] at h
      have h2 : ((Except.ok true, sp) : Except Err Bool × St) = (r, s₂) := h
      cases h2
      exact ⟨hcf, hdf⟩

theorem routerPhase_ok_post (rn us hup rei : Bool) (env : Env) (s : St)
    (ur : Bool) (s₂ : St)
    (hnf : NoFaults env)
    (hcn : ∀ dep, alook TransportDeploymentName s.w.deployments = some dep →
      dep.containers ≠ [])
    (h : routerPhase rn us hup rei env s = (Except.ok ur, s₂)) :
    s₂.w.configmaps = s.w.configmaps ∧
    (∃ dep₂, alook TransportDeploymentName s₂.w.deployments = some dep₂ ∧
      getImage dep₂ = env.routerImage ∧ dep₂.containers ≠ []) ∧
    (∀ n, ¬n = TransportDeploymentName →
      alook n s₂.w.deployments = alook n s.w.deployments) := by
  rcases s with ⟨⟨cms, svcs, secs, sas, rls, rbs, rts, deps⟩, tr, calls, clock⟩
  unfold routerPhase at h
  rw [bind_ok (show askEnv env ⟨⟨cms, svcs, secs, sas, rls, rbs, rts, deps⟩, tr, calls, clock⟩ =
    (Except.ok env, ⟨⟨cms, svcs, secs, sas, rls, rbs, rts, deps⟩, tr, calls, clock⟩)
    from rfl)] at h
  rcases hd : alook TransportDeploymentName deps with _ | dep
  · have hge : getDep TransportDeploymentName env
        ⟨⟨cms, svcs, secs, sas, rls, rbs, rts, deps⟩, tr, calls, clock⟩ =
        (Except.error (Err.api ApiErr.notFound),
         ⟨⟨cms, svcs, secs, sas, rls, rbs, rts, deps⟩,
          tr ++ [Ev.lookup Kind.deployment TransportDeploymentName], calls + 1, clock⟩) := by
      simp only [getDep_run, hnf calls, hd]
    rw [bind_error hge] at h
    exact pairErrNe h
  · have hge : getDep TransportDeploymentName env
        ⟨⟨cms, svcs, secs, sas, rls, rbs, rts, deps⟩, tr, calls, clock⟩ =
        (Except.ok dep,
         ⟨⟨cms, svcs, secs, sas, rls, rbs, rts, deps⟩,
          tr ++ [Ev.lookup Kind.deployment TransportDeploymentName], calls + 1, clock⟩) := by
      simp only [getDep_run, hnf calls, hd]
    rw [bind_ok hge] at h
    try dsimp only at h
    rcases rn with _ | _
    · -- no rename
      rw [if_neg (show ¬(false = true) from fun hc => Bool.noConfusion hc)] at h
      try dsimp only at h
      rcases him : (getImage dep != env.routerImage) with _ | _
      · -- image already current
        have hgi : getImage dep = env.routerImage := by
          by_contra hcon
          rw [bne_iff_ne.mpr hcon] at him
          exact Bool.noConfusion him
        rw [him] at h
        rw [if_neg (show ¬(false = true) from fun hc => Bool.noConfusion hc)] at h
        try dsimp only at h
        try simp only [Bool.false_or] at h
        rcases hbh : (us || hup) with _ | _
        · -- nothing to do
          rw [hbh] at h
          rw [if_neg (show ¬(false = true) from fun hc => Bool.noConfusion hc)] at h
          have h2 : ((Except.ok false,
              (⟨⟨cms, svcs, secs, sas, rls, rbs, rts, deps⟩,
               tr ++ [Ev.lookup Kind.deployment TransportDeploymentName],
               calls + 1, clock⟩ : St)) :
              Except Err Bool × St) = (Except.ok ur, s₂) := h
          cases h2
          exact ⟨rfl, ⟨dep, hd, hgi, hcn dep hd⟩, fun n _ => rfl⟩
        · -- forced restart: touch and redeploy
          rw [hbh] at h
          rw [if_pos rfl] at h
          try dsimp only at h
          rw [bind_ok (show nowM env
              ⟨⟨cms, svcs, secs, sas, rls, rbs, rts, deps⟩,
               tr ++ [Ev.lookup Kind.deployment TransportDeploymentName],
               calls + 1, clock⟩ =
              (Except.ok clock,
               ⟨⟨cms, svcs, secs, sas, rls, rbs, rts, deps⟩,
                tr ++ [Ev.lookup Kind.deployment TransportDeploymentName],
                calls + 1, clock⟩) from rfl)] at h
          try dsimp only at h
          try simp only [Bool.not_false] at h
          try rw [if_pos rfl] at h
          try rw [if_pos trivial] at h
          have hupd : updateDep TransportDeploymentName (touchDep dep clock) env
              ⟨⟨cms, svcs, secs, sas, rls, rbs, rts, deps⟩,
               tr ++ [Ev.lookup Kind.deployment TransportDeploymentName],
               calls + 1, clock⟩ =
              (Except.ok (),
               ⟨⟨cms, svcs, secs, sas, rls, rbs, rts,
                 aset TransportDeploymentName (touchDep dep clock) deps⟩,
                tr ++ [Ev.lookup Kind.deployment TransportDeploymentName] ++
                  [Ev.update Kind.deployment TransportDeploymentName],
                calls + 1 + 1, clock⟩) := by
            simp only [updateDep_run, hnf (calls + 1), hd]
          rw [bind_ok hupd] at h
          obtain ⟨hok, hw⟩ := tailPrint_ok h
          refine ⟨by rw [hw], ⟨touchDep dep clock, ?_, hgi, hcn dep hd⟩, ?_⟩
          · rw [hw]
            exact alook_aset_self _ _ (fun hq => by
              rw [hd] at hq
              exact Option.noConfusion hq)
          · intro n hne
            rw [hw]
            exact alook_aset_ne hne _ _
      · -- image changed
        rw [him] at h
        rw [if_pos rfl] at h
        try dsimp only at h
        try simp only [Bool.true_or] at h
        try rw [if_pos trivial] at h
        try rw [if_pos rfl] at h
        try dsimp only at h
        rw [bind_ok (show nowM env
            ⟨⟨cms, svcs, secs, sas, rls, rbs, rts, deps⟩,
             tr ++ [Ev.lookup Kind.deployment TransportDeploymentName],
             calls + 1, clock⟩ =
            (Except.ok clock,
             ⟨⟨cms, svcs, secs, sas, rls, rbs, rts, deps⟩,
              tr ++ [Ev.lookup Kind.deployment TransportDeploymentName],
              calls + 1, clock⟩) from rfl)] at h
        try dsimp only at h
        try simp only [Bool.not_true] at h
        rw [if_neg (show ¬(false = true) from fun hc => Bool.noConfusion hc)] at h
        have hupd : updateDep TransportDeploymentName (setImage dep env.routerImage) env
            ⟨⟨cms, svcs, secs, sas, rls, rbs, rts, deps⟩,
             tr ++ [Ev.lookup Kind.deployment TransportDeploymentName],
             calls + 1, clock⟩ =
            (Except.ok (),
             ⟨⟨cms, svcs, secs, sas, rls, rbs, rts,
               aset TransportDeploymentName (setImage dep env.routerImage) deps⟩,
              tr ++ [Ev.lookup Kind.deployment TransportDeploymentName] ++
                [Ev.update Kind.deployment TransportDeploymentName],
              calls + 1 + 1, clock⟩) := by
          simp only [updateDep_run, hnf (calls + 1), hd]
        rw [bind_ok hupd] at h
        obtain ⟨hok, hw⟩ := tailPrint_ok h
        obtain ⟨hgi2, hc2⟩ := setImage_post dep env.routerImage (hcn dep hd)
        refine ⟨by rw [hw], ⟨setImage dep env.routerImage, ?_, hgi2, hc2⟩, ?_⟩
        · rw [hw]
          exact alook_aset_self _ _ (fun hq => by
            rw [hd] at hq
            exact Option.noConfusion hq)
        · intro n hne
          rw [hw]
          exact alook_aset_ne hne _ _
    · -- rename
      rw [if_pos rfl] at h
      revert h
      generalize hR : ({ dep with
          serviceAccountName := TransportServiceAccountName,
          secretMounts := updateSecretMounts (updateSecretMounts (updateSecretMounts
            dep.secretMounts Nm.amqps LocalServerSecret)
            Nm.internal SiteServerSecret)
            Nm.proxyCerts OauthRouterConsoleSecret,
          containers := updateOauthArgs dep.containers
            (nmStr TransportServiceAccountName) } : Dep) = R
      intro h
      try dsimp only at h
      have hRc : R.containers = updateOauthArgs dep.containers
          (nmStr TransportServiceAccountName) := by
        rw [← hR]
      have hRne : R.containers ≠ [] := by
        rw [hRc]
        exact updateOauthArgs_ne_nil _ _ (hcn dep hd)
      rcases him : (getImage R != env.routerImage) with _ | _
      · -- image already current on the renamed deployment
        have hgi : getImage R = env.routerImage := by
          by_contra hcon
          rw [bne_iff_ne.mpr hcon] at him
          exact Bool.noConfusion him
        rw [him] at h
        rw [if_neg (show ¬(false = true) from fun hc => Bool.noConfusion hc)] at h
        try dsimp only at h
        try simp only [Bool.true_or] at h
        try rw [if_pos trivial] at h
        try rw [if_pos rfl] at h
        try dsimp only at h
        rw [bind_ok (show nowM env
            ⟨⟨cms, svcs, secs, sas, rls, rbs, rts, deps⟩,
             tr ++ [Ev.lookup Kind.deployment TransportDeploymentName],
             calls + 1, clock⟩ =
            (Except.ok clock,
             ⟨⟨cms, svcs, secs, sas, rls, rbs, rts, deps⟩,
              tr ++ [Ev.lookup Kind.deployment TransportDeploymentName],
              calls + 1, clock⟩) from rfl)] at h
        try dsimp only at h
        try simp only [Bool.not_true] at h
        rw [if_neg (show ¬(false = true) from fun hc => Bool.noConfusion hc)] at h
        have hupd : updateDep TransportDeploymentName R env
            ⟨⟨cms, svcs, secs, sas, rls, rbs, rts, deps⟩,
             tr ++ [Ev.lookup Kind.deployment TransportDeploymentName],
             calls + 1, clock⟩ =
            (Except.ok (),
             ⟨⟨cms, svcs, secs, sas, rls, rbs, rts,
               aset TransportDeploymentName R deps⟩,
              tr ++ [Ev.lookup Kind.deployment TransportDeploymentName] ++
                [Ev.update Kind.deployment TransportDeploymentName],
              calls + 1 + 1, clock⟩) := by
          simp only [updateDep_run, hnf (calls + 1), hd]
        rw [bind_ok hupd] at h
        obtain ⟨hok, hw⟩ := tailPrint_ok h
        refine ⟨by rw [hw], ⟨R, ?_, hgi, hRne⟩, ?_⟩
        · rw [hw]
          exact alook_aset_self _ _ (fun hq => by
            rw [hd] at hq
            exact Option.noConfusion hq)
        · intro n hne
          rw [hw]
          exact alook_aset_ne hne _ _
      · -- image changed on the renamed deployment
        rw [him] at h
        rw [if_pos rfl] at h
        try dsimp only at h
        try simp only [Bool.true_or] at h
        try rw [if_pos trivial] at h
        try rw [if_pos rfl] at h
        try dsimp only at h
        rw [bind_ok (show nowM env
            ⟨⟨cms, svcs, secs, sas, rls, rbs, rts, deps⟩,
             tr ++ [Ev.lookup Kind.deployment TransportDeploymentName],
             calls + 1, clock⟩ =
            (Except.ok clock,
             ⟨⟨cms, svcs, secs, sas, rls, rbs, rts, deps⟩,
              tr ++ [Ev.lookup Kind.deployment TransportDeploymentName],
              calls + 1, clock⟩) from rfl)] at h
        try dsimp only at h
        try simp only [Bool.not_true] at h
        rw [if_neg (show ¬(false = true) from fun hc => Bool.noConfusion hc)] at h
        have hupd : updateDep TransportDeploymentName (setImage R env.routerImage) env
            ⟨⟨cms, svcs, secs, sas, rls, rbs, rts, deps⟩,
             tr ++ [Ev.lookup Kind.deployment TransportDeploymentName],
             calls + 1, clock⟩ =
            (Except.ok (),
             ⟨⟨cms, svcs, secs, sas, rls, rbs, rts,
               aset TransportDeploymentName (setImage R env.routerImage) deps⟩,
              tr ++ [Ev.lookup Kind.deployment TransportDeploymentName] ++
                [Ev.update Kind.deployment TransportDeploymentName],
              calls + 1 + 1, clock⟩) := by
          simp only [updateDep_run, hnf (calls + 1), hd]
        rw [bind_ok hupd] at h
        obtain ⟨hok, hw⟩ := tailPrint_ok h
        obtain ⟨hgi2, hc2⟩ := setImage_post R env.routerImage hRne
        refine ⟨by rw [hw], ⟨setImage R env.routerImage, ?_, hgi2, hc2⟩, ?_⟩
        · rw [hw]
          exact alook_aset_self _ _ (fun hq => by
            rw [hd] at hq
            exact Option.noConfusion hq)
        · intro n hne
          rw [hw]
          exact alook_aset_ne hne _ _

theorem controllerPhase_ok_post (rn hup clb : Bool) (env : Env) (s : St)
    (uc : Bool) (s₂ : St)
    (hnf : NoFaults env)
    (hcn : ∀ dep, alook ControllerDeploymentName s.w.deployments = some dep →
      dep.containers ≠ [])
    (h : controllerPhase rn hup clb env s = (Except.ok uc, s₂)) :
    s₂.w.configmaps = s.w.configmaps ∧
    (∃ dep₂, alook ControllerDeploymentName s₂.w.deployments = some dep₂ ∧
      getImage dep₂ = env.controllerImage ∧ dep₂.containers ≠ []) ∧
    (∀ n, ¬n = ControllerDeploymentName →
      alook n s₂.w.deployments = alook n s.w.deployments) := by
  rcases s with ⟨⟨cms, svcs, secs, sas, rls, rbs, rts, deps⟩, tr, calls, clock⟩
  unfold controllerPhase at h
  rw [bind_ok (show askEnv env ⟨⟨cms, svcs, secs, sas, rls, rbs, rts, deps⟩, tr, calls, clock⟩ =
    (Except.ok env, ⟨⟨cms, svcs, secs, sas, rls, rbs, rts, deps⟩, tr, calls, clock⟩)
    from rfl)] at h
  rcases hd : alook ControllerDeploymentName deps with _ | dep
  · have hge : getDep ControllerDeploymentName env
        ⟨⟨cms, svcs, secs, sas, rls, rbs, rts, deps⟩, tr, calls, clock⟩ =
        (Except.error (Err.api ApiErr.notFound),
         ⟨⟨cms, svcs, secs, sas, rls, rbs, rts, deps⟩,
          tr ++ [Ev.lookup Kind.deployment ControllerDeploymentName], calls + 1, clock⟩) := by
      simp only [getDep_run, hnf calls, hd]
    rw [bind_error hge] at h
    exact pairErrNe h
  · have hge : getDep ControllerDeploymentName env
        ⟨⟨cms, svcs, secs, sas, rls, rbs, rts, deps⟩, tr, calls, clock⟩ =
        (Except.ok dep,
         ⟨⟨cms, svcs, secs, sas, rls, rbs, rts, deps⟩,
          tr ++ [Ev.lookup Kind.deployment ControllerDeploymentName], calls + 1, clock⟩) := by
      simp only [getDep_run, hnf calls, hd]
    rw [bind_ok hge] at h
    try dsimp only at h
    rcases rn with _ | _
    · -- no rename
      rw [if_neg (show ¬(false = true) from fun hc => Bool.noConfusion hc)] at h
      try dsimp only at h
      rcases him : (getImage dep != env.controllerImage) with _ | _
      · -- image already current
        have hgi : getImage dep = env.controllerImage := by
          by_contra hcon
          rw [bne_iff_ne.mpr hcon] at him
          exact Bool.noConfusion him
        rw [him] at h
        rw [if_neg (show ¬(false = true) from fun hc => Bool.noConfusion hc)] at h
        try dsimp only at h
        try simp only [Bool.false_or] at h
        rcases hbh : hup with _ | _
        · -- nothing to do
          rw [hbh] at h
          rw [if_neg (show ¬(false = true) from fun hc => Bool.noConfusion hc)] at h
          have h2 : ((Except.ok false,
              (⟨⟨cms, svcs, secs, sas, rls, rbs, rts, deps⟩,
               tr ++ [Ev.lookup Kind.deployment ControllerDeploymentName],
               calls + 1, clock⟩ : St)) :
              Except Err Bool × St) = (Except.ok uc, s₂) := h
          cases h2
          exact ⟨rfl, ⟨dep, hd, hgi, hcn dep hd⟩, fun n _ => rfl⟩
        · -- forced restart: touch and redeploy
          rw [hbh] at h
          rw [if_pos rfl] at h
          try dsimp only at h
          rw [bind_ok (show nowM env
              ⟨⟨cms, svcs, secs, sas, rls, rbs, rts, deps⟩,
               tr ++ [Ev.lookup Kind.deployment ControllerDeploymentName],
               calls + 1, clock⟩ =
              (Except.ok clock,
               ⟨⟨cms, svcs, secs, sas, rls, rbs, rts, deps⟩,
                tr ++ [Ev.lookup Kind.deployment ControllerDeploymentName],
                calls + 1, clock⟩) from rfl)] at h
          try dsimp only at h
          try simp only [Bool.not_false] at h
          try rw [if_pos rfl] at h
          try rw [if_pos trivial] at h
          have hupd : updateDep ControllerDeploymentName (touchDep dep clock) env
              ⟨⟨cms, svcs, secs, sas, rls, rbs, rts, deps⟩,
               tr ++ [Ev.lookup Kind.deployment ControllerDeploymentName],
               calls + 1, clock⟩ =
              (Except.ok (),
               ⟨⟨cms, svcs, secs, sas, rls, rbs, rts,
                 aset ControllerDeploymentName (touchDep dep clock) deps⟩,
                tr ++ [Ev.lookup Kind.deployment ControllerDeploymentName] ++
                  [Ev.update Kind.deployment ControllerDeploymentName],
                calls + 1 + 1, clock⟩) := by
            simp only [updateDep_run, hnf (calls + 1), hd]
          rw [bind_ok hupd] at h
          obtain ⟨hcf2, hdf2⟩ := tailPoll_ok h
          refine ⟨by rw [hcf2], ⟨touchDep dep clock, ?_, hgi, hcn dep hd⟩, ?_⟩
          · rw [hdf2]
            exact alook_aset_self _ _ (fun hq => by
              rw [hd] at hq
              exact Option.noConfusion hq)
          · intro n hne
            rw [hdf2]
            exact alook_aset_ne hne _ _
      · -- image changed
        rw [him] at h
        rw [if_pos rfl] at h
        try dsimp only at h
        try simp only [Bool.true_or] at h
        try rw [if_pos trivial] at h
        try rw [if_pos rfl] at h
        try dsimp only at h
        rw [bind_ok (show nowM env
            ⟨⟨cms, svcs, secs, sas, rls, rbs, rts, deps⟩,
             tr ++ [Ev.lookup Kind.deployment ControllerDeploymentName],
             calls + 1, clock⟩ =
            (Except.ok clock,
             ⟨⟨cms, svcs, secs, sas, rls, rbs, rts, deps⟩,
              tr ++ [Ev.lookup Kind.deployment ControllerDeploymentName],
              calls + 1, clock⟩) from rfl)] at h
        try dsimp only at h
        try simp only [Bool.not_true] at h
        rw [if_neg (show ¬(false = true) from fun hc => Bool.noConfusion hc)] at h
        have hupd : updateDep ControllerDeploymentName (setImage dep env.controllerImage) env
            ⟨⟨cms, svcs, secs, sas, rls, rbs, rts, deps⟩,
             tr ++ [Ev.lookup Kind.deployment ControllerDeploymentName],
             calls + 1, clock⟩ =
            (Except.ok (),
             ⟨⟨cms, svcs, secs, sas, rls, rbs, rts,
               aset ControllerDeploymentName (setImage dep env.controllerImage) deps⟩,
              tr ++ [Ev.lookup Kind.deployment ControllerDeploymentName] ++
                [Ev.update Kind.deployment ControllerDeploymentName],
              calls + 1 + 1, clock⟩) := by
          simp only [updateDep_run, hnf (calls + 1), hd]
        rw [bind_ok hupd] at h
        obtain ⟨hcf2, hdf2⟩ := tailPoll_ok h
        obtain ⟨hgi2, hc2⟩ := setImage_post dep env.controllerImage (hcn dep hd)
        refine ⟨by rw [hcf2], ⟨setImage dep env.controllerImage, ?_, hgi2, hc2⟩, ?_⟩
        · rw [hdf2]
          exact alook_aset_self _ _ (fun hq => by
            rw [hd] at hq
            exact Option.noConfusion hq)
        · intro n hne
          rw [hdf2]
          exact alook_aset_ne hne _ _
    · -- rename
      rw [if_pos rfl] at h
      revert h
      generalize hR : ({ dep with
          serviceAccountName := ControllerServiceAccountName,
          secretMounts := updateSecretMounts (updateSecretMounts
            dep.secretMounts Nm.skupper LocalClientSecret)
            Nm.controllerCerts OauthConsoleSecret,
          containers := updateOauthArgs dep.containers
            (nmStr ControllerServiceAccountName) } : Dep) = R
      intro h
      try dsimp only at h
      have hRc : R.containers = updateOauthArgs dep.containers
          (nmStr ControllerServiceAccountName) := by
        rw [← hR]
      have hRne : R.containers ≠ [] := by
        rw [hRc]
        exact updateOauthArgs_ne_nil _ _ (hcn dep hd)
      rcases him : (getImage R != env.controllerImage) with _ | _
      · -- image already current on the renamed deployment
        have hgi : getImage R = env.controllerImage := by
          by_contra hcon
          rw [bne_iff_ne.mpr hcon] at him
          exact Bool.noConfusion him
        rw [him] at h
        rw [if_neg (show ¬(false = true) from fun hc => Bool.noConfusion hc)] at h
        try dsimp only at h
        try simp only [Bool.true_or] at h
        try rw [if_pos trivial] at h
        try rw [if_pos rfl] at h
        try dsimp only at h
        rw [bind_ok (show nowM env
            ⟨⟨cms, svcs, secs, sas, rls, rbs, rts, deps⟩,
             tr ++ [Ev.lookup Kind.deployment ControllerDeploymentName],
             calls + 1, clock⟩ =
            (Except.ok clock,
             ⟨⟨cms, svcs, secs, sas, rls, rbs, rts, deps⟩,
              tr ++ [Ev.lookup Kind.deployment ControllerDeploymentName],
              calls + 1, clock⟩) from rfl)] at h
        try dsimp only at h
        try simp only [Bool.not_true] at h
        rw [if_neg (show ¬(false = true) from fun hc => Bool.noConfusion hc)] at h
        have hupd : updateDep ControllerDeploymentName R env
            ⟨⟨cms, svcs, secs, sas, rls, rbs, rts, deps⟩,
             tr ++ [Ev.lookup Kind.deployment ControllerDeploymentName],
             calls + 1, clock⟩ =
            (Except.ok (),
             ⟨⟨cms, svcs, secs, sas, rls, rbs, rts,
               aset ControllerDeploymentName R deps⟩,
              tr ++ [Ev.lookup Kind.deployment ControllerDeploymentName] ++
                [Ev.update Kind.deployment ControllerDeploymentName],
              calls + 1 + 1, clock⟩) := by
          simp only [updateDep_run, hnf (calls + 1), hd]
        rw [bind_ok hupd] at h
        obtain ⟨hcf2, hdf2⟩ := tailPoll_ok h
        refine ⟨by rw [hcf2], ⟨R, ?_, hgi, hRne⟩, ?_⟩
        · rw [hdf2]
          exact alook_aset_self _ _ (fun hq => by
            rw [hd] at hq
            exact Option.noConfusion hq)
        · intro n hne
          rw [hdf2]
          exact alook_aset_ne hne _ _
      · -- image changed on the renamed deployment
        rw [him] at h
        rw [if_pos rfl] at h
        try dsimp only at h
        try simp only [Bool.true_or] at h
        try rw [if_pos trivial] at h
        try rw [if_pos rfl] at h
        try dsimp only at h
        rw [bind_ok (show nowM env
            ⟨⟨cms, svcs, secs, sas, rls, rbs, rts, deps⟩,
             tr ++ [Ev.lookup Kind.deployment ControllerDeploymentName],
             calls + 1, clock⟩ =
            (Except.ok clock,
             ⟨⟨cms, svcs, secs, sas, rls, rbs, rts, deps⟩,
              tr ++ [Ev.lookup Kind.deployment ControllerDeploymentName],
              calls + 1, clock⟩) from rfl)] at h
        try dsimp only at h
        try simp only [Bool.not_true] at h
        rw [if_neg (show ¬(false = true) from fun hc => Bool.noConfusion hc)] at h
        have hupd : updateDep ControllerDeploymentName (setImage R env.controllerImage) env
            ⟨⟨cms, svcs, secs, sas, rls, rbs, rts, deps⟩,
             tr ++ [Ev.lookup Kind.deployment ControllerDeploymentName],
             calls + 1, clock⟩ =
            (Except.ok (),
             ⟨⟨cms, svcs, secs, sas, rls, rbs, rts,
               aset ControllerDeploymentName (setImage R env.controllerImage) deps⟩,
              tr ++ [Ev.lookup Kind.deployment ControllerDeploymentName] ++
                [Ev.update Kind.deployment ControllerDeploymentName],
              calls + 1 + 1, clock⟩) := by
          simp only [updateDep_run, hnf (calls + 1), hd]
        rw [bind_ok hupd] at h
        obtain ⟨hcf2, hdf2⟩ := tailPoll_ok h
        obtain ⟨hgi2, hc2⟩ := setImage_post R env.controllerImage hRne
        refine ⟨by rw [hcf2], ⟨setImage R env.controllerImage, ?_, hgi2, hc2⟩, ?_⟩
        · rw [hdf2]
          exact alook_aset_self _ _ (fun hq => by
            rw [hd] at hq
            exact Option.noConfusion hq)
        · intro n hne
          rw [hdf2]
          exact alook_aset_ne hne _ _
theorem mainBody_ok_post (hup : Bool) (ns : String) (env : Env) (s : St)
    (fl : RunFlags) (s₂ : St)
    (hnf : NoFaults env)
    (hcT : ∀ dep, alook TransportDeploymentName s.w.deployments = some dep →
      dep.containers ≠ [])
    (hcC : ∀ dep, alook ControllerDeploymentName s.w.deployments = some dep →
      dep.containers ≠ [])
    (h : mainBody hup ns env s = (Except.ok fl, s₂)) :
    (∃ site₂ ow, alook TransportConfigMapName s₂.w.configmaps =
        some ⟨CMContent.router site₂, ow⟩ ∧ site₂.version = env.libVersion) ∧
    (fl.inprogress = false → alook markerName s₂.w.configmaps = none) ∧
    (fl.inprogress = true → (alook markerName s₂.w.configmaps).isSome = true) ∧
    (∃ depT, alook TransportDeploymentName s₂.w.deployments = some depT ∧
      getImage depT = env.routerImage ∧ depT.containers ≠ []) ∧
    (∃ depC, alook ControllerDeploymentName s₂.w.deployments = some depC ∧
      getImage depC = env.controllerImage ∧ depC.containers ≠ []) := by
  unfold mainBody at h
  rcases hv : versionPhase env s with ⟨rv, sv⟩
  rcases rv with ev | ⟨cm0, us, rn, ip⟩
  · rw [bind_error hv] at h
    exact pairErrNe h
  · obtain ⟨hdepf, hcmT, hmkA, hmkP⟩ := versionPhase_ok_post env s cm0 us rn ip sv hnf hv
    rw [bind_ok hv] at h
    try dsimp only at h
    rcases rn with _ | _
    · -- no rename migration this run
      rw [if_neg (show ¬(false = true) from fun hc => Bool.noConfusion hc)] at h
      rw [bind_ok (show M.pure ((false : Bool), (false : Bool), (false : Bool)) env sv =
        (Except.ok ((false : Bool), (false : Bool), (false : Bool)), sv) from rfl)] at h
      try dsimp only at h
      rcases hrp : routerPhase false us hup false env sv with ⟨rr, sr⟩
      rcases rr with er | urB
      · rw [bind_error hrp] at h
        exact pairErrNe h
      · have hcTv : ∀ dep, alook TransportDeploymentName sv.w.deployments = some dep →
            dep.containers ≠ [] := by
          rw [hdepf]
          exact hcT
        obtain ⟨hrc, ⟨depT, hdT, hgT, hcT2⟩, hrothers⟩ :=
          routerPhase_ok_post false us hup false env sv urB sr hnf hcTv hrp
        rw [bind_ok hrp] at h
        try dsimp only at h
        rcases hcp : controllerPhase false hup false env sr with ⟨rc, sc⟩
        rcases rc with ec | ucB
        · rw [bind_error hcp] at h
          exact pairErrNe h
        · have hcCv : ∀ dep, alook ControllerDeploymentName sr.w.deployments = some dep →
              dep.containers ≠ [] := by
            intro dep hdd
            rw [hrothers ControllerDeploymentName (by decide), hdepf] at hdd
            exact hcC dep hdd
          obtain ⟨hcc, ⟨depC, hdC, hgC, hcC2⟩, hcothers⟩ :=
            controllerPhase_ok_post false hup false env sr ucB sc hnf hcCv hcp
          rw [bind_ok hcp] at h
          try dsimp only at h
          rw [if_neg (show ¬(false = true) from fun hc => Bool.noConfusion hc)] at h
          rw [bind_ok (show M.pure () env sc = (Except.ok (), sc) from rfl)] at h
          have h2 : ((Except.ok (⟨urB, ucB, us, ip, false⟩ : RunFlags), sc) :
              Except Err RunFlags × St) = (Except.ok fl, s₂) := h
          cases h2
          refine ⟨?_, ?_, ?_, ?_, ⟨depC, hdC, hgC, hcC2⟩⟩
          · rw [hcc, hrc]
            exact hcmT
          · intro hip
            rw [hcc, hrc]
            exact hmkA hip
          · intro hip
            rw [hcc, hrc]
            exact hmkP hip
          · refine ⟨depT, ?_, hgT, hcT2⟩
            rw [hcothers TransportDeploymentName (by decide)]
            exact hdT
    · -- rename migration
      rw [if_pos rfl] at h
      rcases hrnp : renamePhase ns cm0 env sv with ⟨rrn, srn⟩
      rcases rrn with ern | ⟨urts, clb, rei⟩
      · rw [bind_error hrnp] at h
        exact pairErrNe h
      · obtain ⟨hncf, hndf, _, _⟩ :=
          tame_renamePhase ns cm0 env sv (Except.ok (urts, clb, rei)) srn hrnp
        rw [bind_ok hrnp] at h
        try dsimp only at h
        rcases hrp : routerPhase true us hup rei env srn with ⟨rr, sr⟩
        rcases rr with er | urB
        · rw [bind_error hrp] at h
          exact pairErrNe h
        · have hcTv : ∀ dep, alook TransportDeploymentName srn.w.deployments = some dep →
              dep.containers ≠ [] := by
            rw [hndf, hdepf]
            exact hcT
          obtain ⟨hrc, ⟨depT, hdT, hgT, hcT2⟩, hrothers⟩ :=
            routerPhase_ok_post true us hup rei env srn urB sr hnf hcTv hrp
          rw [bind_ok hrp] at h
          try dsimp only at h
          rcases hcp : controllerPhase true hup clb env sr with ⟨rc, sc⟩
          rcases rc with ec | ucB
          · rw [bind_error hcp] at h
            exact pairErrNe h
          · have hcCv : ∀ dep, alook ControllerDeploymentName sr.w.deployments = some dep →
                dep.containers ≠ [] := by
              intro dep hdd
              rw [hrothers ControllerDeploymentName (by decide), hndf, hdepf] at hdd
              exact hcC dep hdd
            obtain ⟨hcc, ⟨depC, hdC, hgC, hcC2⟩, hcothers⟩ :=
              controllerPhase_ok_post true hup clb env sr ucB sc hnf hcCv hcp
            rw [bind_ok hcp] at h
            try dsimp only at h
            rw [if_pos rfl] at h
            rcases hclp : cleanupPhase urts env sc with ⟨rcl, scl⟩
            rcases rcl with ecl | ucl
            · rw [bind_error hclp] at h
              exact pairErrNe h
            · obtain ⟨hccf, hcdf, _, _⟩ :=
                tame_cleanupPhase urts env sc (Except.ok ucl) scl hclp
              rw [bind_ok hclp] at h
              have h2 : ((Except.ok (⟨urB, ucB, us, ip, true⟩ : RunFlags), scl) :
                  Except Err RunFlags × St) = (Except.ok fl, s₂) := h
              cases h2
              refine ⟨?_, ?_, ?_, ?_, ?_⟩
              · rw [hccf, hcc, hrc, hncf]
                exact hcmT
              · intro hip
                rw [hccf, hcc, hrc, hncf]
                exact hmkA hip
              · intro hip
                rw [hccf, hcc, hrc, hncf]
                exact hmkP hip
              · refine ⟨depT, ?_, hgT, hcT2⟩
                rw [hcdf, hcothers TransportDeploymentName (by decide)]
                exact hdT
              · refine ⟨depC, ?_, hgC, hcC2⟩
                rw [hcdf]
                exact hdC

theorem versionPhase_noop (env : Env)
    (cms : List (Nm × ConfigMap)) (svcs : List (Nm × SvcData)) (secs : List (Nm × String))
    (sas : List (Nm × SA)) (rls rbs : List (Nm × Unit)) (rts : List (Nm × Route))
    (deps : List (Nm × Dep)) (tr : List Ev) (calls clock : Nat)
    (site : SiteMeta) (ow : List String)
    (hnf : NoFaults env)
    (hcm : alook TransportConfigMapName cms = some ⟨CMContent.router site, ow⟩)
    (hsv : site.version = env.libVersion)
    (hmk : alook markerName cms = none) :
    versionPhase env ⟨⟨cms, svcs, secs, sas, rls, rbs, rts, deps⟩, tr, calls, clock⟩ =
      (Except.ok ((⟨CMContent.router site, ow⟩ : ConfigMap), false, false, false),
       ⟨⟨cms, svcs, secs, sas, rls, rbs, rts, deps⟩,
        tr ++ [Ev.lookup Kind.configmap TransportConfigMapName] ++
          [Ev.lookup Kind.configmap markerName],
        calls + 1 + 1, clock⟩) := by
  have hlt : lessRecentThanVersion env.libVersion site.version = false := by
    unfold lessRecentThanVersion
    rw [hsv]
    exact numsLess_irrefl _
  have hmr : moreRecentThanVersion env.libVersion site.version = false := by
    unfold moreRecentThanVersion
    rw [hsv]
    exact numsLess_irrefl _
  have hbne : (env.libVersion != site.version) = false := by
    rw [hsv]
    exact bne_self_eq_false _
  unfold versionPhase
  rw [bind_ok (show askEnv env ⟨⟨cms, svcs, secs, sas, rls, rbs, rts, deps⟩, tr, calls, clock⟩ =
    (Except.ok env, ⟨⟨cms, svcs, secs, sas, rls, rbs, rts, deps⟩, tr, calls, clock⟩)
    from rfl)]
  have hge : getCM TransportConfigMapName env
      ⟨⟨cms, svcs, secs, sas, rls, rbs, rts, deps⟩, tr, calls, clock⟩ =
      (Except.ok ⟨CMContent.router site, ow⟩,
       ⟨⟨cms, svcs, secs, sas, rls, rbs, rts, deps⟩,
        tr ++ [Ev.lookup Kind.configmap TransportConfigMapName], calls + 1, clock⟩) := by
    simp only [getCM_run, hnf calls, hcm]
  rw [bind_ok hge]
  try dsimp only
  rw [bind_ok (show getRouterConfig ⟨CMContent.router site, ow⟩ env
      ⟨⟨cms, svcs, secs, sas, rls, rbs, rts, deps⟩,
       tr ++ [Ev.lookup Kind.configmap TransportConfigMapName], calls + 1, clock⟩ =
      (Except.ok site,
       ⟨⟨cms, svcs, secs, sas, rls, rbs, rts, deps⟩,
        tr ++ [Ev.lookup Kind.configmap TransportConfigMapName], calls + 1, clock⟩)
      from rfl)]
  try dsimp only
  rw [hlt]
  rw [if_neg (show ¬(false = true) from fun hc => Bool.noConfusion hc)]
  rw [bind_ok (isUpdatingM_absent env ⟨cms, svcs, secs, sas, rls, rbs, rts, deps⟩
    (tr ++ [Ev.lookup Kind.configmap TransportConfigMapName]) (calls + 1) clock hnf hmk)]
  try dsimp only
  try simp only [Bool.false_and, Bool.not_false, Bool.true_and]
  rw [hmr, hbne]
  simp only [Bool.and_false, Bool.false_or]
  rw [if_neg (show ¬(false = true) from fun hc => Bool.noConfusion hc)]
  rfl

theorem runUpdate_noop (ns : String) (env : Env)
    (cms : List (Nm × ConfigMap)) (svcs : List (Nm × SvcData)) (secs : List (Nm × String))
    (sas : List (Nm × SA)) (rls rbs : List (Nm × Unit)) (rts : List (Nm × Route))
    (deps : List (Nm × Dep)) (tr : List Ev) (calls clock : Nat)
    (site : SiteMeta) (ow : List String) (depT depC : Dep)
    (hnf : NoFaults env)
    (hcm : alook TransportConfigMapName cms = some ⟨CMContent.router site, ow⟩)
    (hsv : site.version = env.libVersion)
    (hmk : alook markerName cms = none)
    (hdT : alook TransportDeploymentName deps = some depT)
    (hgT : getImage depT = env.routerImage)
    (hdC : alook ControllerDeploymentName deps = some depC)
    (hgC : getImage depC = env.controllerImage) :
    runUpdate false ns env ⟨⟨cms, svcs, secs, sas, rls, rbs, rts, deps⟩, tr, calls, clock⟩ =
      ((false, none),
       ⟨⟨cms, svcs, secs, sas, rls, rbs, rts, deps⟩,
        tr ++ [Ev.lookup Kind.configmap TransportConfigMapName] ++
          [Ev.lookup Kind.configmap markerName] ++
          [Ev.lookup Kind.deployment TransportDeploymentName] ++
          [Ev.lookup Kind.deployment ControllerDeploymentName],
        calls + 1 + 1 + 1 + 1, clock⟩) := by
  have hmb : mainBody false ns env
      ⟨⟨cms, svcs, secs, sas, rls, rbs, rts, deps⟩, tr, calls, clock⟩ =
      (Except.ok (⟨false, false, false, false, false⟩ : RunFlags),
       ⟨⟨cms, svcs, secs, sas, rls, rbs, rts, deps⟩,
        tr ++ [Ev.lookup Kind.configmap TransportConfigMapName] ++
          [Ev.lookup Kind.configmap markerName] ++
          [Ev.lookup Kind.deployment TransportDeploymentName] ++
          [Ev.lookup Kind.deployment ControllerDeploymentName],
        calls + 1 + 1 + 1 + 1, clock⟩) := by
    unfold mainBody
    rw [bind_ok (versionPhase_noop env cms svcs secs sas rls rbs rts deps tr calls clock
      site ow hnf hcm hsv hmk)]
    try dsimp only
    rw [if_neg (show ¬(false = true) from fun hc => Bool.noConfusion hc)]
    rw [bind_ok (show M.pure ((false : Bool), (false : Bool), (false : Bool)) env
        ⟨⟨cms, svcs, secs, sas, rls, rbs, rts, deps⟩,
         tr ++ [Ev.lookup Kind.configmap TransportConfigMapName] ++
           [Ev.lookup Kind.configmap markerName], calls + 1 + 1, clock⟩ =
        (Except.ok ((false : Bool), (false : Bool), (false : Bool)),
         ⟨⟨cms, svcs, secs, sas, rls, rbs, rts, deps⟩,
          tr ++ [Ev.lookup Kind.configmap TransportConfigMapName] ++
            [Ev.lookup Kind.configmap markerName], calls + 1 + 1, clock⟩)
        from rfl)]
    try dsimp only
    have hrp : routerPhase false false false false env
        ⟨⟨cms, svcs, secs, sas, rls, rbs, rts, deps⟩,
         tr ++ [Ev.lookup Kind.configmap TransportConfigMapName] ++
           [Ev.lookup Kind.configmap markerName], calls + 1 + 1, clock⟩ =
        (Except.ok false,
         ⟨⟨cms, svcs, secs, sas, rls, rbs, rts, deps⟩,
          tr ++ [Ev.lookup Kind.configmap TransportConfigMapName] ++
            [Ev.lookup Kind.configmap markerName] ++
            [Ev.lookup Kind.deployment TransportDeploymentName],
          calls + 1 + 1 + 1, clock⟩) := by
      rw [routerPhase_nr false false env cms svcs secs sas rls rbs rts deps
        (tr ++ [Ev.lookup Kind.configmap TransportConfigMapName] ++
          [Ev.lookup Kind.configmap markerName]) (calls + 1 + 1) clock depT hnf hdT hgT]
      rw [if_neg (show ¬((false || false : Bool) = true) by decide)]
    rw [bind_ok hrp]
    try dsimp only
    have hcp : controllerPhase false false false env
        ⟨⟨cms, svcs, secs, sas, rls, rbs, rts, deps⟩,
         tr ++ [Ev.lookup Kind.configmap TransportConfigMapName] ++
           [Ev.lookup Kind.configmap markerName] ++
           [Ev.lookup Kind.deployment TransportDeploymentName],
         calls + 1 + 1 + 1, clock⟩ =
        (Except.ok false,
         ⟨⟨cms, svcs, secs, sas, rls, rbs, rts, deps⟩,
          tr ++ [Ev.lookup Kind.configmap TransportConfigMapName] ++
            [Ev.lookup Kind.configmap markerName] ++
            [Ev.lookup Kind.deployment TransportDeploymentName] ++
            [Ev.lookup Kind.deployment ControllerDeploymentName],
          calls + 1 + 1 + 1 + 1, clock⟩) := by
      rw [controllerPhase_nr false env cms svcs secs sas rls rbs rts deps
        (tr ++ [Ev.lookup Kind.configmap TransportConfigMapName] ++
          [Ev.lookup Kind.configmap markerName] ++
          [Ev.lookup Kind.deployment TransportDeploymentName])
        (calls + 1 + 1 + 1) clock depC hnf hdC hgC]
      rw [if_neg (show ¬((false : Bool) = true) by decide)]
    rw [bind_ok hcp]
    try dsimp only
    rw [if_neg (show ¬(false = true) from fun hc => Bool.noConfusion hc)]
    rfl
  unfold runUpdate
  rw [hmb]
  rfl

/-- C8: re-invoking `RouterUpdateVersionInNamespace` immediately after a
successful invocation — force-restart unset, no intervening state change, no
injected faults, workload pods well-formed (non-empty container lists) —
performs zero additional mutations of the object store (the second run only
performs lookups, its store is identical, and its mutation trace is
unchanged) and returns `(false, nil)`: "no update needed". -/
theorem C8_idempotent (hup : Bool) (ns : String) (env : Env) (s : St)
    (b : Bool) (s₁ : St)
    (hnf : NoFaults env)
    (hcT : ∀ dep, alook TransportDeploymentName s.w.deployments = some dep →
      dep.containers ≠ [])
    (hcC : ∀ dep, alook ControllerDeploymentName s.w.deployments = some dep →
      dep.containers ≠ [])
    (h : runUpdate hup ns env s = ((b, none), s₁)) :
    ∃ s₂, runUpdate false ns env s₁ = ((false, none), s₂) ∧
      s₂.w = s₁.w ∧ mutations s₂.tr = mutations s₁.tr := by
  unfold runUpdate at h
  rcases hmb : mainBody hup ns env s with ⟨rm, sm⟩
  rw [hmb] at h
  rcases rm with em | fl
  · try dsimp only at h
    exact Option.noConfusion (congrArg (fun p => p.1.2) h)
  · obtain ⟨⟨site₂, ow, hcm2, hsv2⟩, hmkA, hmkP, ⟨depT, hdT, hgT, hcT2⟩,
      ⟨depC, hdC, hgC, hcC2⟩⟩ :=
      mainBody_ok_post hup ns env s fl sm hnf hcT hcC hmb
    rcases sm with ⟨⟨cms1, svcs1, secs1, sas1, rls1, rbs1, rts1, deps1⟩, tr1, calls1, clock1⟩
    have hcm2b : alook TransportConfigMapName cms1 =
        some ⟨CMContent.router site₂, ow⟩ := hcm2
    have hdTb : alook TransportDeploymentName deps1 = some depT := hdT
    have hdCb : alook ControllerDeploymentName deps1 = some depC := hdC
    try dsimp only at h
    rcases hip : fl.inprogress with _ | _
    · -- marker never existed in the first run
      have hmkb : alook markerName cms1 = none := hmkA hip
      rw [hip] at h
      rw [if_neg (show ¬(false = true) from fun hc => Bool.noConfusion hc)] at h
      have h2 : (((fl.updateRouter || fl.updateController || fl.updateSite,
          (none : Option Err)),
          (⟨⟨cms1, svcs1, secs1, sas1, rls1, rbs1, rts1, deps1⟩,
           tr1, calls1, clock1⟩ : St)) :
          (Bool × Option Err) × St) = ((b, none), s₁) := h
      cases h2
      refine ⟨_, runUpdate_noop ns env cms1 svcs1 secs1 sas1 rls1 rbs1 rts1 deps1
        tr1 calls1 clock1 site₂ ow depT depC hnf hcm2b hsv2 hmkb hdTb hgT hdCb hgC,
        rfl, ?_⟩
      simp only [mutations_append, mutations_lookup, List.append_nil]
    · -- the wrapper deletes the marker after a successful main body
      have hism : (alook markerName cms1).isSome = true := hmkP hip
      rw [hip] at h
      rw [if_pos rfl] at h
      rcases hmm : alook markerName cms1 with _ | mm
      · rw [hmm] at hism
        exact Bool.noConfusion hism
      · have hdel : updateCompleted env
            ⟨⟨cms1, svcs1, secs1, sas1, rls1, rbs1, rts1, deps1⟩, tr1, calls1, clock1⟩ =
            (Except.ok (),
             ⟨⟨adel markerName cms1, svcs1, secs1, sas1, rls1, rbs1, rts1, deps1⟩,
              tr1 ++ [Ev.delete Kind.configmap markerName], calls1 + 1, clock1⟩) := by
          rw [show (updateCompleted : M Unit) = deleteCM markerName from rfl]
          simp only [deleteCM_run, hnf calls1, hmm]
        rw [hdel] at h
        try dsimp only at h
        have h2 : (((fl.updateRouter || fl.updateController || fl.updateSite,
            (none : Option Err)),
            (⟨⟨adel markerName cms1, svcs1, secs1, sas1, rls1, rbs1, rts1, deps1⟩,
             tr1 ++ [Ev.delete Kind.configmap markerName], calls1 + 1, clock1⟩ : St)) :
            (Bool × Option Err) × St) = ((b, none), s₁) := h
        cases h2
        refine ⟨_, runUpdate_noop ns env (adel markerName cms1) svcs1 secs1 sas1 rls1 rbs1
          rts1 deps1 (tr1 ++ [Ev.delete Kind.configmap markerName]) (calls1 + 1) clock1
          site₂ ow depT depC hnf ?_ hsv2 ?_ hdTb hgT hdCb hgC, rfl, ?_⟩
        · rw [alook_adel_ne (show ¬TransportConfigMapName = markerName by decide)]
          exact hcm2b
        · exact alook_adel_self _ _
        · simp only [mutations_append, mutations_lookup, List.append_nil]

/-- Witness for C8: on the equivalent-version world (stored `0.6.0-rc1`,
library `0.6.0`, both workload images current) the first invocation reports
an update and the immediate second invocation is a pure no-op. -/
theorem C8_idempotent_witness :
    ∃ s₂, runUpdate false "ns" baseEnv (runUpdate false "ns" baseEnv (st0 equivWorld)).2 =
        ((false, none), s₂) ∧
      s₂.w = (runUpdate false "ns" baseEnv (st0 equivWorld)).2.w ∧
      mutations s₂.tr = mutations (runUpdate false "ns" baseEnv (st0 equivWorld)).2.tr :=
  C8_idempotent false "ns" baseEnv (st0 equivWorld) true _ (fun _ => rfl)
    (fun dep hd => by
      injection hd with hd2
      rw [← hd2]
      exact fun hc => List.noConfusion hc)
    (fun dep hd => by
      injection hd with hd2
      rw [← hd2]
      exact fun hc => List.noConfusion hc)
    rfl
end SkupperUpdate
